import Mathlib

/-! First-hit ray tracer (`FirstHitRayTracer/rt2.cpp`) and model-transform viewer
(`OpenGl Viewer - Model Transform/benchmark.cpp`, `rotate.cpp`, `object.cpp`)

A shallow embedding of the geometric core of `rt2.cpp` (intersection, shading, the
recursive tracer, the camera and the frame driver) and of three functions of the viewer
(`createTestMesh`, `loadOBJ`, `rotateAroundAxis`).

The functions of `rt2.cpp` are embedded twice.

* Exact arithmetic.  The C++ `float` is an arbitrary linearly ordered field `F`; the
  square root (`std::sqrt`, `sqrtf`) is a parameter `sqrt : F → F` of every definition
  that calls it, and so are `sin`, `cos`, `acos` and `pi`.  Theorems that need the
  defining properties of these functions are stated over `ℝ` with `Real.sqrt`,
  `Real.sin`, `Real.cos`, `Real.arccos` and `Real.pi`.  Rounding, infinities and NaN are
  outside this embedding; a division by zero evaluates to `0` as in every Lean field.
  It describes the algorithm the program implements, and the program itself wherever a
  statement is about the control flow or relative to the values the functions report.
* Binary32 (namespace `Binary32`, over the type `F32`).  Every `float` operation is the
  exact operation followed by rounding to the nearest IEEE 754 binary32 value, ties to
  even, with signed zeros, infinities and NaN, each operation rounded on its own (no
  fused multiply-add, no extended precision), as on x86-64.  The definitions are
  executable, and a closed statement about them is decided by evaluation.  A claim whose
  truth depends on rounding, overflow or NaN is settled in this embedding.

Further conventions.
* A C++ function `bool f(..., float &t)` becomes a function into `Option`: `some t` when
  the C++ function returns `true` having stored `t`, `none` when it returns `false`.
* `uint8_t` colour channels are values of `Fin 256`; `int` values are unbounded integers.
* In exact arithmetic `trace` is defined by well-founded recursion on `3 - depth`; in
  binary32 by recursion on a bound on the nested calls that remain, which the guard
  `depth > 2` never exhausts (`trace_binary32_unfold` is the recursion equation of the
  C++ function).
-/

namespace RayTracer

/-! ## Vectors, rays and primitives -/

/-- The C++ `struct Vec3`: three scalar components. -/
structure Vec3 (F : Type) where
  x : F
  y : F
  z : F

namespace Vec3

variable {F : Type} [LinearOrderedField F]

/-- `Vec3::operator+`. -/
instance : Add (Vec3 F) := ⟨fun a b => ⟨a.x + b.x, a.y + b.y, a.z + b.z⟩⟩

/-- `Vec3::operator-` (binary). -/
instance : Sub (Vec3 F) := ⟨fun a b => ⟨a.x - b.x, a.y - b.y, a.z - b.z⟩⟩

/-- `Vec3::operator-` (unary). -/
instance : Neg (Vec3 F) := ⟨fun a => ⟨-a.x, -a.y, -a.z⟩⟩

/-- `Vec3::operator*(float)` and the free `operator*(float, const Vec3&)`. -/
def scale (v : Vec3 F) (s : F) : Vec3 F := ⟨v.x * s, v.y * s, v.z * s⟩

/-- `Vec3::operator*(const Vec3&)`: the elementwise product. -/
def mul (a b : Vec3 F) : Vec3 F := ⟨a.x * b.x, a.y * b.y, a.z * b.z⟩

/-- `Vec3::dot`. -/
def dot (a b : Vec3 F) : F := a.x * b.x + a.y * b.y + a.z * b.z

/-- `Vec3::length`. -/
def length (sqrt : F → F) (v : Vec3 F) : F := sqrt (v.x * v.x + v.y * v.y + v.z * v.z)

/-- `Vec3::normalize`. -/
def normalize (sqrt : F → F) (v : Vec3 F) : Vec3 F :=
  let len := length sqrt v
  v.scale (1 / len)

/-- `Vec3::cross`. -/
def cross (a b : Vec3 F) : Vec3 F :=
  ⟨a.y * b.z - a.z * b.y, a.z * b.x - a.x * b.z, a.x * b.y - a.y * b.x⟩

end Vec3

/-- The C++ `struct Ray`. -/
structure Ray (F : Type) where
  origin : Vec3 F
  direction : Vec3 F

/-- The C++ `struct Sphere`. -/
structure Sphere (F : Type) where
  center : Vec3 F
  radius : F
  r : Fin 256
  g : Fin 256
  b : Fin 256

/-- The C++ `struct Triangle`. -/
structure Triangle (F : Type) where
  v0 : Vec3 F
  v1 : Vec3 F
  v2 : Vec3 F
  r : Fin 256
  g : Fin 256
  b : Fin 256

/-- The C++ `struct Plane`. -/
structure Plane (F : Type) where
  point : Vec3 F
  normal : Vec3 F
  r : Fin 256
  g : Fin 256
  b : Fin 256

/-- The C++ `struct HitInfo`. -/
structure HitInfo (F : Type) where
  t : F
  position : Vec3 F
  normal : Vec3 F
  r : Fin 256
  g : Fin 256
  b : Fin 256

/-- The C++ `struct Light`. -/
structure Light (F : Type) where
  position : Vec3 F
  color : Vec3 F

section Definitions

variable {F : Type} [LinearOrderedField F]

/-! ## Ray-object intersection -/

/-- `intersectSphere` of `rt2.cpp`. -/
def intersectSphere (sqrt : F → F) (ray : Ray F) (sph : Sphere F) : Option F :=
  let oc := ray.origin - sph.center
  let a : F := 1
  let b := 2 * ray.direction.dot oc
  let c := oc.dot oc - sph.radius * sph.radius
  let disc := b * b - 4 * a * c
  if disc < 0 then none
  else
    let sq := sqrt disc
    let t0 := (-b - sq) / (2 * a)
    let t1 := (-b + sq) / (2 * a)
    if t0 > 0.001 then some t0
    else if t1 > 0.001 then some t1
    else none

/-- `intersectTriangle` of `rt2.cpp` (Möller–Trumbore). -/
def intersectTriangle (ray : Ray F) (tri : Triangle F) : Option F :=
  let EPSILON : F := 1e-7
  let edge1 := tri.v1 - tri.v0
  let edge2 := tri.v2 - tri.v0
  let h := ray.direction.cross edge2
  let a := edge1.dot h
  if |a| < EPSILON then none
  else
    let f := 1 / a
    let s := ray.origin - tri.v0
    let u := f * s.dot h
    if u < 0 ∨ u > 1 then none
    else
      let q := s.cross edge1
      let v := f * ray.direction.dot q
      if v < 0 ∨ u + v > 1 then none
      else
        let tempT := f * edge2.dot q
        if tempT > EPSILON then some tempT
        else none

/-- `intersectPlane` of `rt2.cpp`. -/
def intersectPlane (ray : Ray F) (plane : Plane F) : Option F :=
  let denom := ray.direction.dot plane.normal
  if |denom| < 1e-6 then none
  else
    let num := (plane.point - ray.origin).dot plane.normal
    let t := num / denom
    if t > 0.001 then some t else none

/-- `getSphereNormal` of `rt2.cpp`. -/
def getSphereNormal (sqrt : F → F) (s : Sphere F) (point : Vec3 F) : Vec3 F :=
  (point - s.center).normalize sqrt

/-- `getTriangleNormal` of `rt2.cpp`. -/
def getTriangleNormal (sqrt : F → F) (tri : Triangle F) : Vec3 F :=
  ((tri.v1 - tri.v0).cross (tri.v2 - tri.v0)).normalize sqrt

/-- `reflect` of `rt2.cpp`. -/
def reflect (I N : Vec3 F) : Vec3 F :=
  I - N.scale (2 * I.dot N)

/-! ## Shading -/

/-- The shadow ray built at the start of `shade`. -/
def shadowRay (sqrt : F → F) (hit : HitInfo F) (light : Light F) : Ray F :=
  let lightDir := (light.position - hit.position).normalize sqrt
  { origin := hit.position + hit.normal.scale 0.001, direction := lightDir }

/-- The two occlusion loops of `shade`: `inShadow` after the sphere loop and, when it is
still false, the triangle loop. -/
def inShadow (sqrt : F → F) (hit : HitInfo F) (light : Light F)
    (spheres : List (Sphere F)) (triangles : List (Triangle F)) : Bool :=
  let sray := shadowRay sqrt hit light
  let distToLight := (light.position - hit.position).length sqrt
  spheres.any (fun s =>
      match intersectSphere sqrt sray s with
      | some t => decide (t < distToLight)
      | none => false)
    || triangles.any (fun tri =>
      match intersectTriangle sray tri with
      | some t => decide (t < distToLight)
      | none => false)

/-- `shade` of `rt2.cpp`. -/
def shade (sqrt : F → F) (hit : HitInfo F) (ray : Ray F) (light : Light F)
    (spheres : List (Sphere F)) (triangles : List (Triangle F)) : Vec3 F :=
  let ambientColor : Vec3 F := ⟨0.1, 0.1, 0.1⟩
  let objectColor : Vec3 F :=
    ⟨(hit.r.val : F) / 255, (hit.g.val : F) / 255, (hit.b.val : F) / 255⟩
  let lightDir := (light.position - hit.position).normalize sqrt
  if inShadow sqrt hit light spheres triangles then
    objectColor.mul ambientColor
  else
    let diff := max (hit.normal.dot lightDir) 0
    let diffuse := ((objectColor.mul light.color).scale diff).scale 0.7
    let viewDir := (ray.origin - hit.position).normalize sqrt
    let reflectDir :=
      ((hit.normal.scale (2 * hit.normal.dot lightDir)) - lightDir).normalize sqrt
    let spec := (max (viewDir.dot reflectDir) 0) ^ 32
    let specular := (light.color.scale spec).scale 0.2
    let color := objectColor.mul ambientColor + diffuse + specular
    ⟨min color.x 1, min color.y 1, min color.z 1⟩

/-- The per-channel lit colour as the specification words it:
`min(1, obj*0.1 + obj*lightColor*max(N·L,0)*0.7 + lightColor*max(V·R,0)^32*0.2)`, with
`nl = N · L` and `vr = V · R` supplied by the caller.  Used only to state and compare
the lit branch of `shade`. -/
def litChannelSpec (obj lightColor nl vr : F) : F :=
  min 1 (obj * 0.1 + obj * lightColor * max nl 0 * 0.7 + lightColor * max vr 0 ^ 32 * 0.2)

/-! ## The recursive tracer -/

/-- The body of the sphere loop of `trace`: the state is `closestHit` together with
`hitSomething`. -/
def scanSphere (sqrt : F → F) (ray : Ray F) (st : HitInfo F × Bool) (s : Sphere F) :
    HitInfo F × Bool :=
  match intersectSphere sqrt ray s with
  | some t =>
    if t < st.1.t then
      let position := ray.origin + ray.direction.scale t
      ({ t := t, position := position, normal := (position - s.center).normalize sqrt,
         r := s.r, g := s.g, b := s.b }, true)
    else st
  | none => st

/-- The body of the triangle loop of `trace`. -/
def scanTriangle (sqrt : F → F) (ray : Ray F) (st : HitInfo F × Bool) (tri : Triangle F) :
    HitInfo F × Bool :=
  match intersectTriangle ray tri with
  | some t =>
    if t < st.1.t then
      ({ t := t, position := ray.origin + ray.direction.scale t,
         normal := getTriangleNormal sqrt tri, r := tri.r, g := tri.g, b := tri.b }, true)
    else st
  | none => st

/-- The two scanning loops of `trace`: `closestHit` and `hitSomething` after the sphere
loop and then the triangle loop.  `closestHit.t` starts at the sentinel `1e20`; the
colour bytes the C++ code leaves uninitialised are `0` here and are never read while
`hitSomething` is false. -/
def closestPrimitive (sqrt : F → F) (ray : Ray F) (spheres : List (Sphere F))
    (triangles : List (Triangle F)) : HitInfo F × Bool :=
  let closestHit : HitInfo F :=
    { t := 1e20, position := ⟨0, 0, 0⟩, normal := ⟨0, 0, 0⟩, r := 0, g := 0, b := 0 }
  triangles.foldl (scanTriangle sqrt ray)
    (spheres.foldl (scanSphere sqrt ray) (closestHit, false))

/-- The condition of the plane branch of `trace`,
`intersectPlane(ray, plane, tPlane) && tPlane < closestHit.t`: `some tPlane` when the
branch is taken. -/
def planeBranch (ray : Ray F) (plane : Plane F) (closestT : F) : Option F :=
  match intersectPlane ray plane with
  | some tPlane => if tPlane < closestT then some tPlane else none
  | none => none

/-- The reflected ray spawned by the plane branch of `trace` for a plane hit at
`tPlane`. -/
def reflectRay (sqrt : F → F) (ray : Ray F) (plane : Plane F) (tPlane : F) : Ray F :=
  let position := ray.origin + ray.direction.scale tPlane
  let normal := plane.normal
  let reflectDir := (reflect ray.direction normal).normalize sqrt
  { origin := position + normal.scale 0.001, direction := reflectDir }

/-- `trace` of `rt2.cpp`.  The recursion is on `3 - depth`: the only recursive call is
made with `depth + 1` below the guard `depth > 2`. -/
def trace (sqrt : F → F) (ray : Ray F) (spheres : List (Sphere F))
    (triangles : List (Triangle F)) (plane : Plane F) (light : Light F) (depth : Int) :
    Vec3 F :=
  if _hdepth : depth > 2 then ⟨0.1, 0.1, 0.1⟩
  else
    let closest := closestPrimitive sqrt ray spheres triangles
    match planeBranch ray plane closest.1.t with
    | some tPlane =>
      let reflectedColor :=
        trace sqrt (reflectRay sqrt ray plane tPlane) spheres triangles plane light
          (depth + 1)
      let baseColor : Vec3 F :=
        ⟨(plane.r.val : F) / 255, (plane.g.val : F) / 255, (plane.b.val : F) / 255⟩
      baseColor.scale 0.3 + reflectedColor.scale 0.7
    | none =>
      if closest.2 then shade sqrt closest.1 ray light spheres triangles
      else ⟨0.1, 0.1, 0.1⟩
termination_by (3 - depth).toNat
decreasing_by omega

/-! ## Camera and frame driver (`main`) -/

/-- The C++ conversion `int(x)` of a float: truncation towards zero. -/
def floatToInt [FloorRing F] (x : F) : Int :=
  if 0 ≤ x then ⌊x⌋ else ⌈x⌉

/-- The byte written for a colour channel `c`:
`std::min(255, int(std::max(0.f, c) * 255))` stored into a `uint8_t`. -/
def channelByte [FloorRing F] (c : F) : Int :=
  (min 255 (floatToInt (max 0 c * 255))) % 256

/-- The buffer index of pixel `(x, y)`: `idx = 3 * (y * WIDTH + x)`. -/
def pixelIndex (WIDTH x y : Int) : Int :=
  3 * (y * WIDTH + x)

/-- The byte of a channel as the specification words it: `round(clamp(c,0,1)*255)`.
Used only to compare with `channelByte`. -/
def channelByteSpec [FloorRing F] (c : F) : Int :=
  round (min (max c 0) 1 * 255)

/-! ## Instrumented copies of `trace` -/

/-- `trace` with the colour returned by its depth-limit branch as a parameter `limit`;
the rest of the body is that of `trace`, which is the instance
`limit = (0.1, 0.1, 0.1)`.  Used only to state that a result does not depend on the
depth-limit branch. -/
def traceWithLimit (limit : Vec3 F) (sqrt : F → F) (ray : Ray F)
    (spheres : List (Sphere F)) (triangles : List (Triangle F)) (plane : Plane F)
    (light : Light F) (depth : Int) : Vec3 F :=
  if _hdepth : depth > 2 then limit
  else
    let closest := closestPrimitive sqrt ray spheres triangles
    match planeBranch ray plane closest.1.t with
    | some tPlane =>
      let reflectedColor :=
        traceWithLimit limit sqrt (reflectRay sqrt ray plane tPlane) spheres triangles
          plane light (depth + 1)
      let baseColor : Vec3 F :=
        ⟨(plane.r.val : F) / 255, (plane.g.val : F) / 255, (plane.b.val : F) / 255⟩
      baseColor.scale 0.3 + reflectedColor.scale 0.7
    | none =>
      if closest.2 then shade sqrt closest.1 ray light spheres triangles
      else ⟨0.1, 0.1, 0.1⟩
termination_by (3 - depth).toNat
decreasing_by omega

/-- The number of nested recursive calls made by `trace(ray, ..., depth)`: the control
flow of `trace` with every colour dropped. -/
def traceCalls (sqrt : F → F) (ray : Ray F) (spheres : List (Sphere F))
    (triangles : List (Triangle F)) (plane : Plane F) (depth : Int) : Nat :=
  if _hdepth : depth > 2 then 0
  else
    let closest := closestPrimitive sqrt ray spheres triangles
    match planeBranch ray plane closest.1.t with
    | some tPlane =>
      1 + traceCalls sqrt (reflectRay sqrt ray plane tPlane) spheres triangles plane
        (depth + 1)
    | none => 0
termination_by (3 - depth).toNat
decreasing_by omega

/-- The number of primitive scans (executions of the two scanning loops) performed by
`trace(ray, ..., depth)`, the nested calls included. -/
def traceScans (sqrt : F → F) (ray : Ray F) (spheres : List (Sphere F))
    (triangles : List (Triangle F)) (plane : Plane F) (depth : Int) : Nat :=
  if _hdepth : depth > 2 then 0
  else
    let closest := closestPrimitive sqrt ray spheres triangles
    1 + (match planeBranch ray plane closest.1.t with
      | some tPlane =>
        traceScans sqrt (reflectRay sqrt ray plane tPlane) spheres triangles plane
          (depth + 1)
      | none => 0)
termination_by (3 - depth).toNat
decreasing_by omega

/-! ## The model-transform viewer (`benchmark.cpp`, `rotate.cpp`, `object.cpp`)

The three translation units of `OpenGl Viewer - Model Transform`.  `std::vector<float>`
is a `List F`, `std::vector<unsigned int>` a `List Nat`. -/

/-- The six floats pushed by `createTestMesh` for the grid point `(x, y)`: position and
colour. -/
def gridVertex (gridSize x y : Nat) : List F :=
  let xPos : F := (x : F) / ((gridSize - 1 : Nat) : F) * 2 - 1
  let yPos : F := (y : F) / ((gridSize - 1 : Nat) : F) * 2 - 1
  [xPos, yPos, 0, (xPos + 1) / 2, (yPos + 1) / 2, 0.5]

/-- The six indices pushed by `createTestMesh` for the grid cell `(x, y)`: two
triangles. -/
def gridCell (gridSize x y : Nat) : List Nat :=
  let topLeft := y * gridSize + x
  let topRight := topLeft + 1
  let bottomLeft := (y + 1) * gridSize + x
  let bottomRight := bottomLeft + 1
  [topLeft, bottomLeft, topRight, topRight, bottomLeft, bottomRight]

/-- The grid size chosen by `createTestMesh`: `(int)sqrt(vertexCount)`, raised to `2`
when smaller.  A negative `vertexCount` (for which the C++ conversion is undefined) is
treated as `0`. -/
def gridSizeOf (vertexCount : Int) : Nat :=
  let gridSize := Nat.sqrt vertexCount.toNat
  if gridSize < 2 then 2 else gridSize

/-- `createTestMesh` of `benchmark.cpp`: the vertex buffer and the index buffer after the
call (both are cleared on entry). -/
def createTestMesh (vertexCount : Int) : List F × List Nat :=
  let gridSize := gridSizeOf vertexCount
  let vertices : List F :=
    (List.range gridSize).flatMap fun y =>
      (List.range gridSize).flatMap fun x => gridVertex gridSize x y
  let indices : List Nat :=
    (List.range (gridSize - 1)).flatMap fun y =>
      (List.range (gridSize - 1)).flatMap fun x => gridCell gridSize x y
  (vertices, indices)

/-- The body of the emitting loop of `loadOBJ` for the loop counter `i` and the face
index `vertexIndex = vertexIndices[i]`: an out-of-range index is skipped (`continue`),
otherwise six floats and the index `i` are appended. -/
def loadOBJStep (temp_vertices : List F) (st : List F × List Nat) (iv : Nat × Nat) :
    List F × List Nat :=
  let i := iv.1
  let vertexIndex := iv.2
  if vertexIndex ≥ temp_vertices.length / 3 then st
  else
    let x := temp_vertices.getD (vertexIndex * 3) 0
    let y := temp_vertices.getD (vertexIndex * 3 + 1) 0
    let z := temp_vertices.getD (vertexIndex * 3 + 2) 0
    (st.1 ++ [x, y, z, (x + 1) / 2, (y + 1) / 2, (z + 1) / 2], st.2 ++ [i])

/-- `loadOBJ` (identical in the three translation units) after the file has been parsed
into `temp_vertices` (three floats per `v` line) and `vertexIndices` (three indices per
`f` line): `none` when it returns `false`, otherwise the vertex and index buffers, which
are empty on entry at every call site. -/
def loadOBJ (temp_vertices : List F) (vertexIndices : List Nat) :
    Option (List F × List Nat) :=
  if temp_vertices.isEmpty || vertexIndices.isEmpty then none
  else
    some (((List.range vertexIndices.length).zip vertexIndices).foldl
      (loadOBJStep temp_vertices) ([], []))

/-- The rotational `3 × 3` block of a `glm::mat4`, by rows.  Every matrix built by
`rotateAroundAxis` has the fourth row and column of the identity. -/
structure Mat3 (F : Type) where
  r0 : Vec3 F
  r1 : Vec3 F
  r2 : Vec3 F

/-- Matrix times vector. -/
def Mat3.mulVec (m : Mat3 F) (v : Vec3 F) : Vec3 F :=
  ⟨m.r0.dot v, m.r1.dot v, m.r2.dot v⟩

/-- Matrix times matrix. -/
def Mat3.mul (a b : Mat3 F) : Mat3 F :=
  let c0 : Vec3 F := ⟨b.r0.x, b.r1.x, b.r2.x⟩
  let c1 : Vec3 F := ⟨b.r0.y, b.r1.y, b.r2.y⟩
  let c2 : Vec3 F := ⟨b.r0.z, b.r1.z, b.r2.z⟩
  ⟨⟨a.r0.dot c0, a.r0.dot c1, a.r0.dot c2⟩, ⟨a.r1.dot c0, a.r1.dot c1, a.r1.dot c2⟩,
    ⟨a.r2.dot c0, a.r2.dot c1, a.r2.dot c2⟩⟩

/-- The library function `glm::rotate(glm::mat4(1.0f), angle, v)` of GLM, which the
repository calls but does not contain, after `glm/ext/matrix_transform.inl`: with
`c = cos angle`, `s = sin angle`, `axis = normalize v` and `temp = (1 - c) * axis`, the
column-major entries `Rotate[j][i]` are written here by rows. -/
def glmRotate (sqrt cos sin : F → F) (angle : F) (v : Vec3 F) : Mat3 F :=
  let c := cos angle
  let s := sin angle
  let axis := v.normalize sqrt
  let temp := axis.scale (1 - c)
  ⟨⟨c + temp.x * axis.x, temp.y * axis.x - s * axis.z, temp.z * axis.x + s * axis.y⟩,
    ⟨temp.x * axis.y + s * axis.z, c + temp.y * axis.y, temp.z * axis.y - s * axis.x⟩,
    ⟨temp.x * axis.z - s * axis.y, temp.y * axis.z + s * axis.x, c + temp.z * axis.z⟩⟩

/-- The rotation axis and angle that `rotateAroundAxis` computes to align the normalised
axis with the z-axis (`rotationAxis`, `rotationAngle`), for an axis that is not already
near the z-axis.  `acos` is `acos` and `pi` is `glm::pi<float>()`. -/
def alignment (sqrt acos : F → F) (pi : F) (normalizedAxis : Vec3 F) : Vec3 F × F :=
  let rotationAxis := normalizedAxis.cross ⟨0, 0, 1⟩
  let rotationAngle := acos (normalizedAxis.dot ⟨0, 0, 1⟩)
  if rotationAxis.length sqrt < 0.001 then (⟨0, 1, 0⟩, pi)
  else (rotationAxis.normalize sqrt, rotationAngle)

/-- The factor `alignToZ` of `rotateAroundAxis`. -/
def alignToZ (sqrt cos sin acos : F → F) (pi : F) (axis : Vec3 F) : Mat3 F :=
  let a := alignment sqrt acos pi (axis.normalize sqrt)
  glmRotate sqrt cos sin (-a.2) a.1

/-- `rotateAroundAxis` of `rotate.cpp`. -/
def rotateAroundAxis (sqrt cos sin acos : F → F) (pi : F) (axis : Vec3 F) (angle : F) :
    Mat3 F :=
  let normalizedAxis := axis.normalize sqrt
  if (normalizedAxis - ⟨0, 0, 1⟩).length sqrt < 0.001 then
    glmRotate sqrt cos sin angle ⟨0, 0, 1⟩
  else
    let a := alignment sqrt acos pi normalizedAxis
    let alignToZ := glmRotate sqrt cos sin (-a.2) a.1
    let rotateAroundZ := glmRotate sqrt cos sin angle ⟨0, 0, 1⟩
    let alignBack := glmRotate sqrt cos sin a.2 a.1
    (alignBack.mul rotateAroundZ).mul alignToZ

/-! ## IEEE 754 binary32 arithmetic

The second embedding evaluates the same C++ expressions in the arithmetic the compiled
program uses: every `float` operation is the exact operation followed by rounding to
the nearest binary32 value, ties to even, with signed zeros, infinities and NaN.  Every
finite binary32 value is an integer multiple of `2^(-149)`, so a finite value is stored
as a sign and a magnitude counted in that unit. -/

/-- An IEEE 754 binary32 value: NaN, an infinity, or the finite value
`(-1)^neg * mag * 2^(-149)`. -/
inductive F32 where
  | nan : F32
  | inf (neg : Bool) : F32
  | fin (neg : Bool) (mag : Nat) : F32
deriving DecidableEq

namespace F32

/-- The quotient `n / d` rounded to the nearest natural number, ties to even. -/
def roundNat (n d : Nat) : Nat :=
  let q := n / d
  let r := n % d
  if 2 * r < d then q
  else if d < 2 * r then q + 1
  else if q % 2 = 0 then q
  else q + 1

/-- The number of low bits a `p`-bit significand cannot hold: the least `j` with
`q / 2^j < 2^p`, found by halving `q` (the first argument bounds the number of
halvings; `excess p q q` is always enough). -/
def excess (p : Nat) : Nat → Nat → Nat
  | 0, _ => 0
  | f + 1, q => if q < 2 ^ p then 0 else excess p f (q / 2) + 1

/-- The magnitude `n / d` (in units of the least subnormal) rounded to the nearest value
with a `p`-bit significand, ties to even, the exponent unbounded above. -/
def roundMag (p n d : Nat) : Nat :=
  let j := excess p (n / d) (n / d)
  roundNat n (d * 2 ^ j) * 2 ^ j

/-- Rounding to binary32: the value `(-1)^neg * (n / d) * 2^(-149)` rounded to nearest,
ties to even; a result of `2^128` (`2^24 * 2^253` units) or more overflows to the infinity of that sign. -/
def round (neg : Bool) (n d : Nat) : F32 :=
  let k := roundMag 24 n d
  if 2 ^ 24 * 2 ^ 253 ≤ k then inf neg else fin neg k

/-- The integer square root by Newton's iteration from above (the first argument bounds
the number of steps; `isqrtAux n n n` is always enough). -/
def isqrtAux : Nat → Nat → Nat → Nat
  | 0, _, x => x
  | f + 1, n, x =>
    let y := (x + n / x) / 2
    if y < x then isqrtAux f n y else x

/-- The integer square root `⌊√n⌋`. -/
def isqrt (n : Nat) : Nat := isqrtAux n n n

/-- Binary32 addition. -/
def add : F32 → F32 → F32
  | fin a m, fin b k =>
    if a = b then round a (m + k) 1
    else if k < m then round a (m - k) 1
    else if m < k then round b (k - m) 1
    else fin false 0
  | fin _ _, inf b => inf b
  | inf a, fin _ _ => inf a
  | inf a, inf b => if a = b then inf a else nan
  | _, _ => nan

/-- Binary32 negation: the sign bit is flipped. -/
def neg : F32 → F32
  | nan => nan
  | inf a => inf (!a)
  | fin a m => fin (!a) m

/-- Binary32 subtraction. -/
def sub (x y : F32) : F32 := add x (neg y)

/-- Binary32 multiplication. -/
def mul : F32 → F32 → F32
  | fin a m, fin b k => round (xor a b) (m * k) (2 ^ 149)
  | fin a m, inf b => if m = 0 then nan else inf (xor a b)
  | inf a, fin b k => if k = 0 then nan else inf (xor a b)
  | inf a, inf b => inf (xor a b)
  | _, _ => nan

/-- Binary32 division. -/
def div : F32 → F32 → F32
  | fin a m, fin b k =>
    if k = 0 then (if m = 0 then nan else inf (xor a b))
    else round (xor a b) (m * 2 ^ 149) k
  | fin a _, inf b => fin (xor a b) 0
  | inf a, fin b _ => inf (xor a b)
  | _, _ => nan

/-- The functions `sqrtf` and `std::sqrt(float)`: the correctly rounded square root. -/
def sqrt : F32 → F32
  | fin a m =>
    if m = 0 then fin a 0
    else if a then nan
    else
      let s := isqrt (m * 2 ^ 149)
      round false (2 * s + (if s * s = m * 2 ^ 149 then 0 else 1)) 2
  | inf a => if a then nan else inf false
  | nan => nan

/-- The functions `std::abs(float)` and `fabs`: the sign bit is cleared. -/
def abs : F32 → F32
  | nan => nan
  | inf _ => inf false
  | fin _ m => fin false m

/-- The position of a value in the order of the comparison operators: integers for the
values that are not NaN (the two zeros share `0`), nothing for NaN. -/
def key : F32 → Option Int
  | nan => none
  | inf a => some (if a then -(2 ^ 150 * 2 ^ 150) else 2 ^ 150 * 2 ^ 150)
  | fin a m => some (if a then -(m : Int) else m)

/-- The C++ operator `<` on `float`: false when an operand is NaN. -/
def lt (x y : F32) : Bool :=
  match key x, key y with
  | some a, some b => decide (a < b)
  | _, _ => false

/-- The C++ operator `<=` on `float`: false when an operand is NaN. -/
def le (x y : F32) : Bool :=
  match key x, key y with
  | some a, some b => decide (a ≤ b)
  | _, _ => false

/-- The conversion of a non-negative integer (an `int` literal, a `uint8_t`) to
`float`. -/
def ofNat (n : Nat) : F32 := round false (n * 2 ^ 149) 1

/-- A decimal `float` literal `m * 10^(-e)` (`s` true) or `m * 10^e` (`s` false): the
nearest binary32 value. -/
def ofScientific (m : Nat) (s : Bool) (e : Nat) : F32 :=
  if s then round false (m * 2 ^ 149) (10 ^ e) else round false (m * 10 ^ e * 2 ^ 149) 1

/-- The value with the given IEEE 754 bit pattern (sign, 8 exponent bits, 23 fraction
bits). -/
def ofBits (u : Nat) : F32 :=
  let s := decide (u / 2 ^ 31 % 2 = 1)
  let e := u / 2 ^ 23 % 256
  let m := u % 2 ^ 23
  if e = 255 then (if m = 0 then inf s else nan)
  else if e = 0 then fin s m
  else fin s ((m + 2 ^ 23) * 2 ^ (e - 1))

/-- The function `std::max(a, b)` of `<algorithm>`: `(a < b) ? b : a`. -/
def max (a b : F32) : F32 := if lt a b then b else a

/-- The function `std::min(a, b)` of `<algorithm>`: `(b < a) ? b : a`. -/
def min (a b : F32) : F32 := if lt b a then b else a

/-- The call `std::pow(x, n)` with a `float` base and an `int` exponent `n > 0`, stored
into a `float`: both arguments are promoted to `double`, the power is taken in `double`
(modelled as the exact power rounded to the nearest binary64 value) and the result is
rounded to binary32. -/
def pow (x : F32) (n : Nat) : F32 :=
  match x with
  | nan => nan
  | inf a => inf (a && decide (n % 2 = 1))
  | fin a m =>
    let k := roundMag 53 (m ^ n * 2 ^ 1074) (2 ^ (149 * n))
    if 2 ^ 2098 ≤ k then inf (a && decide (n % 2 = 1))
    else round (a && decide (n % 2 = 1)) k (2 ^ 925)

/-- The exact rational value of a finite binary32 value (`0` for NaN and the
infinities). -/
def toRat : F32 → ℚ
  | fin a m => if a then -((m : ℚ) / 2 ^ 149) else (m : ℚ) / 2 ^ 149
  | _ => 0

instance : Add F32 := ⟨add⟩

instance : Sub F32 := ⟨sub⟩

instance : Neg F32 := ⟨neg⟩

instance : Mul F32 := ⟨mul⟩

instance : Div F32 := ⟨div⟩

instance : LT F32 := ⟨fun x y => lt x y = true⟩

instance : LE F32 := ⟨fun x y => le x y = true⟩

instance (x y : F32) : Decidable (x < y) := inferInstanceAs (Decidable (lt x y = true))

instance (x y : F32) : Decidable (x ≤ y) := inferInstanceAs (Decidable (le x y = true))

instance (n : Nat) : OfNat F32 n := ⟨ofNat n⟩

instance : OfScientific F32 := ⟨ofScientific⟩

/-- A value that is NaN or not below zero. -/
def NanOrNonneg (x : F32) : Prop := x = nan ∨ 0 ≤ x

/-- A value that is NaN or lies in the closed interval from 0 to 1. -/
def NanOrUnit (x : F32) : Prop := x = nan ∨ (0 ≤ x ∧ x ≤ 1)

instance (x : F32) : Decidable (NanOrNonneg x) :=
  inferInstanceAs (Decidable (x = nan ∨ 0 ≤ x))

instance (x : F32) : Decidable (NanOrUnit x) :=
  inferInstanceAs (Decidable (x = nan ∨ (0 ≤ x ∧ x ≤ 1)))

/-- A finite value between zero and `c * 2^(-149)` (a zero of either sign included). -/
def atMost (c : Nat) : F32 → Bool
  | fin s k => decide (k ≤ c) && (!s || decide (k = 0))
  | _ => false

end F32

deriving instance DecidableEq for Vec3

/-! ## `rt2.cpp` evaluated in binary32

The functions of `rt2.cpp` once more, every operation in the order in which the C++
expression performs it, over `F32`. -/

namespace Binary32

/-- `Vec3::operator+`. -/
instance : Add (Vec3 F32) := ⟨fun a b => ⟨a.x + b.x, a.y + b.y, a.z + b.z⟩⟩

/-- `Vec3::operator-` (binary). -/
instance : Sub (Vec3 F32) := ⟨fun a b => ⟨a.x - b.x, a.y - b.y, a.z - b.z⟩⟩

/-- `Vec3::operator*(float)` and the free `operator*(float, const Vec3&)`. -/
def scale (v : Vec3 F32) (s : F32) : Vec3 F32 := ⟨v.x * s, v.y * s, v.z * s⟩

/-- `Vec3::operator*(const Vec3&)`: the elementwise product. -/
def mul (a b : Vec3 F32) : Vec3 F32 := ⟨a.x * b.x, a.y * b.y, a.z * b.z⟩

/-- `Vec3::dot`. -/
def dot (a b : Vec3 F32) : F32 := a.x * b.x + a.y * b.y + a.z * b.z

/-- `Vec3::length`. -/
def length (v : Vec3 F32) : F32 := F32.sqrt (v.x * v.x + v.y * v.y + v.z * v.z)

/-- `Vec3::normalize`. -/
def normalize (v : Vec3 F32) : Vec3 F32 :=
  let len := length v
  scale v (1 / len)

/-- `Vec3::cross`. -/
def cross (a b : Vec3 F32) : Vec3 F32 :=
  ⟨a.y * b.z - a.z * b.y, a.z * b.x - a.x * b.z, a.x * b.y - a.y * b.x⟩

/-- The exact rational coordinates of a vector of finite binary32 values. -/
def exact (v : Vec3 F32) : Vec3 ℚ := ⟨v.x.toRat, v.y.toRat, v.z.toRat⟩

/-- `intersectSphere` of `rt2.cpp`. -/
def intersectSphere (ray : Ray F32) (sph : Sphere F32) : Option F32 :=
  let oc := ray.origin - sph.center
  let a : F32 := 1
  let b := 2 * dot ray.direction oc
  let c := dot oc oc - sph.radius * sph.radius
  let disc := b * b - 4 * a * c
  if disc < 0 then none
  else
    let sq := F32.sqrt disc
    let t0 := (-b - sq) / (2 * a)
    let t1 := (-b + sq) / (2 * a)
    if t0 > 0.001 then some t0
    else if t1 > 0.001 then some t1
    else none

/-- `intersectTriangle` of `rt2.cpp` (Möller–Trumbore). -/
def intersectTriangle (ray : Ray F32) (tri : Triangle F32) : Option F32 :=
  let EPSILON : F32 := 1e-7
  let edge1 := tri.v1 - tri.v0
  let edge2 := tri.v2 - tri.v0
  let h := cross ray.direction edge2
  let a := dot edge1 h
  if F32.abs a < EPSILON then none
  else
    let f := 1 / a
    let s := ray.origin - tri.v0
    let u := f * dot s h
    if u < 0 ∨ u > 1 then none
    else
      let q := cross s edge1
      let v := f * dot ray.direction q
      if v < 0 ∨ u + v > 1 then none
      else
        let tempT := f * dot edge2 q
        if tempT > EPSILON then some tempT
        else none

/-- `intersectPlane` of `rt2.cpp`. -/
def intersectPlane (ray : Ray F32) (plane : Plane F32) : Option F32 :=
  let denom := dot ray.direction plane.normal
  if F32.abs denom < 1e-6 then none
  else
    let num := dot (plane.point - ray.origin) plane.normal
    let t := num / denom
    if t > 0.001 then some t else none

/-- `getSphereNormal` of `rt2.cpp`. -/
def getSphereNormal (s : Sphere F32) (point : Vec3 F32) : Vec3 F32 :=
  normalize (point - s.center)

/-- `getTriangleNormal` of `rt2.cpp`. -/
def getTriangleNormal (tri : Triangle F32) : Vec3 F32 :=
  normalize (cross (tri.v1 - tri.v0) (tri.v2 - tri.v0))

/-- `reflect` of `rt2.cpp`. -/
def reflect (I N : Vec3 F32) : Vec3 F32 :=
  I - scale N (2 * dot I N)

/-- The shadow ray built at the start of `shade`. -/
def shadowRay (hit : HitInfo F32) (light : Light F32) : Ray F32 :=
  let lightDir := normalize (light.position - hit.position)
  { origin := hit.position + scale hit.normal 0.001, direction := lightDir }

/-- The two occlusion loops of `shade`. -/
def inShadow (hit : HitInfo F32) (light : Light F32)
    (spheres : List (Sphere F32)) (triangles : List (Triangle F32)) : Bool :=
  let sray := shadowRay hit light
  let distToLight := length (light.position - hit.position)
  spheres.any (fun s =>
      match intersectSphere sray s with
      | some t => decide (t < distToLight)
      | none => false)
    || triangles.any (fun tri =>
      match intersectTriangle sray tri with
      | some t => decide (t < distToLight)
      | none => false)

/-- `shade` of `rt2.cpp`. -/
def shade (hit : HitInfo F32) (ray : Ray F32) (light : Light F32)
    (spheres : List (Sphere F32)) (triangles : List (Triangle F32)) : Vec3 F32 :=
  let ambientColor : Vec3 F32 := ⟨0.1, 0.1, 0.1⟩
  let objectColor : Vec3 F32 :=
    ⟨F32.ofNat hit.r.val / 255, F32.ofNat hit.g.val / 255, F32.ofNat hit.b.val / 255⟩
  let lightDir := normalize (light.position - hit.position)
  if inShadow hit light spheres triangles then
    mul objectColor ambientColor
  else
    let diff := F32.max (dot hit.normal lightDir) 0
    let diffuse := scale (scale (mul objectColor light.color) diff) 0.7
    let viewDir := normalize (ray.origin - hit.position)
    let reflectDir := normalize (scale hit.normal (2 * dot hit.normal lightDir) - lightDir)
    let spec := F32.pow (F32.max (dot viewDir reflectDir) 0) 32
    let specular := scale (scale light.color spec) 0.2
    let color := mul objectColor ambientColor + diffuse + specular
    ⟨F32.min color.x 1, F32.min color.y 1, F32.min color.z 1⟩

/-- The body of the sphere loop of `trace`. -/
def scanSphere (ray : Ray F32) (st : HitInfo F32 × Bool) (s : Sphere F32) :
    HitInfo F32 × Bool :=
  match intersectSphere ray s with
  | some t =>
    if t < st.1.t then
      let position := ray.origin + scale ray.direction t
      ({ t := t, position := position, normal := normalize (position - s.center),
         r := s.r, g := s.g, b := s.b }, true)
    else st
  | none => st

/-- The body of the triangle loop of `trace`. -/
def scanTriangle (ray : Ray F32) (st : HitInfo F32 × Bool) (tri : Triangle F32) :
    HitInfo F32 × Bool :=
  match intersectTriangle ray tri with
  | some t =>
    if t < st.1.t then
      ({ t := t, position := ray.origin + scale ray.direction t,
         normal := getTriangleNormal tri, r := tri.r, g := tri.g, b := tri.b }, true)
    else st
  | none => st

/-- The two scanning loops of `trace`, from the sentinel `closestHit.t = 1e20f`. -/
def closestPrimitive (ray : Ray F32) (spheres : List (Sphere F32))
    (triangles : List (Triangle F32)) : HitInfo F32 × Bool :=
  let closestHit : HitInfo F32 :=
    { t := 1e20, position := ⟨0, 0, 0⟩, normal := ⟨0, 0, 0⟩, r := 0, g := 0, b := 0 }
  triangles.foldl (scanTriangle ray) (spheres.foldl (scanSphere ray) (closestHit, false))

/-- The condition of the plane branch of `trace`. -/
def planeBranch (ray : Ray F32) (plane : Plane F32) (closestT : F32) : Option F32 :=
  match intersectPlane ray plane with
  | some tPlane => if tPlane < closestT then some tPlane else none
  | none => none

/-- The reflected ray spawned by the plane branch of `trace`. -/
def reflectRay (ray : Ray F32) (plane : Plane F32) (tPlane : F32) : Ray F32 :=
  let position := ray.origin + scale ray.direction tPlane
  let normal := plane.normal
  let reflectDir := normalize (reflect ray.direction normal)
  { origin := position + scale normal 0.001, direction := reflectDir }

/-- The body of `trace` with the colour of the depth-limit branch as a parameter
`limit`, by recursion on a bound `n` on the number of nested calls that remain (`n` is
`4 - depth` in `trace`, which the guard `depth > 2` never exhausts). -/
def traceLevels (limit : Vec3 F32) (spheres : List (Sphere F32))
    (triangles : List (Triangle F32)) (plane : Plane F32) (light : Light F32) :
    Nat → Ray F32 → Int → Vec3 F32
  | 0, _, _ => limit
  | n + 1, ray, depth =>
    if depth > 2 then limit
    else
      let closest := closestPrimitive ray spheres triangles
      match planeBranch ray plane closest.1.t with
      | some tPlane =>
        let reflectedColor :=
          traceLevels limit spheres triangles plane light n (reflectRay ray plane tPlane)
            (depth + 1)
        let baseColor : Vec3 F32 :=
          ⟨F32.ofNat plane.r.val / 255, F32.ofNat plane.g.val / 255,
            F32.ofNat plane.b.val / 255⟩
        scale baseColor 0.3 + scale reflectedColor 0.7
      | none =>
        if closest.2 then shade closest.1 ray light spheres triangles
        else ⟨0.1, 0.1, 0.1⟩

/-- `trace` of `rt2.cpp` with the colour returned by its depth-limit branch as a
parameter. -/
def traceWithLimit (limit : Vec3 F32) (ray : Ray F32) (spheres : List (Sphere F32))
    (triangles : List (Triangle F32)) (plane : Plane F32) (light : Light F32)
    (depth : Int) : Vec3 F32 :=
  traceLevels limit spheres triangles plane light ((3 - depth).toNat + 1) ray depth

/-- `trace` of `rt2.cpp`: the depth-limit branch returns `(0.1f, 0.1f, 0.1f)`. -/
def trace (ray : Ray F32) (spheres : List (Sphere F32)) (triangles : List (Triangle F32))
    (plane : Plane F32) (light : Light F32) (depth : Int) : Vec3 F32 :=
  traceWithLimit ⟨0.1, 0.1, 0.1⟩ ray spheres triangles plane light depth

end Binary32

end Definitions

/-! ## Component lemmas -/

section Lemmas

variable {F : Type} [LinearOrderedField F]

@[simp] theorem Vec3.add_def (a b : Vec3 F) :
    a + b = ⟨a.x + b.x, a.y + b.y, a.z + b.z⟩ := rfl

@[simp] theorem Vec3.sub_def (a b : Vec3 F) :
    a - b = ⟨a.x - b.x, a.y - b.y, a.z - b.z⟩ := rfl

@[simp] theorem Vec3.neg_def (a : Vec3 F) : -a = ⟨-a.x, -a.y, -a.z⟩ := rfl

end Lemmas

/-! ## Sphere intersection -/

section SphereGeneric

variable {F : Type} [LinearOrderedField F]

/-- The case split of C1 in exact arithmetic (the claim itself, in the arithmetic of the
program, is `intersectSphere_binary32_cases`).  With `oc = origin - center`, `b = 2 (direction · oc)`, `c = oc · oc - radius²`,
`disc = b² - 4c`, `t0 = (-b - sqrt disc)/2` and `t1 = (-b + sqrt disc)/2`,
`intersectSphere` reports no hit when `disc < 0`; otherwise it reports `t0` if
`t0 > 0.001`, else `t1` if `t1 > 0.001`, else no hit.  In particular it reports no hit
whenever both roots are negative. -/
theorem intersectSphere_cases (sqrt : F → F) (ray : Ray F) (sph : Sphere F) :
    let oc := ray.origin - sph.center
    let b := 2 * ray.direction.dot oc
    let c := oc.dot oc - sph.radius ^ 2
    let disc := b ^ 2 - 4 * c
    let t0 := (-b - sqrt disc) / 2
    let t1 := (-b + sqrt disc) / 2
    intersectSphere sqrt ray sph =
        (if disc < 0 then none
         else if t0 > 0.001 then some t0
         else if t1 > 0.001 then some t1
         else none)
      ∧ (t0 < 0 → t1 < 0 → intersectSphere sqrt ray sph = none) := by
  intro oc b c disc t0 t1
  have hdef : intersectSphere sqrt ray sph =
      (if disc < 0 then none
       else if t0 > 0.001 then some t0
       else if t1 > 0.001 then some t1
       else none) := by
    have hd : b * b - 4 * 1 * (oc.dot oc - sph.radius * sph.radius) = disc := by
      simp only [disc, c]; ring
    simp only [intersectSphere, mul_one]
    simp only [mul_one] at hd
    rw [hd]
  refine ⟨hdef, fun h0 h1 => ?_⟩
  rw [hdef]
  have e0 : ¬ t0 > 0.001 := by
    have : (0 : F) < 0.001 := by norm_num
    exact not_lt.mpr (le_of_lt (lt_trans h0 this))
  have e1 : ¬ t1 > 0.001 := by
    have : (0 : F) < 0.001 := by norm_num
    exact not_lt.mpr (le_of_lt (lt_trans h1 this))
  simp only [e0, e1, if_false, ite_self]

end SphereGeneric

/-! ### Sphere intersection over the reals -/

section SphereReal

/-- The body of `intersectSphere` with the constant `a = 1` folded away. -/
theorem intersectSphere_unfold {F : Type} [LinearOrderedField F] (sqrt : F → F)
    (ray : Ray F) (sph : Sphere F) :
    intersectSphere sqrt ray sph =
      (if (2 * ray.direction.dot (ray.origin - sph.center)) *
            (2 * ray.direction.dot (ray.origin - sph.center)) -
            4 * ((ray.origin - sph.center).dot (ray.origin - sph.center) -
              sph.radius * sph.radius) < 0 then none
       else if (-(2 * ray.direction.dot (ray.origin - sph.center)) -
            sqrt ((2 * ray.direction.dot (ray.origin - sph.center)) *
              (2 * ray.direction.dot (ray.origin - sph.center)) -
              4 * ((ray.origin - sph.center).dot (ray.origin - sph.center) -
                sph.radius * sph.radius))) / 2 > 0.001 then
         some ((-(2 * ray.direction.dot (ray.origin - sph.center)) -
            sqrt ((2 * ray.direction.dot (ray.origin - sph.center)) *
              (2 * ray.direction.dot (ray.origin - sph.center)) -
              4 * ((ray.origin - sph.center).dot (ray.origin - sph.center) -
                sph.radius * sph.radius))) / 2)
       else if (-(2 * ray.direction.dot (ray.origin - sph.center)) +
            sqrt ((2 * ray.direction.dot (ray.origin - sph.center)) *
              (2 * ray.direction.dot (ray.origin - sph.center)) -
              4 * ((ray.origin - sph.center).dot (ray.origin - sph.center) -
                sph.radius * sph.radius))) / 2 > 0.001 then
         some ((-(2 * ray.direction.dot (ray.origin - sph.center)) +
            sqrt ((2 * ray.direction.dot (ray.origin - sph.center)) *
              (2 * ray.direction.dot (ray.origin - sph.center)) -
              4 * ((ray.origin - sph.center).dot (ray.origin - sph.center) -
                sph.radius * sph.radius))) / 2)
       else none) := by
  simp only [intersectSphere, mul_one]

/-- A vector of length one has unit dot product with itself. -/
theorem dot_self_of_length_one (v : Vec3 ℝ) (h : v.length Real.sqrt = 1) :
    v.dot v = 1 := by
  simp only [Vec3.length] at h
  simp only [Vec3.dot]
  exact (Real.sqrt_eq_one).mp h

end SphereReal

/-! ### The axis ray of the sphere test -/

section SphereAxis

/-- On the ray from `(0,0,5)` towards the origin, a sphere of radius `r > 0` centred at
the origin is reported at the near root `5 - r` when that exceeds the bias `0.001`, and
at the far root `5 + r` otherwise. -/
theorem intersectSphere_axis (r : ℝ) (hr : 0 < r) (cr cg cb : Fin 256) :
    intersectSphere Real.sqrt ⟨⟨0, 0, 5⟩, ⟨0, 0, -1⟩⟩ ⟨⟨0, 0, 0⟩, r, cr, cg, cb⟩ =
      if 5 - r > 0.001 then some (5 - r) else some (5 + r) := by
  have hsq : Real.sqrt ((2 * r) ^ 2) = 2 * r := Real.sqrt_sq (by linarith)
  rw [intersectSphere_unfold]
  simp only [Vec3.dot, Vec3.sub_def, sub_zero, zero_mul, mul_zero, zero_add, add_zero,
    neg_mul, one_mul, mul_neg, mul_one]
  rw [show - -((2 : ℝ) * 5 * (2 * 5)) - 4 * (5 * 5 - r * r) = (2 * r) ^ 2 by ring, hsq]
  have hnn : ¬ ((2 * r) ^ 2 < 0) := not_lt.mpr (sq_nonneg _)
  have e0 : (- -((2 : ℝ) * 5) - 2 * r) / 2 = 5 - r := by ring
  have e1 : (- -((2 : ℝ) * 5) + 2 * r) / 2 = 5 + r := by ring
  have hfar : 5 + r > 0.001 := by norm_num; linarith
  simp only [hnn, if_false, e0, e1, hfar, if_true]

end SphereAxis

/-! ## Triangle intersection -/

section TriangleSpec

variable {F : Type} [LinearOrderedField F]

/-- The body of `intersectTriangle` with `f = 1 / a` written as a division by `a`. -/
theorem intersectTriangle_unfold (ray : Ray F) (tri : Triangle F) :
    intersectTriangle ray tri =
      (if |(tri.v1 - tri.v0).dot (ray.direction.cross (tri.v2 - tri.v0))| < 1e-7 then none
       else if (ray.origin - tri.v0).dot (ray.direction.cross (tri.v2 - tri.v0)) /
              (tri.v1 - tri.v0).dot (ray.direction.cross (tri.v2 - tri.v0)) < 0 ∨
            (ray.origin - tri.v0).dot (ray.direction.cross (tri.v2 - tri.v0)) /
              (tri.v1 - tri.v0).dot (ray.direction.cross (tri.v2 - tri.v0)) > 1 then none
       else if ray.direction.dot ((ray.origin - tri.v0).cross (tri.v1 - tri.v0)) /
              (tri.v1 - tri.v0).dot (ray.direction.cross (tri.v2 - tri.v0)) < 0 ∨
            (ray.origin - tri.v0).dot (ray.direction.cross (tri.v2 - tri.v0)) /
              (tri.v1 - tri.v0).dot (ray.direction.cross (tri.v2 - tri.v0)) +
            ray.direction.dot ((ray.origin - tri.v0).cross (tri.v1 - tri.v0)) /
              (tri.v1 - tri.v0).dot (ray.direction.cross (tri.v2 - tri.v0)) > 1 then none
       else if (tri.v2 - tri.v0).dot ((ray.origin - tri.v0).cross (tri.v1 - tri.v0)) /
              (tri.v1 - tri.v0).dot (ray.direction.cross (tri.v2 - tri.v0)) > 1e-7 then
         some ((tri.v2 - tri.v0).dot ((ray.origin - tri.v0).cross (tri.v1 - tri.v0)) /
              (tri.v1 - tri.v0).dot (ray.direction.cross (tri.v2 - tri.v0)))
       else none) := by
  simp only [intersectTriangle, one_div_mul_eq_div]

/-- The statement of C4 in exact arithmetic, where `f * x = x / a` (the amended claim, in
the arithmetic of the program, is `intersectTriangle_binary32_iff`).  With `e1 = v1 - v0`, `e2 = v2 - v0`, `h = direction × e2`, `a = e1 · h`,
`s = origin - v0`, `u = (s · h)/a`, `q = s × e1`, `v = (direction · q)/a` and
`t = (e2 · q)/a`: `intersectTriangle` reports a hit if and only if `|a| ≥ 1e-7`,
`u ≥ 0`, `v ≥ 0`, `u + v ≤ 1` and `t > 1e-7`, and the distance it reports is `t`.
Every ray with `u < 0`, `v < 0` or `u + v > 1` is rejected, and a ray exactly on an edge
(`u = 0`, `v = 0` or `u + v = 1`, the other conditions holding) is accepted. -/
theorem intersectTriangle_iff (ray : Ray F) (tri : Triangle F) :
    let e1 := tri.v1 - tri.v0
    let e2 := tri.v2 - tri.v0
    let h := ray.direction.cross e2
    let a := e1.dot h
    let s := ray.origin - tri.v0
    let u := s.dot h / a
    let q := s.cross e1
    let v := ray.direction.dot q / a
    let t := e2.dot q / a
    ((intersectTriangle ray tri).isSome ↔
        (|a| ≥ 1e-7 ∧ u ≥ 0 ∧ v ≥ 0 ∧ u + v ≤ 1 ∧ t > 1e-7))
      ∧ (∀ t', intersectTriangle ray tri = some t' → t' = t)
      ∧ ((u < 0 ∨ v < 0 ∨ u + v > 1) → intersectTriangle ray tri = none)
      ∧ (|a| ≥ 1e-7 → t > 1e-7 → u ≥ 0 → v ≥ 0 → u + v ≤ 1 →
          (u = 0 ∨ v = 0 ∨ u + v = 1) → intersectTriangle ray tri = some t) := by
  intro e1 e2 h a s u q v t
  have hdef : intersectTriangle ray tri =
      (if |a| < 1e-7 then none
       else if u < 0 ∨ u > 1 then none
       else if v < 0 ∨ u + v > 1 then none
       else if t > 1e-7 then some t
       else none) := intersectTriangle_unfold ray tri
  have hacc : |a| ≥ 1e-7 → t > 1e-7 → u ≥ 0 → v ≥ 0 → u + v ≤ 1 →
      intersectTriangle ray tri = some t := by
    intro ha ht hu hv huv
    have h1 : ¬ |a| < 1e-7 := not_lt.mpr ha
    have h2 : ¬ (u < 0 ∨ u > 1) := by
      rintro (h | h)
      · exact absurd hu (not_le.mpr h)
      · have : u + v > 1 := by linarith
        exact absurd huv (not_le.mpr this)
    have h3 : ¬ (v < 0 ∨ u + v > 1) := by
      rintro (h | h)
      · exact absurd hv (not_le.mpr h)
      · exact absurd huv (not_le.mpr h)
    rw [hdef, if_neg h1, if_neg h2, if_neg h3, if_pos ht]
  refine ⟨⟨fun hs => ?_, fun hc => ?_⟩, fun t' ht' => ?_, fun hrej => ?_, ?_⟩
  · rw [hdef] at hs
    split_ifs at hs with h1 h2 h3 h4
    · exact absurd hs (by simp)
    · exact absurd hs (by simp)
    · exact absurd hs (by simp)
    · push_neg at h2 h3
      exact ⟨not_lt.mp h1, h2.1, h3.1, h3.2, h4⟩
    · exact absurd hs (by simp)
  · rw [hacc hc.1 hc.2.2.2.2 hc.2.1 hc.2.2.1 hc.2.2.2.1]
    rfl
  · rw [hdef] at ht'
    split_ifs at ht' with h1 h2 h3 h4
    exact (Option.some.inj ht').symm
  · rw [hdef]
    split_ifs with h1 h2 h3 h4
    · rfl
    · rfl
    · rfl
    · push_neg at h2 h3
      rcases hrej with hr | hr | hr
      · exact absurd h2.1 (not_le.mpr hr)
      · exact absurd h3.1 (not_le.mpr hr)
      · exact absurd h3.2 (not_le.mpr hr)
    · rfl
  · intro ha ht hu hv huv _
    exact hacc ha ht hu hv huv

end TriangleSpec

/-! ### Geometric correctness of the triangle test -/

section TriangleGeometry

variable {F : Type} [LinearOrderedField F]

end TriangleGeometry

section PlaneSpec

variable {F : Type} [LinearOrderedField F]

/-- The statement of C6 in exact arithmetic (the amended claim is
`intersectPlane_binary32_iff`).  `intersectPlane` reports a hit if and only if `|direction · normal| ≥ 1e-6` and
`t = ((point - origin) · normal) / (direction · normal)` satisfies `t > 0.001`; the
distance it reports is that `t`, and the hit point `origin + t * direction` lies on the
plane: `(origin + t * direction - point) · normal = 0`. -/
theorem intersectPlane_iff (ray : Ray F) (plane : Plane F) :
    let denom := ray.direction.dot plane.normal
    let t := (plane.point - ray.origin).dot plane.normal / denom
    ((intersectPlane ray plane).isSome ↔ (|denom| ≥ 1e-6 ∧ t > 0.001))
      ∧ (∀ t', intersectPlane ray plane = some t' →
          t' = t ∧
          (ray.origin + ray.direction.scale t' - plane.point).dot plane.normal = 0) := by
  intro denom t
  have hdef : intersectPlane ray plane =
      (if |denom| < 1e-6 then none else if t > 0.001 then some t else none) := rfl
  refine ⟨⟨fun hs => ?_, fun hc => ?_⟩, fun t' ht' => ?_⟩
  · rw [hdef] at hs
    split_ifs at hs with h1 h2
    · exact absurd hs (by simp)
    · exact ⟨not_lt.mp h1, h2⟩
    · exact absurd hs (by simp)
  · rw [hdef, if_neg (not_lt.mpr hc.1), if_pos hc.2]
    rfl
  · rw [hdef] at ht'
    split_ifs at ht' with h1 h2
    have e : t' = t := (Option.some.inj ht').symm
    refine ⟨e, ?_⟩
    have hpos : (0 : F) < 1e-6 := by norm_num
    have hne : denom ≠ 0 := by
      intro h0
      rw [h0, abs_zero] at h1
      exact h1 hpos
    have ht : t * denom = (plane.point - ray.origin).dot plane.normal :=
      div_mul_cancel₀ _ hne
    rw [e]
    obtain ⟨⟨ox, oy, oz⟩, ⟨dx, dy, dz⟩⟩ := ray
    obtain ⟨⟨px, py, pz⟩, ⟨nx, ny, nz⟩, cr, cg, cb⟩ := plane
    simp only [Vec3.dot, Vec3.scale, Vec3.add_def, Vec3.sub_def] at ht ⊢
    simp only [denom, Vec3.dot] at ht
    linear_combination ht

end PlaneSpec

/-! ## Reflection -/

section ReflectSpec

end ReflectSpec

/-! ## Shading -/

section ShadeSpec

variable {F : Type} [LinearOrderedField F]

/-- The occlusion loops of `shade` set `inShadow` exactly when some sphere or some
triangle is hit by the shadow ray nearer than the light. -/
theorem inShadow_iff (sqrt : F → F) (hit : HitInfo F) (light : Light F)
    (spheres : List (Sphere F)) (triangles : List (Triangle F)) :
    inShadow sqrt hit light spheres triangles = true ↔
      ((∃ s ∈ spheres, ∃ t, intersectSphere sqrt (shadowRay sqrt hit light) s = some t ∧
          t < (light.position - hit.position).length sqrt)
        ∨ (∃ tri ∈ triangles, ∃ t, intersectTriangle (shadowRay sqrt hit light) tri = some t ∧
          t < (light.position - hit.position).length sqrt)) := by
  simp only [inShadow, Bool.or_eq_true, List.any_eq_true]
  constructor
  · rintro (⟨s, hs, h⟩ | ⟨tri, htri, h⟩)
    · left
      refine ⟨s, hs, ?_⟩
      cases hI : intersectSphere sqrt (shadowRay sqrt hit light) s with
      | none => rw [hI] at h; exact absurd h (by simp)
      | some t => rw [hI] at h; exact ⟨t, rfl, of_decide_eq_true h⟩
    · right
      refine ⟨tri, htri, ?_⟩
      cases hI : intersectTriangle (shadowRay sqrt hit light) tri with
      | none => rw [hI] at h; exact absurd h (by simp)
      | some t => rw [hI] at h; exact ⟨t, rfl, of_decide_eq_true h⟩
  · rintro (⟨s, hs, t, hI, ht⟩ | ⟨tri, htri, t, hI, ht⟩)
    · left
      refine ⟨s, hs, ?_⟩
      rw [hI]
      exact decide_eq_true ht
    · right
      refine ⟨tri, htri, ?_⟩
      rw [hI]
      exact decide_eq_true ht

/-- C8. If some sphere or some triangle of the lists is intersected by the shadow ray
(origin `hit.position + 0.001 * hit.normal`, direction
`normalize(light.position - hit.position)`) at a distance
`t < |light.position - hit.position|`, then `shade` returns exactly
`(hit.r/255 * 0.1, hit.g/255 * 0.1, hit.b/255 * 0.1)`. -/
theorem shade_in_shadow (sqrt : F → F) (hit : HitInfo F) (ray : Ray F) (light : Light F)
    (spheres : List (Sphere F)) (triangles : List (Triangle F))
    (hocc :
      (∃ s ∈ spheres, ∃ t,
          intersectSphere sqrt
            ⟨hit.position + hit.normal.scale 0.001,
              (light.position - hit.position).normalize sqrt⟩ s = some t ∧
          t < (light.position - hit.position).length sqrt)
        ∨ (∃ tri ∈ triangles, ∃ t,
          intersectTriangle
            ⟨hit.position + hit.normal.scale 0.001,
              (light.position - hit.position).normalize sqrt⟩ tri = some t ∧
          t < (light.position - hit.position).length sqrt)) :
    shade sqrt hit ray light spheres triangles =
      ⟨(hit.r.val : F) / 255 * 0.1, (hit.g.val : F) / 255 * 0.1,
        (hit.b.val : F) / 255 * 0.1⟩ := by
  have hsh : inShadow sqrt hit light spheres triangles = true :=
    (inShadow_iff sqrt hit light spheres triangles).mpr hocc
  simp only [shade, hsh, if_true, Vec3.mul]

end ShadeSpec

/-! ### A concrete occluded point -/

section ShadeShadowInstance

/-- The shadow ray from the origin (normal `(1,0,0)`) towards a light at `(1,0,0)`. -/
theorem shadow_ray_x_axis :
    (Ray.mk ((⟨0, 0, 0⟩ : Vec3 ℝ) + (⟨1, 0, 0⟩ : Vec3 ℝ).scale 0.001)
        (((⟨1, 0, 0⟩ : Vec3 ℝ) - ⟨0, 0, 0⟩).normalize Real.sqrt))
      = ⟨⟨0.001, 0, 0⟩, ⟨1, 0, 0⟩⟩ := by
  simp [Vec3.normalize, Vec3.length, Vec3.scale]

/-- The distance from the origin to the light at `(1,0,0)` is `1`. -/
theorem light_distance_x_axis :
    ((⟨1, 0, 0⟩ : Vec3 ℝ) - ⟨0, 0, 0⟩).length Real.sqrt = 1 := by
  simp [Vec3.length]

/-- The sphere of radius `1/4` centred at `(1/2,0,0)` is hit by the shadow ray at
`t = 0.249`. -/
theorem blocker_hit :
    intersectSphere Real.sqrt ⟨⟨0.001, 0, 0⟩, ⟨1, 0, 0⟩⟩ ⟨⟨0.5, 0, 0⟩, 0.25, 0, 0, 255⟩
      = some 0.249 := by
  have hsq : Real.sqrt (0.5 * 0.5) = 0.5 := Real.sqrt_mul_self (by norm_num)
  rw [intersectSphere_unfold]
  simp only [Vec3.dot, Vec3.sub_def, sub_zero, zero_mul, mul_zero, add_zero, one_mul]
  rw [show (2 * ((0.001 : ℝ) - 0.5)) * (2 * (0.001 - 0.5))
      - 4 * ((0.001 - 0.5) * (0.001 - 0.5) - 0.25 * 0.25) = 0.5 * 0.5 by norm_num, hsq]
  norm_num

/-- C8, instance: a blue sphere between a red surface point at the origin and the light
at `(1,0,0)` forces the ambient-only colour `(255/255 * 0.1, 0, 0)`. -/
theorem shade_in_shadow_witness :
    ((∃ s ∈ [(⟨⟨0.5, 0, 0⟩, 0.25, 0, 0, 255⟩ : Sphere ℝ)], ∃ t,
          intersectSphere Real.sqrt
            ⟨(HitInfo.mk (1 : ℝ) ⟨0, 0, 0⟩ ⟨1, 0, 0⟩ 255 0 0).position
                + (HitInfo.mk (1 : ℝ) ⟨0, 0, 0⟩ ⟨1, 0, 0⟩ 255 0 0).normal.scale 0.001,
              ((Light.mk (⟨1, 0, 0⟩ : Vec3 ℝ) ⟨1, 1, 1⟩).position
                - (HitInfo.mk (1 : ℝ) ⟨0, 0, 0⟩ ⟨1, 0, 0⟩ 255 0 0).position).normalize
                  Real.sqrt⟩ s = some t ∧
          t < ((Light.mk (⟨1, 0, 0⟩ : Vec3 ℝ) ⟨1, 1, 1⟩).position
                - (HitInfo.mk (1 : ℝ) ⟨0, 0, 0⟩ ⟨1, 0, 0⟩ 255 0 0).position).length
                  Real.sqrt)
        ∨ (∃ tri ∈ ([] : List (Triangle ℝ)), ∃ t,
          intersectTriangle
            ⟨(HitInfo.mk (1 : ℝ) ⟨0, 0, 0⟩ ⟨1, 0, 0⟩ 255 0 0).position
                + (HitInfo.mk (1 : ℝ) ⟨0, 0, 0⟩ ⟨1, 0, 0⟩ 255 0 0).normal.scale 0.001,
              ((Light.mk (⟨1, 0, 0⟩ : Vec3 ℝ) ⟨1, 1, 1⟩).position
                - (HitInfo.mk (1 : ℝ) ⟨0, 0, 0⟩ ⟨1, 0, 0⟩ 255 0 0).position).normalize
                  Real.sqrt⟩ tri = some t ∧
          t < ((Light.mk (⟨1, 0, 0⟩ : Vec3 ℝ) ⟨1, 1, 1⟩).position
                - (HitInfo.mk (1 : ℝ) ⟨0, 0, 0⟩ ⟨1, 0, 0⟩ 255 0 0).position).length
                  Real.sqrt))
      ∧ shade Real.sqrt (HitInfo.mk (1 : ℝ) ⟨0, 0, 0⟩ ⟨1, 0, 0⟩ 255 0 0)
          ⟨⟨1, 0, 0⟩, ⟨-1, 0, 0⟩⟩ (Light.mk (⟨1, 0, 0⟩ : Vec3 ℝ) ⟨1, 1, 1⟩)
          [(⟨⟨0.5, 0, 0⟩, 0.25, 0, 0, 255⟩ : Sphere ℝ)] []
        = ⟨(((255 : Fin 256).val : ℕ) : ℝ) / 255 * 0.1,
            (((0 : Fin 256).val : ℕ) : ℝ) / 255 * 0.1,
            (((0 : Fin 256).val : ℕ) : ℝ) / 255 * 0.1⟩ :=
  have hocc : (∃ s ∈ [(⟨⟨0.5, 0, 0⟩, 0.25, 0, 0, 255⟩ : Sphere ℝ)], ∃ t,
          intersectSphere Real.sqrt
            ⟨(HitInfo.mk (1 : ℝ) ⟨0, 0, 0⟩ ⟨1, 0, 0⟩ 255 0 0).position
                + (HitInfo.mk (1 : ℝ) ⟨0, 0, 0⟩ ⟨1, 0, 0⟩ 255 0 0).normal.scale 0.001,
              ((Light.mk (⟨1, 0, 0⟩ : Vec3 ℝ) ⟨1, 1, 1⟩).position
                - (HitInfo.mk (1 : ℝ) ⟨0, 0, 0⟩ ⟨1, 0, 0⟩ 255 0 0).position).normalize
                  Real.sqrt⟩ s = some t ∧
          t < ((Light.mk (⟨1, 0, 0⟩ : Vec3 ℝ) ⟨1, 1, 1⟩).position
                - (HitInfo.mk (1 : ℝ) ⟨0, 0, 0⟩ ⟨1, 0, 0⟩ 255 0 0).position).length
                  Real.sqrt)
        ∨ (∃ tri ∈ ([] : List (Triangle ℝ)), ∃ t,
          intersectTriangle
            ⟨(HitInfo.mk (1 : ℝ) ⟨0, 0, 0⟩ ⟨1, 0, 0⟩ 255 0 0).position
                + (HitInfo.mk (1 : ℝ) ⟨0, 0, 0⟩ ⟨1, 0, 0⟩ 255 0 0).normal.scale 0.001,
              ((Light.mk (⟨1, 0, 0⟩ : Vec3 ℝ) ⟨1, 1, 1⟩).position
                - (HitInfo.mk (1 : ℝ) ⟨0, 0, 0⟩ ⟨1, 0, 0⟩ 255 0 0).position).normalize
                  Real.sqrt⟩ tri = some t ∧
          t < ((Light.mk (⟨1, 0, 0⟩ : Vec3 ℝ) ⟨1, 1, 1⟩).position
                - (HitInfo.mk (1 : ℝ) ⟨0, 0, 0⟩ ⟨1, 0, 0⟩ 255 0 0).position).length
                  Real.sqrt) :=
    Or.inl ⟨_, List.mem_singleton_self _, 0.249, by
      show intersectSphere Real.sqrt
        (Ray.mk ((⟨0, 0, 0⟩ : Vec3 ℝ) + (⟨1, 0, 0⟩ : Vec3 ℝ).scale 0.001)
          (((⟨1, 0, 0⟩ : Vec3 ℝ) - ⟨0, 0, 0⟩).normalize Real.sqrt)) _ = _
      rw [shadow_ray_x_axis]
      exact blocker_hit, by
      show (0.249 : ℝ) < ((⟨1, 0, 0⟩ : Vec3 ℝ) - ⟨0, 0, 0⟩).length Real.sqrt
      rw [light_distance_x_axis]
      norm_num⟩
  ⟨hocc, shade_in_shadow Real.sqrt _ _ _ _ _ hocc⟩

end ShadeShadowInstance

/-! ### The lit branch and the range of `shade` -/

section ShadeLit

variable {F : Type} [LinearOrderedField F]

/-- A byte colour channel divided by `255` lies in `[0, 1]`. -/
theorem byte_channel_range (c : Fin 256) :
    0 ≤ ((c.val : ℕ) : F) / 255 ∧ ((c.val : ℕ) : F) / 255 ≤ 1 := by
  have h0 : (0 : F) ≤ ((c.val : ℕ) : F) := Nat.cast_nonneg _
  have h1 : ((c.val : ℕ) : F) ≤ 255 := by
    have : c.val ≤ 255 := Nat.lt_succ_iff.mp c.isLt
    exact_mod_cast this
  constructor
  · exact div_nonneg h0 (by norm_num)
  · rw [div_le_one (by norm_num)]
    exact h1

/-- C9 (amended). When no sphere and no triangle is intersected by the shadow ray nearer
than the light, `shade` returns, per channel,
`min(1, obj*0.1 + obj*lightColor*max(N·L,0)*0.7 + lightColor*max(V·R,0)^32*0.2)`, where
`obj` is the hit's byte colour divided by `255`, `N = hit.normal`,
`L = normalize(light.position - hit.position)`, `V = normalize(ray.origin - hit.position)`
and `R = normalize(2 (N·L) N - L)` is the normalised reflection of `L` about `N`. -/
theorem shade_lit (sqrt : F → F) (hit : HitInfo F) (ray : Ray F) (light : Light F)
    (spheres : List (Sphere F)) (triangles : List (Triangle F))
    (hs : ∀ s ∈ spheres, ∀ t,
      intersectSphere sqrt
        ⟨hit.position + hit.normal.scale 0.001,
          (light.position - hit.position).normalize sqrt⟩ s = some t →
      ¬ t < (light.position - hit.position).length sqrt)
    (ht : ∀ tri ∈ triangles, ∀ t,
      intersectTriangle
        ⟨hit.position + hit.normal.scale 0.001,
          (light.position - hit.position).normalize sqrt⟩ tri = some t →
      ¬ t < (light.position - hit.position).length sqrt) :
    shade sqrt hit ray light spheres triangles =
      ⟨litChannelSpec ((hit.r.val : F) / 255) light.color.x
          (hit.normal.dot ((light.position - hit.position).normalize sqrt))
          (((ray.origin - hit.position).normalize sqrt).dot
            ((hit.normal.scale
                (2 * hit.normal.dot ((light.position - hit.position).normalize sqrt))
              - (light.position - hit.position).normalize sqrt).normalize sqrt)),
        litChannelSpec ((hit.g.val : F) / 255) light.color.y
          (hit.normal.dot ((light.position - hit.position).normalize sqrt))
          (((ray.origin - hit.position).normalize sqrt).dot
            ((hit.normal.scale
                (2 * hit.normal.dot ((light.position - hit.position).normalize sqrt))
              - (light.position - hit.position).normalize sqrt).normalize sqrt)),
        litChannelSpec ((hit.b.val : F) / 255) light.color.z
          (hit.normal.dot ((light.position - hit.position).normalize sqrt))
          (((ray.origin - hit.position).normalize sqrt).dot
            ((hit.normal.scale
                (2 * hit.normal.dot ((light.position - hit.position).normalize sqrt))
              - (light.position - hit.position).normalize sqrt).normalize sqrt))⟩ := by
  have hsh : inShadow sqrt hit light spheres triangles = false := by
    rw [Bool.eq_false_iff]
    intro h
    rcases (inShadow_iff sqrt hit light spheres triangles).mp h with
      ⟨s, hmem, t, hI, hlt⟩ | ⟨tri, hmem, t, hI, hlt⟩
    · exact hs s hmem t hI hlt
    · exact ht tri hmem t hI hlt
  simp only [shade, hsh, Vec3.mul, Vec3.scale, Vec3.add_def, litChannelSpec, min_comm]
  simp

/-- The range of `shade` in exact arithmetic (the amended claim C10, in the arithmetic of
the program, is `shade_binary32_range`).  When the light colour components are
non-negative, every channel of the colour returned by `shade` lies in the closed interval
`[0, 1]`. -/
theorem shade_range (sqrt : F → F) (hit : HitInfo F) (ray : Ray F) (light : Light F)
    (spheres : List (Sphere F)) (triangles : List (Triangle F))
    (hl : 0 ≤ light.color.x ∧ 0 ≤ light.color.y ∧ 0 ≤ light.color.z) :
    (0 ≤ (shade sqrt hit ray light spheres triangles).x ∧
        (shade sqrt hit ray light spheres triangles).x ≤ 1)
      ∧ (0 ≤ (shade sqrt hit ray light spheres triangles).y ∧
        (shade sqrt hit ray light spheres triangles).y ≤ 1)
      ∧ (0 ≤ (shade sqrt hit ray light spheres triangles).z ∧
        (shade sqrt hit ray light spheres triangles).z ≤ 1) := by
  obtain ⟨hx, hy, hz⟩ := hl
  have amb : ∀ o : F, 0 ≤ o → o ≤ 1 → 0 ≤ o * 0.1 ∧ o * 0.1 ≤ 1 := by
    intro o h0 h1
    constructor
    · exact mul_nonneg h0 (by norm_num)
    · have : o * 0.1 ≤ 1 * 0.1 := mul_le_mul_of_nonneg_right h1 (by norm_num)
      have h2 : (1 : F) * 0.1 ≤ 1 := by norm_num
      exact le_trans this h2
  have lit : ∀ o l d s : F, 0 ≤ o → 0 ≤ l → 0 ≤ d → 0 ≤ s →
      0 ≤ min (o * 0.1 + o * l * d * 0.7 + l * s * 0.2) 1 ∧
        min (o * 0.1 + o * l * d * 0.7 + l * s * 0.2) 1 ≤ 1 := by
    intro o l d s ho hl hd hs
    refine ⟨le_min ?_ zero_le_one, min_le_right _ _⟩
    have h1 : 0 ≤ o * 0.1 := mul_nonneg ho (by norm_num)
    have h2 : 0 ≤ o * l * d * 0.7 :=
      mul_nonneg (mul_nonneg (mul_nonneg ho hl) hd) (by norm_num)
    have h3 : 0 ≤ l * s * 0.2 := mul_nonneg (mul_nonneg hl hs) (by norm_num)
    linarith
  have hr := byte_channel_range (F := F) hit.r
  have hg := byte_channel_range (F := F) hit.g
  have hb := byte_channel_range (F := F) hit.b
  cases hsh : inShadow sqrt hit light spheres triangles with
  | true =>
    simp only [shade, hsh, if_true, Vec3.mul]
    exact ⟨amb _ hr.1 hr.2, amb _ hg.1 hg.2, amb _ hb.1 hb.2⟩
  | false =>
    simp only [shade, hsh, Vec3.mul, Vec3.scale, Vec3.add_def, Bool.false_eq_true,
      if_false]
    exact ⟨lit _ _ _ _ hr.1 hx (le_max_right _ _) (pow_nonneg (le_max_right _ _) _),
      lit _ _ _ _ hg.1 hy (le_max_right _ _) (pow_nonneg (le_max_right _ _) _),
      lit _ _ _ _ hb.1 hz (le_max_right _ _) (pow_nonneg (le_max_right _ _) _)⟩

end ShadeLit

/-! ### Concrete lit points -/

section ShadeLitInstances

/-- C9 (as stated) fails for a normal that is not of unit length: at the black hit with
`N = (2,0,0)` at the origin, light and eye at `(1,0,0)`, light colour `(1,1,1)` and empty
primitive lists, no occluder exists, `shade` returns the red channel `0.2` (it
normalises `2 (N·L) N - L = (7,0,0)` to `(1,0,0)`), whereas the stated formula with
the unnormalised `R = 2 (N·L) N - L` gives `min(1, 0.2 * 7^32) = 1`. -/
theorem shade_lit_unnormalised_fails :
    inShadow Real.sqrt (HitInfo.mk (1 : ℝ) ⟨0, 0, 0⟩ ⟨2, 0, 0⟩ 0 0 0)
        (Light.mk (⟨1, 0, 0⟩ : Vec3 ℝ) ⟨1, 1, 1⟩) [] [] = false
      ∧ (shade Real.sqrt (HitInfo.mk (1 : ℝ) ⟨0, 0, 0⟩ ⟨2, 0, 0⟩ 0 0 0)
          ⟨⟨1, 0, 0⟩, ⟨-1, 0, 0⟩⟩ (Light.mk (⟨1, 0, 0⟩ : Vec3 ℝ) ⟨1, 1, 1⟩) [] []).x = 0.2
      ∧ litChannelSpec ((((0 : Fin 256).val : ℕ) : ℝ) / 255) (1 : ℝ)
          ((⟨2, 0, 0⟩ : Vec3 ℝ).dot
            (((⟨1, 0, 0⟩ : Vec3 ℝ) - ⟨0, 0, 0⟩).normalize Real.sqrt))
          ((((⟨1, 0, 0⟩ : Vec3 ℝ) - ⟨0, 0, 0⟩).normalize Real.sqrt).dot
            ((⟨2, 0, 0⟩ : Vec3 ℝ).scale
                (2 * (⟨2, 0, 0⟩ : Vec3 ℝ).dot
                  (((⟨1, 0, 0⟩ : Vec3 ℝ) - ⟨0, 0, 0⟩).normalize Real.sqrt))
              - ((⟨1, 0, 0⟩ : Vec3 ℝ) - ⟨0, 0, 0⟩).normalize Real.sqrt)) = 1 := by
  have hL : ((⟨1, 0, 0⟩ : Vec3 ℝ) - ⟨0, 0, 0⟩).normalize Real.sqrt = ⟨1, 0, 0⟩ := by
    simp [Vec3.normalize, Vec3.length, Vec3.scale]
  have h7 : Real.sqrt (7 * 7) = 7 := Real.sqrt_mul_self (by norm_num)
  have hR : ((⟨2, 0, 0⟩ : Vec3 ℝ).scale (2 * (⟨2, 0, 0⟩ : Vec3 ℝ).dot ⟨1, 0, 0⟩)
      - (⟨1, 0, 0⟩ : Vec3 ℝ)).normalize Real.sqrt = ⟨1, 0, 0⟩ := by
    have e : (⟨2, 0, 0⟩ : Vec3 ℝ).scale (2 * (⟨2, 0, 0⟩ : Vec3 ℝ).dot ⟨1, 0, 0⟩)
        - (⟨1, 0, 0⟩ : Vec3 ℝ) = ⟨7, 0, 0⟩ := by
      simp only [Vec3.scale, Vec3.dot, Vec3.sub_def, Vec3.mk.injEq]
      norm_num
    rw [e]
    simp only [Vec3.normalize, Vec3.length, Vec3.scale, mul_zero, add_zero, zero_mul, h7,
      Vec3.mk.injEq]
    norm_num
  refine ⟨by simp [inShadow], ?_, ?_⟩
  · have hsh : inShadow Real.sqrt (HitInfo.mk (1 : ℝ) ⟨0, 0, 0⟩ ⟨2, 0, 0⟩ 0 0 0)
        (Light.mk (⟨1, 0, 0⟩ : Vec3 ℝ) ⟨1, 1, 1⟩) [] [] = false := by simp [inShadow]
    simp only [shade, hsh, hL, hR, Bool.false_eq_true, if_false]
    norm_num [Vec3.mul, Vec3.scale, Vec3.dot]
  · rw [hL]
    simp only [litChannelSpec, Vec3.scale, Vec3.dot, Vec3.sub_def]
    norm_num

end ShadeLitInstances

/-! ### Concrete points on the `x` axis -/

section ShadeAxisInstances

/-- The byte `255` as a real number. -/
theorem byte_max_real : (((255 : Fin 256).val : ℕ) : ℝ) = 255 := by
  have h : (255 : Fin 256).val = 255 := rfl
  rw [h]
  norm_num

/-- The reflection of the light direction `(1,0,0)` about the unit normal `(1,0,0)`,
normalised as in `shade`, is `(1,0,0)`. -/
theorem reflect_dir_x_axis :
    ((⟨1, 0, 0⟩ : Vec3 ℝ).scale (2 * (⟨1, 0, 0⟩ : Vec3 ℝ).dot ⟨1, 0, 0⟩)
      - (⟨1, 0, 0⟩ : Vec3 ℝ)).normalize Real.sqrt = ⟨1, 0, 0⟩ := by
  have e : (⟨1, 0, 0⟩ : Vec3 ℝ).scale (2 * (⟨1, 0, 0⟩ : Vec3 ℝ).dot ⟨1, 0, 0⟩)
      - (⟨1, 0, 0⟩ : Vec3 ℝ) = ⟨1, 0, 0⟩ := by
    simp only [Vec3.scale, Vec3.dot, Vec3.sub_def, Vec3.mk.injEq]
    norm_num
  rw [e]
  simp [Vec3.normalize, Vec3.length, Vec3.scale]

/-- The unit direction from the origin to `(1,0,0)`. -/
theorem light_dir_x_axis :
    ((⟨1, 0, 0⟩ : Vec3 ℝ) - ⟨0, 0, 0⟩).normalize Real.sqrt = ⟨1, 0, 0⟩ := by
  simp [Vec3.normalize, Vec3.length, Vec3.scale]

/-- The sphere of radius `1` centred at `(0,0,-10)` is missed by the shadow ray along
the `x` axis. -/
theorem far_sphere_missed :
    intersectSphere Real.sqrt ⟨⟨0.001, 0, 0⟩, ⟨1, 0, 0⟩⟩ ⟨⟨0, 0, -10⟩, 1, 0, 0, 255⟩
      = none := by
  rw [intersectSphere_unfold]
  simp only [Vec3.dot, Vec3.sub_def]
  norm_num

/-- C9 (amended), instance: a red surface point at the origin with unit normal
`(1,0,0)`, light and eye at `(1,0,0)`, white light, one sphere off the shadow ray: the
colour is `(min(1, 0.1 + 0.7 + 0.2), 0.2, 0.2) = (1, 0.2, 0.2)`. -/
theorem shade_lit_witness :
    (∀ s ∈ [(⟨⟨0, 0, -10⟩, 1, 0, 0, 255⟩ : Sphere ℝ)], ∀ t,
        intersectSphere Real.sqrt
          ⟨(HitInfo.mk (1 : ℝ) ⟨0, 0, 0⟩ ⟨1, 0, 0⟩ 255 0 0).position
              + (HitInfo.mk (1 : ℝ) ⟨0, 0, 0⟩ ⟨1, 0, 0⟩ 255 0 0).normal.scale 0.001,
            ((Light.mk (⟨1, 0, 0⟩ : Vec3 ℝ) ⟨1, 1, 1⟩).position
              - (HitInfo.mk (1 : ℝ) ⟨0, 0, 0⟩ ⟨1, 0, 0⟩ 255 0 0).position).normalize
                Real.sqrt⟩ s = some t →
        ¬ t < ((Light.mk (⟨1, 0, 0⟩ : Vec3 ℝ) ⟨1, 1, 1⟩).position
              - (HitInfo.mk (1 : ℝ) ⟨0, 0, 0⟩ ⟨1, 0, 0⟩ 255 0 0).position).length
                Real.sqrt)
      ∧ (∀ tri ∈ ([] : List (Triangle ℝ)), ∀ t,
        intersectTriangle
          ⟨(HitInfo.mk (1 : ℝ) ⟨0, 0, 0⟩ ⟨1, 0, 0⟩ 255 0 0).position
              + (HitInfo.mk (1 : ℝ) ⟨0, 0, 0⟩ ⟨1, 0, 0⟩ 255 0 0).normal.scale 0.001,
            ((Light.mk (⟨1, 0, 0⟩ : Vec3 ℝ) ⟨1, 1, 1⟩).position
              - (HitInfo.mk (1 : ℝ) ⟨0, 0, 0⟩ ⟨1, 0, 0⟩ 255 0 0).position).normalize
                Real.sqrt⟩ tri = some t →
        ¬ t < ((Light.mk (⟨1, 0, 0⟩ : Vec3 ℝ) ⟨1, 1, 1⟩).position
              - (HitInfo.mk (1 : ℝ) ⟨0, 0, 0⟩ ⟨1, 0, 0⟩ 255 0 0).position).length
                Real.sqrt)
      ∧ shade Real.sqrt (HitInfo.mk (1 : ℝ) ⟨0, 0, 0⟩ ⟨1, 0, 0⟩ 255 0 0)
          ⟨⟨1, 0, 0⟩, ⟨-1, 0, 0⟩⟩ (Light.mk (⟨1, 0, 0⟩ : Vec3 ℝ) ⟨1, 1, 1⟩)
          [(⟨⟨0, 0, -10⟩, 1, 0, 0, 255⟩ : Sphere ℝ)] []
        = ⟨1, 0.2, 0.2⟩ := by
  have hs : ∀ s ∈ [(⟨⟨0, 0, -10⟩, 1, 0, 0, 255⟩ : Sphere ℝ)], ∀ t,
      intersectSphere Real.sqrt
        ⟨(HitInfo.mk (1 : ℝ) ⟨0, 0, 0⟩ ⟨1, 0, 0⟩ 255 0 0).position
            + (HitInfo.mk (1 : ℝ) ⟨0, 0, 0⟩ ⟨1, 0, 0⟩ 255 0 0).normal.scale 0.001,
          ((Light.mk (⟨1, 0, 0⟩ : Vec3 ℝ) ⟨1, 1, 1⟩).position
            - (HitInfo.mk (1 : ℝ) ⟨0, 0, 0⟩ ⟨1, 0, 0⟩ 255 0 0).position).normalize
              Real.sqrt⟩ s = some t →
      ¬ t < ((Light.mk (⟨1, 0, 0⟩ : Vec3 ℝ) ⟨1, 1, 1⟩).position
            - (HitInfo.mk (1 : ℝ) ⟨0, 0, 0⟩ ⟨1, 0, 0⟩ 255 0 0).position).length
              Real.sqrt := by
    intro s hmem t hI
    rw [List.mem_singleton] at hmem
    subst hmem
    have hray := shadow_ray_x_axis
    simp only [] at hI
    rw [hray, far_sphere_missed] at hI
    exact absurd hI (by simp)
  have ht : ∀ tri ∈ ([] : List (Triangle ℝ)), ∀ t,
      intersectTriangle
        ⟨(HitInfo.mk (1 : ℝ) ⟨0, 0, 0⟩ ⟨1, 0, 0⟩ 255 0 0).position
            + (HitInfo.mk (1 : ℝ) ⟨0, 0, 0⟩ ⟨1, 0, 0⟩ 255 0 0).normal.scale 0.001,
          ((Light.mk (⟨1, 0, 0⟩ : Vec3 ℝ) ⟨1, 1, 1⟩).position
            - (HitInfo.mk (1 : ℝ) ⟨0, 0, 0⟩ ⟨1, 0, 0⟩ 255 0 0).position).normalize
              Real.sqrt⟩ tri = some t →
      ¬ t < ((Light.mk (⟨1, 0, 0⟩ : Vec3 ℝ) ⟨1, 1, 1⟩).position
            - (HitInfo.mk (1 : ℝ) ⟨0, 0, 0⟩ ⟨1, 0, 0⟩ 255 0 0).position).length
              Real.sqrt := by
    intro tri hmem
    exact absurd hmem (List.not_mem_nil _)
  refine ⟨hs, ht, ?_⟩
  rw [shade_lit Real.sqrt _ _ _ _ _ hs ht]
  simp only [light_dir_x_axis, reflect_dir_x_axis]
  simp only [litChannelSpec, Vec3.dot, Vec3.mk.injEq, byte_max_real]
  norm_num

/-- In exact arithmetic too, `shade` leaves `[0, 1]` for a light of negative colour (the
binary32 counterexample to C10 is `shade_binary32_not_in_range`): at a white surface point at
the origin with normal `(1,0,0)`, light and eye at `(1,0,0)`, light colour `(-1,-1,-1)`
and empty primitive lists, the red channel returned by `shade` is
`0.1 - 0.7 - 0.2 = -0.8 < 0`. -/
theorem shade_negative_light :
    (shade Real.sqrt (HitInfo.mk (1 : ℝ) ⟨0, 0, 0⟩ ⟨1, 0, 0⟩ 255 255 255)
        ⟨⟨1, 0, 0⟩, ⟨-1, 0, 0⟩⟩ (Light.mk (⟨1, 0, 0⟩ : Vec3 ℝ) ⟨-1, -1, -1⟩) [] []).x
        = -0.8
      ∧ ¬ (0 ≤ (shade Real.sqrt (HitInfo.mk (1 : ℝ) ⟨0, 0, 0⟩ ⟨1, 0, 0⟩ 255 255 255)
        ⟨⟨1, 0, 0⟩, ⟨-1, 0, 0⟩⟩ (Light.mk (⟨1, 0, 0⟩ : Vec3 ℝ) ⟨-1, -1, -1⟩) [] []).x) := by
  have hsh : inShadow Real.sqrt (HitInfo.mk (1 : ℝ) ⟨0, 0, 0⟩ ⟨1, 0, 0⟩ 255 255 255)
      (Light.mk (⟨1, 0, 0⟩ : Vec3 ℝ) ⟨-1, -1, -1⟩) [] [] = false := by simp [inShadow]
  have hval : (shade Real.sqrt (HitInfo.mk (1 : ℝ) ⟨0, 0, 0⟩ ⟨1, 0, 0⟩ 255 255 255)
        ⟨⟨1, 0, 0⟩, ⟨-1, 0, 0⟩⟩ (Light.mk (⟨1, 0, 0⟩ : Vec3 ℝ) ⟨-1, -1, -1⟩) [] []).x
        = -0.8 := by
    simp only [shade, hsh, light_dir_x_axis, reflect_dir_x_axis, Bool.false_eq_true,
      if_false, byte_max_real]
    norm_num [Vec3.mul, Vec3.scale, Vec3.dot]
  refine ⟨hval, ?_⟩
  rw [hval]
  norm_num

/-- An instance of `shade_range`: white light `(1,1,1)` on the red point of the `x`
axis. -/
theorem shade_range_witness :
    (0 ≤ (Light.mk (⟨1, 0, 0⟩ : Vec3 ℝ) ⟨1, 1, 1⟩).color.x
        ∧ 0 ≤ (Light.mk (⟨1, 0, 0⟩ : Vec3 ℝ) ⟨1, 1, 1⟩).color.y
        ∧ 0 ≤ (Light.mk (⟨1, 0, 0⟩ : Vec3 ℝ) ⟨1, 1, 1⟩).color.z)
      ∧ ((0 ≤ (shade Real.sqrt (HitInfo.mk (1 : ℝ) ⟨0, 0, 0⟩ ⟨1, 0, 0⟩ 255 0 0)
            ⟨⟨1, 0, 0⟩, ⟨-1, 0, 0⟩⟩ (Light.mk (⟨1, 0, 0⟩ : Vec3 ℝ) ⟨1, 1, 1⟩)
            [(⟨⟨0, 0, -10⟩, 1, 0, 0, 255⟩ : Sphere ℝ)] []).x ∧
          (shade Real.sqrt (HitInfo.mk (1 : ℝ) ⟨0, 0, 0⟩ ⟨1, 0, 0⟩ 255 0 0)
            ⟨⟨1, 0, 0⟩, ⟨-1, 0, 0⟩⟩ (Light.mk (⟨1, 0, 0⟩ : Vec3 ℝ) ⟨1, 1, 1⟩)
            [(⟨⟨0, 0, -10⟩, 1, 0, 0, 255⟩ : Sphere ℝ)] []).x ≤ 1)
        ∧ (0 ≤ (shade Real.sqrt (HitInfo.mk (1 : ℝ) ⟨0, 0, 0⟩ ⟨1, 0, 0⟩ 255 0 0)
            ⟨⟨1, 0, 0⟩, ⟨-1, 0, 0⟩⟩ (Light.mk (⟨1, 0, 0⟩ : Vec3 ℝ) ⟨1, 1, 1⟩)
            [(⟨⟨0, 0, -10⟩, 1, 0, 0, 255⟩ : Sphere ℝ)] []).y ∧
          (shade Real.sqrt (HitInfo.mk (1 : ℝ) ⟨0, 0, 0⟩ ⟨1, 0, 0⟩ 255 0 0)
            ⟨⟨1, 0, 0⟩, ⟨-1, 0, 0⟩⟩ (Light.mk (⟨1, 0, 0⟩ : Vec3 ℝ) ⟨1, 1, 1⟩)
            [(⟨⟨0, 0, -10⟩, 1, 0, 0, 255⟩ : Sphere ℝ)] []).y ≤ 1)
        ∧ (0 ≤ (shade Real.sqrt (HitInfo.mk (1 : ℝ) ⟨0, 0, 0⟩ ⟨1, 0, 0⟩ 255 0 0)
            ⟨⟨1, 0, 0⟩, ⟨-1, 0, 0⟩⟩ (Light.mk (⟨1, 0, 0⟩ : Vec3 ℝ) ⟨1, 1, 1⟩)
            [(⟨⟨0, 0, -10⟩, 1, 0, 0, 255⟩ : Sphere ℝ)] []).z ∧
          (shade Real.sqrt (HitInfo.mk (1 : ℝ) ⟨0, 0, 0⟩ ⟨1, 0, 0⟩ 255 0 0)
            ⟨⟨1, 0, 0⟩, ⟨-1, 0, 0⟩⟩ (Light.mk (⟨1, 0, 0⟩ : Vec3 ℝ) ⟨1, 1, 1⟩)
            [(⟨⟨0, 0, -10⟩, 1, 0, 0, 255⟩ : Sphere ℝ)] []).z ≤ 1)) :=
  have hl : 0 ≤ (Light.mk (⟨1, 0, 0⟩ : Vec3 ℝ) ⟨1, 1, 1⟩).color.x
      ∧ 0 ≤ (Light.mk (⟨1, 0, 0⟩ : Vec3 ℝ) ⟨1, 1, 1⟩).color.y
      ∧ 0 ≤ (Light.mk (⟨1, 0, 0⟩ : Vec3 ℝ) ⟨1, 1, 1⟩).color.z :=
    ⟨zero_le_one, zero_le_one, zero_le_one⟩
  ⟨hl, shade_range Real.sqrt _ _ _ _ _ hl⟩

end ShadeAxisInstances

/-! ### The lit branch for a unit normal -/

section ShadeLitUnit

/-- Normalising a non-zero real vector yields a vector of length one. -/
theorem normalize_length (v : Vec3 ℝ) (hv : v.dot v ≠ 0) :
    (v.normalize Real.sqrt).length Real.sqrt = 1 := by
  obtain ⟨x, y, z⟩ := v
  simp only [Vec3.dot] at hv
  have hnn : 0 ≤ x * x + y * y + z * z := by
    nlinarith [mul_self_nonneg x, mul_self_nonneg y, mul_self_nonneg z]
  have hpos : 0 < Real.sqrt (x * x + y * y + z * z) :=
    Real.sqrt_pos.mpr (lt_of_le_of_ne hnn (Ne.symm hv))
  have hne : Real.sqrt (x * x + y * y + z * z) ≠ 0 := ne_of_gt hpos
  simp only [Vec3.normalize, Vec3.length, Vec3.scale]
  have e : x * (1 / Real.sqrt (x * x + y * y + z * z)) *
        (x * (1 / Real.sqrt (x * x + y * y + z * z)))
      + y * (1 / Real.sqrt (x * x + y * y + z * z)) *
        (y * (1 / Real.sqrt (x * x + y * y + z * z)))
      + z * (1 / Real.sqrt (x * x + y * y + z * z)) *
        (z * (1 / Real.sqrt (x * x + y * y + z * z))) = 1 := by
    field_simp
  rw [e, Real.sqrt_one]

/-- Normalising a real vector of length one leaves it unchanged. -/
theorem normalize_of_length_one (v : Vec3 ℝ) (hv : v.length Real.sqrt = 1) :
    v.normalize Real.sqrt = v := by
  obtain ⟨x, y, z⟩ := v
  simp only [Vec3.normalize, hv, Vec3.scale, div_one, mul_one]

/-- The reflection `2 (N·L) N - L` of a unit vector `L` about a unit vector `N` has
length one, so `shade` normalising it changes nothing. -/
theorem reflect_dir_unit (N L : Vec3 ℝ) (hN : N.length Real.sqrt = 1)
    (hL : L.length Real.sqrt = 1) :
    (N.scale (2 * N.dot L) - L).normalize Real.sqrt = N.scale (2 * N.dot L) - L := by
  apply normalize_of_length_one
  have hNN := dot_self_of_length_one N hN
  have hLL := dot_self_of_length_one L hL
  obtain ⟨nx, ny, nz⟩ := N
  obtain ⟨lx, ly, lz⟩ := L
  simp only [Vec3.dot] at hNN hLL
  simp only [Vec3.length, Vec3.scale, Vec3.dot, Vec3.sub_def]
  rw [Real.sqrt_eq_one]
  linear_combination (4 * (nx * lx + ny * ly + nz * lz) ^ 2) * hNN + hLL

/-- Two distinct points have a difference of non-zero squared length. -/
theorem sub_dot_self_ne_zero (p q : Vec3 ℝ) (h : p ≠ q) : (p - q).dot (p - q) ≠ 0 := by
  obtain ⟨px, py, pz⟩ := p
  obtain ⟨qx, qy, qz⟩ := q
  simp only [Vec3.dot, Vec3.sub_def]
  intro h0
  apply h
  have hx : (px - qx) * (px - qx) = 0 := by
    nlinarith [mul_self_nonneg (px - qx), mul_self_nonneg (py - qy),
      mul_self_nonneg (pz - qz)]
  have hy : (py - qy) * (py - qy) = 0 := by
    nlinarith [mul_self_nonneg (px - qx), mul_self_nonneg (py - qy),
      mul_self_nonneg (pz - qz)]
  have hz : (pz - qz) * (pz - qz) = 0 := by
    nlinarith [mul_self_nonneg (px - qx), mul_self_nonneg (py - qy),
      mul_self_nonneg (pz - qz)]
  rw [Vec3.mk.injEq]
  exact ⟨sub_eq_zero.mp (mul_self_eq_zero.mp hx), sub_eq_zero.mp (mul_self_eq_zero.mp hy),
    sub_eq_zero.mp (mul_self_eq_zero.mp hz)⟩

/-- Under the data-model invariant that the hit normal has unit length, and for a light
that is not at the hit point, the lit branch of `shade` is the formula with the
unnormalised reflection `R = 2 (N·L) N - L`. -/
theorem shade_lit_unit_normal (hit : HitInfo ℝ) (ray : Ray ℝ) (light : Light ℝ)
    (spheres : List (Sphere ℝ)) (triangles : List (Triangle ℝ))
    (hN : hit.normal.length Real.sqrt = 1)
    (hpos : light.position ≠ hit.position)
    (hsh : inShadow Real.sqrt hit light spheres triangles = false) :
    shade Real.sqrt hit ray light spheres triangles =
      ⟨litChannelSpec ((hit.r.val : ℝ) / 255) light.color.x
          (hit.normal.dot ((light.position - hit.position).normalize Real.sqrt))
          (((ray.origin - hit.position).normalize Real.sqrt).dot
            (hit.normal.scale
                (2 * hit.normal.dot ((light.position - hit.position).normalize Real.sqrt))
              - (light.position - hit.position).normalize Real.sqrt)),
        litChannelSpec ((hit.g.val : ℝ) / 255) light.color.y
          (hit.normal.dot ((light.position - hit.position).normalize Real.sqrt))
          (((ray.origin - hit.position).normalize Real.sqrt).dot
            (hit.normal.scale
                (2 * hit.normal.dot ((light.position - hit.position).normalize Real.sqrt))
              - (light.position - hit.position).normalize Real.sqrt)),
        litChannelSpec ((hit.b.val : ℝ) / 255) light.color.z
          (hit.normal.dot ((light.position - hit.position).normalize Real.sqrt))
          (((ray.origin - hit.position).normalize Real.sqrt).dot
            (hit.normal.scale
                (2 * hit.normal.dot ((light.position - hit.position).normalize Real.sqrt))
              - (light.position - hit.position).normalize Real.sqrt))⟩ := by
  have hL := normalize_length _ (sub_dot_self_ne_zero _ _ hpos)
  have hR := reflect_dir_unit hit.normal _ hN hL
  simp only [shade, hsh, Vec3.mul, Vec3.scale, Vec3.add_def, litChannelSpec, min_comm]
  simp only [Vec3.scale] at hR
  rw [hR]
  simp

end ShadeLitUnit

/-! ## The recursive tracer -/

section TraceSpec

variable {F : Type} [LinearOrderedField F]

/-- One unfolding of `trace`. -/
theorem trace_unfold (sqrt : F → F) (ray : Ray F) (spheres : List (Sphere F))
    (triangles : List (Triangle F)) (plane : Plane F) (light : Light F) (depth : Int) :
    trace sqrt ray spheres triangles plane light depth =
      if depth > 2 then ⟨0.1, 0.1, 0.1⟩
      else
        match planeBranch ray plane (closestPrimitive sqrt ray spheres triangles).1.t with
        | some tPlane =>
          (Vec3.mk ((plane.r.val : F) / 255) ((plane.g.val : F) / 255)
              ((plane.b.val : F) / 255)).scale 0.3
            + (trace sqrt (reflectRay sqrt ray plane tPlane) spheres triangles plane light
                (depth + 1)).scale 0.7
        | none =>
          if (closestPrimitive sqrt ray spheres triangles).2 then
            shade sqrt (closestPrimitive sqrt ray spheres triangles).1 ray light spheres
              triangles
          else ⟨0.1, 0.1, 0.1⟩ := by
  rw [trace]
  simp only [dite_eq_ite]

/-- The plane branch is taken exactly when `intersectPlane` reports a distance below
`closestHit.t`. -/
theorem planeBranch_eq_some (ray : Ray F) (plane : Plane F) (closestT t : F) :
    planeBranch ray plane closestT = some t ↔
      (intersectPlane ray plane = some t ∧ t < closestT) := by
  unfold planeBranch
  cases hI : intersectPlane ray plane with
  | none => simp
  | some tp =>
    by_cases hlt : tp < closestT
    · simp only [hlt, if_true, Option.some.injEq]
      constructor
      · intro h; subst h; exact ⟨rfl, hlt⟩
      · intro h; exact h.1
    · simp only [hlt, if_false, Option.some.injEq]
      constructor
      · intro h; exact absurd h (by simp)
      · rintro ⟨h1, h2⟩; subst h1; exact absurd h2 hlt

/-- The plane branch is not taken exactly when every distance reported by
`intersectPlane` is at least `closestHit.t`. -/
theorem planeBranch_eq_none (ray : Ray F) (plane : Plane F) (closestT : F) :
    planeBranch ray plane closestT = none ↔
      (∀ t, intersectPlane ray plane = some t → closestT ≤ t) := by
  unfold planeBranch
  cases hI : intersectPlane ray plane with
  | none => simp
  | some tp =>
    by_cases hlt : tp < closestT
    · simp only [hlt, if_true, Option.some.injEq]
      constructor
      · intro h; exact absurd h (by simp)
      · intro h; exact absurd (h tp rfl) (not_le.mpr hlt)
    · simp only [hlt, if_false, Option.some.injEq, true_iff]
      intro t ht; subst ht; exact not_lt.mp hlt

/-- C11. For every ray, scene and every depth `> 2`, `trace` returns exactly
`(0.1, 0.1, 0.1)`, whatever the ray and the scene. -/
theorem trace_depth_limit (sqrt : F → F) (ray : Ray F) (spheres : List (Sphere F))
    (triangles : List (Triangle F)) (plane : Plane F) (light : Light F) (depth : Int)
    (hdepth : depth > 2) :
    trace sqrt ray spheres triangles plane light depth = ⟨0.1, 0.1, 0.1⟩ := by
  rw [trace_unfold, if_pos hdepth]

/-- C12. When `depth ≤ 2` and the plane is the winning hit at distance `t`
(`intersectPlane` reports `t` and `t` is below the closest sphere/triangle distance),
`trace` returns `0.3 * base + 0.7 * trace(r', depth + 1)`, where `base` is the plane's
byte colour divided by `255` and `r'` has origin
`(origin + t * direction) + 0.001 * plane.normal` and direction
`normalize(reflect(direction, plane.normal))`; at `depth = 2` the result is exactly
`0.3 * base + 0.7 * (0.1, 0.1, 0.1)`. -/
theorem trace_plane_branch (sqrt : F → F) (ray : Ray F) (spheres : List (Sphere F))
    (triangles : List (Triangle F)) (plane : Plane F) (light : Light F) (depth : Int)
    (t : F) (hdepth : depth ≤ 2) (hplane : intersectPlane ray plane = some t)
    (hwin : t < (closestPrimitive sqrt ray spheres triangles).1.t) :
    trace sqrt ray spheres triangles plane light depth =
        (Vec3.mk ((plane.r.val : F) / 255) ((plane.g.val : F) / 255)
            ((plane.b.val : F) / 255)).scale 0.3
          + (trace sqrt
              ⟨(ray.origin + ray.direction.scale t) + plane.normal.scale 0.001,
                (reflect ray.direction plane.normal).normalize sqrt⟩
              spheres triangles plane light (depth + 1)).scale 0.7
      ∧ (depth = 2 →
          trace sqrt ray spheres triangles plane light depth =
            (Vec3.mk ((plane.r.val : F) / 255) ((plane.g.val : F) / 255)
                ((plane.b.val : F) / 255)).scale 0.3
              + (Vec3.mk (0.1 : F) 0.1 0.1).scale 0.7) := by
  have hb : planeBranch ray plane (closestPrimitive sqrt ray spheres triangles).1.t
      = some t := (planeBranch_eq_some ray plane _ t).mpr ⟨hplane, hwin⟩
  have hmain : trace sqrt ray spheres triangles plane light depth =
        (Vec3.mk ((plane.r.val : F) / 255) ((plane.g.val : F) / 255)
            ((plane.b.val : F) / 255)).scale 0.3
          + (trace sqrt
              ⟨(ray.origin + ray.direction.scale t) + plane.normal.scale 0.001,
                (reflect ray.direction plane.normal).normalize sqrt⟩
              spheres triangles plane light (depth + 1)).scale 0.7 := by
    rw [trace_unfold, if_neg (not_lt.mpr hdepth), hb]
    rfl
  refine ⟨hmain, fun h2 => ?_⟩
  rw [hmain]
  have h3 : depth + 1 > 2 := by omega
  rw [trace_unfold sqrt _ spheres triangles plane light (depth + 1), if_pos h3]

/-- A sphere loop in which no sphere is hit leaves the scanning state unchanged. -/
theorem foldl_scanSphere_miss (sqrt : F → F) (ray : Ray F) (spheres : List (Sphere F))
    (st : HitInfo F × Bool) (h : ∀ s ∈ spheres, intersectSphere sqrt ray s = none) :
    spheres.foldl (scanSphere sqrt ray) st = st := by
  induction spheres generalizing st with
  | nil => rfl
  | cons s rest ih =>
    have hs : scanSphere sqrt ray st s = st := by
      simp only [scanSphere, h s (List.mem_cons_self _ _)]
    rw [List.foldl_cons, hs]
    exact ih st (fun s' hs' => h s' (List.mem_cons_of_mem _ hs'))

/-- A triangle loop in which no triangle is hit leaves the scanning state unchanged. -/
theorem foldl_scanTriangle_miss (sqrt : F → F) (ray : Ray F)
    (triangles : List (Triangle F)) (st : HitInfo F × Bool)
    (h : ∀ tri ∈ triangles, intersectTriangle ray tri = none) :
    triangles.foldl (scanTriangle sqrt ray) st = st := by
  induction triangles generalizing st with
  | nil => rfl
  | cons tri rest ih =>
    have hs : scanTriangle sqrt ray st tri = st := by
      simp only [scanTriangle, h tri (List.mem_cons_self _ _)]
    rw [List.foldl_cons, hs]
    exact ih st (fun t' ht' => h t' (List.mem_cons_of_mem _ ht'))

/-- C15. For every scene, ray and `depth ≤ 2` such that no sphere, no triangle and not
the plane reports a hit for the ray, `trace` returns exactly the background colour
`(0.1, 0.1, 0.1)`. -/
theorem trace_background (sqrt : F → F) (ray : Ray F) (spheres : List (Sphere F))
    (triangles : List (Triangle F)) (plane : Plane F) (light : Light F) (depth : Int)
    (hdepth : depth ≤ 2)
    (hs : ∀ s ∈ spheres, intersectSphere sqrt ray s = none)
    (ht : ∀ tri ∈ triangles, intersectTriangle ray tri = none)
    (hp : intersectPlane ray plane = none) :
    trace sqrt ray spheres triangles plane light depth = ⟨0.1, 0.1, 0.1⟩ := by
  have hcl : closestPrimitive sqrt ray spheres triangles =
      ({ t := 1e20, position := ⟨0, 0, 0⟩, normal := ⟨0, 0, 0⟩, r := 0, g := 0, b := 0 },
        false) := by
    simp only [closestPrimitive]
    rw [foldl_scanSphere_miss sqrt ray spheres _ hs,
      foldl_scanTriangle_miss sqrt ray triangles _ ht]
  have hb : planeBranch ray plane (closestPrimitive sqrt ray spheres triangles).1.t
      = none := by
    simp only [planeBranch, hp]
  rw [trace_unfold, if_neg (not_lt.mpr hdepth), hb, hcl]
  simp

end TraceSpec

/-! ### The closest-hit scan -/

section ClosestScan

variable {F : Type} [LinearOrderedField F]

/-- A scanning loop that replaces the state by a candidate hit whenever the candidate is
strictly nearer either leaves the state unchanged (every candidate is at least as far as
the initial distance) or ends in the first candidate of minimal distance. -/
theorem foldl_scan_spec {α : Type} (scan : HitInfo F × Bool → α → HitInfo F × Bool)
    (cand : α → Option (HitInfo F))
    (hscan : ∀ st a, scan st a =
      match cand a with
      | some h => if h.t < st.1.t then (h, true) else st
      | none => st)
    (xs : List α) (st : HitInfo F × Bool) :
    (xs.foldl scan st = st ∧ ∀ a ∈ xs, ∀ h, cand a = some h → st.1.t ≤ h.t)
      ∨ ((xs.foldl scan st).2 = true ∧ (xs.foldl scan st).1.t < st.1.t ∧
          (∀ a ∈ xs, ∀ h, cand a = some h → (xs.foldl scan st).1.t ≤ h.t) ∧
          ∃ pre a post, xs = pre ++ a :: post ∧ cand a = some (xs.foldl scan st).1 ∧
            ∀ b ∈ pre, ∀ h, cand b = some h → (xs.foldl scan st).1.t < h.t) := by
  induction xs generalizing st with
  | nil =>
    left
    exact ⟨rfl, fun a ha => absurd ha (List.not_mem_nil a)⟩
  | cons a rest ih =>
    rw [List.foldl_cons]
    by_cases hnear : ∃ h, cand a = some h ∧ h.t < st.1.t
    · obtain ⟨h, hc, hlt⟩ := hnear
      have hstep : scan st a = (h, true) := by
        rw [hscan, hc]
        simp only [hlt, if_true]
      rw [hstep]
      rcases ih (h, true) with ⟨heq, hall⟩ | ⟨h2, hlt2, hall, pre, b, post, hsplit, hcb, hpre⟩
      · right
        rw [heq]
        refine ⟨rfl, hlt, ?_, [], a, rest, rfl, hc, ?_⟩
        · intro a' ha' h' hc'
          rcases List.mem_cons.mp ha' with e | e
          · subst e
            rw [hc] at hc'
            rw [Option.some.inj hc']
          · exact hall a' e h' hc'
        · intro b hb
          exact absurd hb (List.not_mem_nil b)
      · right
        refine ⟨h2, lt_trans hlt2 hlt, ?_, a :: pre, b, post, ?_, hcb, ?_⟩
        · intro a' ha' h' hc'
          rcases List.mem_cons.mp ha' with e | e
          · subst e
            rw [hc] at hc'
            rw [← Option.some.inj hc']
            exact le_of_lt hlt2
          · exact hall a' e h' hc'
        · rw [hsplit]
          rfl
        · intro b' hb' h' hc'
          rcases List.mem_cons.mp hb' with e | e
          · subst e
            rw [hc] at hc'
            rw [← Option.some.inj hc']
            exact hlt2
          · exact hpre b' e h' hc'
    · have hfar : ∀ h, cand a = some h → st.1.t ≤ h.t := by
        intro h hc
        by_contra hcon
        exact hnear ⟨h, hc, not_le.mp hcon⟩
      have hstep : scan st a = st := by
        rw [hscan]
        cases hc : cand a with
        | none => rfl
        | some h =>
          have := hfar h hc
          simp only [not_lt.mpr this, if_false]
      rw [hstep]
      rcases ih st with ⟨heq, hall⟩ | ⟨h2, hlt2, hall, pre, b, post, hsplit, hcb, hpre⟩
      · left
        refine ⟨heq, ?_⟩
        intro a' ha' h' hc'
        rcases List.mem_cons.mp ha' with e | e
        · subst e
          exact hfar h' hc'
        · exact hall a' e h' hc'
      · right
        refine ⟨h2, hlt2, ?_, a :: pre, b, post, ?_, hcb, ?_⟩
        · intro a' ha' h' hc'
          rcases List.mem_cons.mp ha' with e | e
          · subst e
            exact le_of_lt (lt_of_lt_of_le hlt2 (hfar h' hc'))
          · exact hall a' e h' hc'
        · rw [hsplit]
          rfl
        · intro b' hb' h' hc'
          rcases List.mem_cons.mp hb' with e | e
          · subst e
            exact lt_of_lt_of_le hlt2 (hfar h' hc')
          · exact hpre b' e h' hc'

/-- The sphere loop body of `trace` in candidate form. -/
theorem scanSphere_eq (sqrt : F → F) (ray : Ray F) (st : HitInfo F × Bool)
    (s : Sphere F) :
    scanSphere sqrt ray st s =
      match (intersectSphere sqrt ray s).map (fun t =>
        ({ t := t, position := ray.origin + ray.direction.scale t,
           normal := ((ray.origin + ray.direction.scale t) - s.center).normalize sqrt,
           r := s.r, g := s.g, b := s.b } : HitInfo F)) with
      | some h => if h.t < st.1.t then (h, true) else st
      | none => st := by
  unfold scanSphere
  cases intersectSphere sqrt ray s with
  | none => rfl
  | some t => rfl

/-- The triangle loop body of `trace` in candidate form. -/
theorem scanTriangle_eq (sqrt : F → F) (ray : Ray F) (st : HitInfo F × Bool)
    (tri : Triangle F) :
    scanTriangle sqrt ray st tri =
      match (intersectTriangle ray tri).map (fun t =>
        ({ t := t, position := ray.origin + ray.direction.scale t,
           normal := getTriangleNormal sqrt tri,
           r := tri.r, g := tri.g, b := tri.b } : HitInfo F)) with
      | some h => if h.t < st.1.t then (h, true) else st
      | none => st := by
  unfold scanTriangle
  cases intersectTriangle ray tri with
  | none => rfl
  | some t => rfl

end ClosestScan

/-! ### What the scan of `trace` computes -/

section ClosestSpec

variable {F : Type} [LinearOrderedField F]

/-- The scan of `trace` either hits nothing below the sentinel `1e20` and keeps its
initial state, or ends in the first primitive (spheres in list order, then triangles in
list order) of minimal reported distance, with the hit record of that primitive. -/
theorem closestPrimitive_spec (sqrt : F → F) (ray : Ray F) (spheres : List (Sphere F))
    (triangles : List (Triangle F)) :
    (closestPrimitive sqrt ray spheres triangles =
        ({ t := 1e20, position := ⟨0, 0, 0⟩, normal := ⟨0, 0, 0⟩, r := 0, g := 0, b := 0 },
          false)
      ∧ (∀ s ∈ spheres, ∀ t, intersectSphere sqrt ray s = some t → (1e20 : F) ≤ t)
      ∧ (∀ tri ∈ triangles, ∀ t, intersectTriangle ray tri = some t → (1e20 : F) ≤ t))
    ∨ ((closestPrimitive sqrt ray spheres triangles).2 = true
      ∧ (closestPrimitive sqrt ray spheres triangles).1.t < 1e20
      ∧ (∀ s ∈ spheres, ∀ t, intersectSphere sqrt ray s = some t →
          (closestPrimitive sqrt ray spheres triangles).1.t ≤ t)
      ∧ (∀ tri ∈ triangles, ∀ t, intersectTriangle ray tri = some t →
          (closestPrimitive sqrt ray spheres triangles).1.t ≤ t)
      ∧ (closestPrimitive sqrt ray spheres triangles).1.position =
          ray.origin + ray.direction.scale (closestPrimitive sqrt ray spheres triangles).1.t
      ∧ ((∃ pre s post, spheres = pre ++ s :: post
            ∧ intersectSphere sqrt ray s =
                some (closestPrimitive sqrt ray spheres triangles).1.t
            ∧ (closestPrimitive sqrt ray spheres triangles).1.normal =
                ((closestPrimitive sqrt ray spheres triangles).1.position
                  - s.center).normalize sqrt
            ∧ (closestPrimitive sqrt ray spheres triangles).1.r = s.r
            ∧ (closestPrimitive sqrt ray spheres triangles).1.g = s.g
            ∧ (closestPrimitive sqrt ray spheres triangles).1.b = s.b
            ∧ ∀ s' ∈ pre, ∀ t', intersectSphere sqrt ray s' = some t' →
                (closestPrimitive sqrt ray spheres triangles).1.t < t')
        ∨ (∃ pre tri post, triangles = pre ++ tri :: post
            ∧ intersectTriangle ray tri =
                some (closestPrimitive sqrt ray spheres triangles).1.t
            ∧ (closestPrimitive sqrt ray spheres triangles).1.normal =
                getTriangleNormal sqrt tri
            ∧ (closestPrimitive sqrt ray spheres triangles).1.r = tri.r
            ∧ (closestPrimitive sqrt ray spheres triangles).1.g = tri.g
            ∧ (closestPrimitive sqrt ray spheres triangles).1.b = tri.b
            ∧ (∀ s ∈ spheres, ∀ t', intersectSphere sqrt ray s = some t' →
                (closestPrimitive sqrt ray spheres triangles).1.t < t')
            ∧ ∀ tri' ∈ pre, ∀ t', intersectTriangle ray tri' = some t' →
                (closestPrimitive sqrt ray spheres triangles).1.t < t'))) := by
  have hS := foldl_scan_spec (scanSphere sqrt ray)
    (fun s => (intersectSphere sqrt ray s).map (fun t =>
      ({ t := t, position := ray.origin + ray.direction.scale t,
         normal := ((ray.origin + ray.direction.scale t) - s.center).normalize sqrt,
         r := s.r, g := s.g, b := s.b } : HitInfo F)))
    (scanSphere_eq sqrt ray) spheres
    ({ t := 1e20, position := ⟨0, 0, 0⟩, normal := ⟨0, 0, 0⟩, r := 0, g := 0, b := 0 },
      false)
  have hT := foldl_scan_spec (scanTriangle sqrt ray)
    (fun tri => (intersectTriangle ray tri).map (fun t =>
      ({ t := t, position := ray.origin + ray.direction.scale t,
         normal := getTriangleNormal sqrt tri,
         r := tri.r, g := tri.g, b := tri.b } : HitInfo F)))
    (scanTriangle_eq sqrt ray) triangles
    (spheres.foldl (scanSphere sqrt ray)
      ({ t := 1e20, position := ⟨0, 0, 0⟩, normal := ⟨0, 0, 0⟩, r := 0, g := 0, b := 0 },
        false))
  have hcp : closestPrimitive sqrt ray spheres triangles =
      triangles.foldl (scanTriangle sqrt ray)
        (spheres.foldl (scanSphere sqrt ray)
          ({ t := 1e20, position := ⟨0, 0, 0⟩, normal := ⟨0, 0, 0⟩, r := 0, g := 0,
             b := 0 }, false)) := rfl
  rw [hcp]
  generalize spheres.foldl (scanSphere sqrt ray)
    ({ t := 1e20, position := ⟨0, 0, 0⟩, normal := ⟨0, 0, 0⟩, r := 0, g := 0, b := 0 },
      false) = st1 at hS hT ⊢
  generalize triangles.foldl (scanTriangle sqrt ray) st1 = res at hT ⊢
  -- candidate-level facts restated on the reported distances
  have liftS : ∀ (P : F → Prop),
      (∀ a ∈ spheres, ∀ h : HitInfo F,
        (intersectSphere sqrt ray a).map (fun t =>
          ({ t := t, position := ray.origin + ray.direction.scale t,
             normal := ((ray.origin + ray.direction.scale t) - a.center).normalize sqrt,
             r := a.r, g := a.g, b := a.b } : HitInfo F)) = some h → P h.t) →
      ∀ s ∈ spheres, ∀ t, intersectSphere sqrt ray s = some t → P t := by
    intro P hall s hs t hI
    exact hall s hs _ (by rw [hI]; rfl)
  have liftT : ∀ (P : F → Prop),
      (∀ a ∈ triangles, ∀ h : HitInfo F,
        (intersectTriangle ray a).map (fun t =>
          ({ t := t, position := ray.origin + ray.direction.scale t,
             normal := getTriangleNormal sqrt a,
             r := a.r, g := a.g, b := a.b } : HitInfo F)) = some h → P h.t) →
      ∀ tri ∈ triangles, ∀ t, intersectTriangle ray tri = some t → P t := by
    intro P hall tri htri t hI
    exact hall tri htri _ (by rw [hI]; rfl)
  rcases hS with ⟨hSeq, hSall⟩ | ⟨hS2, hSlt, hSall, preS, s, postS, hSsplit, hScand, hSpre⟩
  · -- no sphere below the sentinel
    subst hSeq
    rcases hT with ⟨hTeq, hTall⟩ |
      ⟨hT2, hTlt, hTall, preT, tri, postT, hTsplit, hTcand, hTpre⟩
    · left
      exact ⟨hTeq, liftS (fun t => (1e20 : F) ≤ t) hSall,
        liftT (fun t => (1e20 : F) ≤ t) hTall⟩
    · right
      obtain ⟨t, hI, hmk⟩ := Option.map_eq_some'.mp hTcand
      have ht : res.1.t = t := by rw [← hmk]
      have hSfar := liftS (fun t => (1e20 : F) ≤ t) hSall
      refine ⟨hT2, hTlt, ?_, liftT (fun t => res.1.t ≤ t) hTall, ?_, Or.inr ?_⟩
      · intro s' hs' t' hI'
        exact le_of_lt (lt_of_lt_of_le hTlt (hSfar s' hs' t' hI'))
      · rw [ht, ← hmk]
      · refine ⟨preT, tri, postT, hTsplit, ?_, ?_, ?_, ?_, ?_, ?_, ?_⟩
        · rw [ht]; exact hI
        · rw [← hmk]
        · rw [← hmk]
        · rw [← hmk]
        · rw [← hmk]
        · intro s' hs' t' hI'
          exact lt_of_lt_of_le hTlt (hSfar s' hs' t' hI')
        · intro tri' htri' t' hI'
          exact hTpre tri' htri' _ (by rw [hI']; rfl)
  · -- some sphere below the sentinel
    obtain ⟨tS, hIS, hmkS⟩ := Option.map_eq_some'.mp hScand
    have htS : st1.1.t = tS := by rw [← hmkS]
    have hSnear := liftS (fun t => st1.1.t ≤ t) hSall
    rcases hT with ⟨hTeq, hTall⟩ |
      ⟨hT2, hTlt, hTall, preT, tri, postT, hTsplit, hTcand, hTpre⟩
    · right
      rw [hTeq]
      refine ⟨hS2, hSlt, hSnear, liftT (fun t => st1.1.t ≤ t) hTall, ?_, Or.inl ?_⟩
      · rw [htS, ← hmkS]
      · refine ⟨preS, s, postS, hSsplit, ?_, ?_, ?_, ?_, ?_, ?_⟩
        · rw [htS]; exact hIS
        · rw [← hmkS]
        · rw [← hmkS]
        · rw [← hmkS]
        · rw [← hmkS]
        · intro s' hs' t' hI'
          exact hSpre s' hs' _ (by rw [hI']; rfl)
    · right
      obtain ⟨t, hI, hmk⟩ := Option.map_eq_some'.mp hTcand
      have ht : res.1.t = t := by rw [← hmk]
      refine ⟨hT2, lt_trans hTlt hSlt, ?_, liftT (fun t => res.1.t ≤ t) hTall, ?_,
        Or.inr ?_⟩
      · intro s' hs' t' hI'
        exact le_of_lt (lt_of_lt_of_le hTlt (hSnear s' hs' t' hI'))
      · rw [ht, ← hmk]
      · refine ⟨preT, tri, postT, hTsplit, ?_, ?_, ?_, ?_, ?_, ?_, ?_⟩
        · rw [ht]; exact hI
        · rw [← hmk]
        · rw [← hmk]
        · rw [← hmk]
        · rw [← hmk]
        · intro s' hs' t' hI'
          exact lt_of_lt_of_le hTlt (hSnear s' hs' t' hI')
        · intro tri' htri' t' hI'
          exact hTpre tri' htri' _ (by rw [hI']; rfl)

end ClosestSpec

/-! ### Nearest primitive and plane priority -/

section TraceNearest

variable {F : Type} [LinearOrderedField F]

/-- C13. For `depth ≤ 2`, when at least one sphere or triangle reports a hit below the
`1e20` sentinel and the plane does not win, `trace` returns
`shade(hit, ray, light, spheres, triangles)` for the hit record `hit` left by the scan:
`hit.t` is the minimum of the distances reported by `intersectSphere` over all spheres
and `intersectTriangle` over all triangles, `hit.position = origin + hit.t * direction`,
and `hit.normal` and the colour are those of the primitive attaining that minimum, the
first one in scan order (spheres in list order, then triangles in list order). -/
theorem trace_shades_nearest (sqrt : F → F) (ray : Ray F) (spheres : List (Sphere F))
    (triangles : List (Triangle F)) (plane : Plane F) (light : Light F) (depth : Int)
    (hdepth : depth ≤ 2)
    (hhit : (∃ s ∈ spheres, ∃ t, intersectSphere sqrt ray s = some t ∧ t < 1e20)
      ∨ (∃ tri ∈ triangles, ∃ t, intersectTriangle ray tri = some t ∧ t < 1e20))
    (hplane : ∀ t, intersectPlane ray plane = some t →
      (closestPrimitive sqrt ray spheres triangles).1.t ≤ t) :
    trace sqrt ray spheres triangles plane light depth =
        shade sqrt (closestPrimitive sqrt ray spheres triangles).1 ray light spheres
          triangles
      ∧ (∀ s ∈ spheres, ∀ t, intersectSphere sqrt ray s = some t →
          (closestPrimitive sqrt ray spheres triangles).1.t ≤ t)
      ∧ (∀ tri ∈ triangles, ∀ t, intersectTriangle ray tri = some t →
          (closestPrimitive sqrt ray spheres triangles).1.t ≤ t)
      ∧ (closestPrimitive sqrt ray spheres triangles).1.position =
          ray.origin + ray.direction.scale (closestPrimitive sqrt ray spheres triangles).1.t
      ∧ ((∃ pre s post, spheres = pre ++ s :: post
            ∧ intersectSphere sqrt ray s =
                some (closestPrimitive sqrt ray spheres triangles).1.t
            ∧ (closestPrimitive sqrt ray spheres triangles).1.normal =
                ((closestPrimitive sqrt ray spheres triangles).1.position
                  - s.center).normalize sqrt
            ∧ (closestPrimitive sqrt ray spheres triangles).1.r = s.r
            ∧ (closestPrimitive sqrt ray spheres triangles).1.g = s.g
            ∧ (closestPrimitive sqrt ray spheres triangles).1.b = s.b
            ∧ ∀ s' ∈ pre, ∀ t', intersectSphere sqrt ray s' = some t' →
                (closestPrimitive sqrt ray spheres triangles).1.t < t')
        ∨ (∃ pre tri post, triangles = pre ++ tri :: post
            ∧ intersectTriangle ray tri =
                some (closestPrimitive sqrt ray spheres triangles).1.t
            ∧ (closestPrimitive sqrt ray spheres triangles).1.normal =
                getTriangleNormal sqrt tri
            ∧ (closestPrimitive sqrt ray spheres triangles).1.r = tri.r
            ∧ (closestPrimitive sqrt ray spheres triangles).1.g = tri.g
            ∧ (closestPrimitive sqrt ray spheres triangles).1.b = tri.b
            ∧ (∀ s ∈ spheres, ∀ t', intersectSphere sqrt ray s = some t' →
                (closestPrimitive sqrt ray spheres triangles).1.t < t')
            ∧ ∀ tri' ∈ pre, ∀ t', intersectTriangle ray tri' = some t' →
                (closestPrimitive sqrt ray spheres triangles).1.t < t')) := by
  rcases closestPrimitive_spec sqrt ray spheres triangles with
    ⟨_, hSfar, hTfar⟩ | ⟨h2, _, hS, hT, hpos, hatt⟩
  · rcases hhit with ⟨s, hs, t, hI, hlt⟩ | ⟨tri, htri, t, hI, hlt⟩
    · exact absurd (hSfar s hs t hI) (not_le.mpr hlt)
    · exact absurd (hTfar tri htri t hI) (not_le.mpr hlt)
  · refine ⟨?_, hS, hT, hpos, hatt⟩
    have hb : planeBranch ray plane (closestPrimitive sqrt ray spheres triangles).1.t
        = none := (planeBranch_eq_none ray plane _).mpr hplane
    rw [trace_unfold, if_neg (not_lt.mpr hdepth), hb]
    simp only [h2, if_true]

/-- C14 (amended). The plane branch of `trace` is taken if and only if `intersectPlane`
reports a hit whose distance is strictly below the `1e20` sentinel and strictly below
every distance reported by a sphere or a triangle; for `depth ≤ 2` the result is then
the reflection blend.  When some sphere or triangle reports a distance below the
sentinel that is at most the plane's, the plane branch is not taken and, for
`depth ≤ 2`, the nearest primitive is shaded instead. -/
theorem trace_plane_priority (sqrt : F → F) (ray : Ray F) (spheres : List (Sphere F))
    (triangles : List (Triangle F)) (plane : Plane F) (light : Light F) (depth : Int) :
    ((planeBranch ray plane (closestPrimitive sqrt ray spheres triangles).1.t).isSome ↔
        ∃ tp, intersectPlane ray plane = some tp ∧ tp < 1e20
          ∧ (∀ s ∈ spheres, ∀ t, intersectSphere sqrt ray s = some t → tp < t)
          ∧ (∀ tri ∈ triangles, ∀ t, intersectTriangle ray tri = some t → tp < t))
      ∧ (depth ≤ 2 → ∀ tp,
          planeBranch ray plane (closestPrimitive sqrt ray spheres triangles).1.t
            = some tp →
          trace sqrt ray spheres triangles plane light depth =
            (Vec3.mk ((plane.r.val : F) / 255) ((plane.g.val : F) / 255)
                ((plane.b.val : F) / 255)).scale 0.3
              + (trace sqrt (reflectRay sqrt ray plane tp) spheres triangles plane light
                  (depth + 1)).scale 0.7)
      ∧ (∀ tp, intersectPlane ray plane = some tp →
          ((∃ s ∈ spheres, ∃ t, intersectSphere sqrt ray s = some t ∧ t < 1e20 ∧ t ≤ tp)
            ∨ (∃ tri ∈ triangles, ∃ t,
                intersectTriangle ray tri = some t ∧ t < 1e20 ∧ t ≤ tp)) →
          planeBranch ray plane (closestPrimitive sqrt ray spheres triangles).1.t = none
            ∧ (depth ≤ 2 →
              trace sqrt ray spheres triangles plane light depth =
                shade sqrt (closestPrimitive sqrt ray spheres triangles).1 ray light
                  spheres triangles)) := by
  have hspec := closestPrimitive_spec sqrt ray spheres triangles
  refine ⟨⟨fun hsome => ?_, fun hex => ?_⟩, fun hdepth tp hb => ?_, fun tp hI hnear => ?_⟩
  · obtain ⟨tp, htp⟩ := Option.isSome_iff_exists.mp hsome
    obtain ⟨hI, hlt⟩ := (planeBranch_eq_some ray plane _ tp).mp htp
    rcases hspec with ⟨heq, hSfar, hTfar⟩ | ⟨_, hlt20, hS, hT, _, _⟩
    · rw [heq] at hlt
      exact ⟨tp, hI, hlt, fun s hs t ht => lt_of_lt_of_le hlt (hSfar s hs t ht),
        fun tri htri t ht => lt_of_lt_of_le hlt (hTfar tri htri t ht)⟩
    · exact ⟨tp, hI, lt_trans hlt hlt20, fun s hs t ht => lt_of_lt_of_le hlt (hS s hs t ht),
        fun tri htri t ht => lt_of_lt_of_le hlt (hT tri htri t ht)⟩
  · obtain ⟨tp, hI, hlt20, hS, hT⟩ := hex
    have hlt : tp < (closestPrimitive sqrt ray spheres triangles).1.t := by
      rcases hspec with ⟨heq, _, _⟩ | ⟨_, _, _, _, _, hatt⟩
      · rw [heq]
        exact hlt20
      · rcases hatt with ⟨pre, s, post, hsplit, hIs, _⟩ | ⟨pre, tri, post, hsplit, hIt, _⟩
        · exact hS s (by rw [hsplit]; simp) _ hIs
        · exact hT tri (by rw [hsplit]; simp) _ hIt
    rw [(planeBranch_eq_some ray plane _ tp).mpr ⟨hI, hlt⟩]
    rfl
  · rw [trace_unfold, if_neg (not_lt.mpr hdepth), hb]
  · have hle : (closestPrimitive sqrt ray spheres triangles).1.t ≤ tp
        ∧ (closestPrimitive sqrt ray spheres triangles).2 = true := by
      rcases hspec with ⟨_, hSfar, hTfar⟩ | ⟨h2, _, hS, hT, _, _⟩
      · rcases hnear with ⟨s, hs, t, ht, hlt, _⟩ | ⟨tri, htri, t, ht, hlt, _⟩
        · exact absurd (hSfar s hs t ht) (not_le.mpr hlt)
        · exact absurd (hTfar tri htri t ht) (not_le.mpr hlt)
      · rcases hnear with ⟨s, hs, t, ht, _, hle⟩ | ⟨tri, htri, t, ht, _, hle⟩
        · exact ⟨le_trans (hS s hs t ht) hle, h2⟩
        · exact ⟨le_trans (hT tri htri t ht) hle, h2⟩
    have hb : planeBranch ray plane (closestPrimitive sqrt ray spheres triangles).1.t
        = none := by
      rw [planeBranch_eq_none]
      intro t ht
      rw [hI] at ht
      rw [← Option.some.inj ht]
      exact hle.1
    refine ⟨hb, fun hdepth => ?_⟩
    rw [trace_unfold, if_neg (not_lt.mpr hdepth), hb]
    simp only [hle.2, if_true]

end TraceNearest

/-! ### Concrete traces in the scene of the program -/

section TraceInstances

/-- The two spheres of the program (at rest) are missed by every ray that starts at
`(0, 1, 0)` and runs along the `y` axis, up or down. -/
theorem program_spheres_missed (dy : ℝ) (hdy : dy * dy = 1) :
    ∀ s ∈ [(⟨⟨-0.5, 0, 0⟩, 0.4, 0, 0, 255⟩ : Sphere ℝ), ⟨⟨0.5, 0, 0⟩, 0.3, 0, 255, 0⟩],
      intersectSphere Real.sqrt ⟨⟨0, 1, 0⟩, ⟨0, dy, 0⟩⟩ s = none := by
  intro s hs
  simp only [List.mem_cons, List.mem_singleton, List.not_mem_nil, or_false] at hs
  rcases hs with h | h
  · subst h
    rw [intersectSphere_unfold]
    simp only [Vec3.dot, Vec3.sub_def]
    have hneg : 2 * (0 * (0 - -0.5) + dy * (1 - 0) + 0 * (0 - 0)) *
        (2 * (0 * (0 - -0.5) + dy * (1 - 0) + 0 * (0 - 0))) -
        4 * ((0 - -0.5) * (0 - -0.5) + (1 - 0) * (1 - 0) + (0 - 0) * (0 - 0)
          - 0.4 * 0.4) < (0 : ℝ) := by
      have e : 2 * (0 * (0 - -0.5) + dy * (1 - 0) + 0 * (0 - 0)) *
          (2 * (0 * (0 - -0.5) + dy * (1 - 0) + 0 * (0 - 0))) -
          4 * ((0 - -0.5) * (0 - -0.5) + (1 - 0) * (1 - 0) + (0 - 0) * (0 - 0)
            - 0.4 * 0.4) = 4 * (dy * dy) - 4.36 := by ring
      rw [e, hdy]
      norm_num
    rw [if_pos hneg]
  · subst h
    rw [intersectSphere_unfold]
    simp only [Vec3.dot, Vec3.sub_def]
    have hneg : 2 * (0 * (0 - 0.5) + dy * (1 - 0) + 0 * (0 - 0)) *
        (2 * (0 * (0 - 0.5) + dy * (1 - 0) + 0 * (0 - 0))) -
        4 * ((0 - 0.5) * (0 - 0.5) + (1 - 0) * (1 - 0) + (0 - 0) * (0 - 0)
          - 0.3 * 0.3) < (0 : ℝ) := by
      have e : 2 * (0 * (0 - 0.5) + dy * (1 - 0) + 0 * (0 - 0)) *
          (2 * (0 * (0 - 0.5) + dy * (1 - 0) + 0 * (0 - 0))) -
          4 * ((0 - 0.5) * (0 - 0.5) + (1 - 0) * (1 - 0) + (0 - 0) * (0 - 0)
            - 0.3 * 0.3) = 4 * (dy * dy) - 4.64 := by ring
      rw [e, hdy]
      norm_num
    rw [if_pos hneg]

/-- With the program's spheres and no triangle, the scan along the `y` axis from
`(0, 1, 0)` ends at the sentinel distance. -/
theorem program_scan_y_axis (dy : ℝ) (hdy : dy * dy = 1) :
    (closestPrimitive Real.sqrt ⟨⟨0, 1, 0⟩, ⟨0, dy, 0⟩⟩
      [(⟨⟨-0.5, 0, 0⟩, 0.4, 0, 0, 255⟩ : Sphere ℝ), ⟨⟨0.5, 0, 0⟩, 0.3, 0, 255, 0⟩]
      []).1.t = 1e20 := by
  simp only [closestPrimitive]
  rw [foldl_scanSphere_miss Real.sqrt _ _ _ (program_spheres_missed dy hdy)]
  rfl

/-- The floor of the program is hit from `(0, 1, 0)` straight down at `t = 1.6`. -/
theorem program_floor_hit :
    intersectPlane (⟨⟨0, 1, 0⟩, ⟨0, -1, 0⟩⟩ : Ray ℝ) ⟨⟨0, -0.6, 0⟩, ⟨0, 1, 0⟩, 200, 200, 200⟩
      = some 1.6 := by
  norm_num [intersectPlane, Vec3.dot]

/-- The floor of the program is not hit from `(0, 1, 0)` straight up. -/
theorem program_floor_missed :
    intersectPlane (⟨⟨0, 1, 0⟩, ⟨0, 1, 0⟩⟩ : Ray ℝ) ⟨⟨0, -0.6, 0⟩, ⟨0, 1, 0⟩, 200, 200, 200⟩
      = none := by
  norm_num [intersectPlane, Vec3.dot]

/-- A face of the program's tetrahedron is missed from `(0, 1, 0)` straight up. -/
theorem program_face_missed :
    ∀ tri ∈ [(⟨⟨1.5, 0.5, 0⟩, ⟨1.0, -0.5, 0.5⟩, ⟨2.0, -0.5, 0.5⟩, 255, 0, 255⟩ :
        Triangle ℝ)],
      intersectTriangle ⟨⟨0, 1, 0⟩, ⟨0, 1, 0⟩⟩ tri = none := by
  intro tri htri
  rw [List.mem_singleton] at htri
  subst htri
  norm_num [intersectTriangle, Vec3.dot, Vec3.cross]

/-- C11, instance: the program's scene traced at depth `3`. -/
theorem trace_depth_limit_witness :
    (3 : Int) > 2
      ∧ trace Real.sqrt ⟨⟨0, 1, 0⟩, ⟨0, -1, 0⟩⟩
          [(⟨⟨-0.5, 0, 0⟩, 0.4, 0, 0, 255⟩ : Sphere ℝ), ⟨⟨0.5, 0, 0⟩, 0.3, 0, 255, 0⟩] []
          ⟨⟨0, -0.6, 0⟩, ⟨0, 1, 0⟩, 200, 200, 200⟩ ⟨⟨2, 5, 5⟩, ⟨1, 1, 1⟩⟩ 3
        = ⟨0.1, 0.1, 0.1⟩ :=
  ⟨by decide, trace_depth_limit Real.sqrt _ _ _ _ _ 3 (by decide)⟩

/-- C12, instance: the floor of the program seen from `(0, 1, 0)` straight down at
depth `2`; the plane wins at `t = 1.6` and the colour is
`0.3 * (200/255) + 0.7 * 0.1` in every channel. -/
theorem trace_plane_branch_witness :
    ((2 : Int) ≤ 2
      ∧ intersectPlane (⟨⟨0, 1, 0⟩, ⟨0, -1, 0⟩⟩ : Ray ℝ)
          ⟨⟨0, -0.6, 0⟩, ⟨0, 1, 0⟩, 200, 200, 200⟩ = some 1.6
      ∧ (1.6 : ℝ) < (closestPrimitive Real.sqrt ⟨⟨0, 1, 0⟩, ⟨0, -1, 0⟩⟩
          [(⟨⟨-0.5, 0, 0⟩, 0.4, 0, 0, 255⟩ : Sphere ℝ), ⟨⟨0.5, 0, 0⟩, 0.3, 0, 255, 0⟩]
          []).1.t)
      ∧ trace Real.sqrt ⟨⟨0, 1, 0⟩, ⟨0, -1, 0⟩⟩
          [(⟨⟨-0.5, 0, 0⟩, 0.4, 0, 0, 255⟩ : Sphere ℝ), ⟨⟨0.5, 0, 0⟩, 0.3, 0, 255, 0⟩] []
          ⟨⟨0, -0.6, 0⟩, ⟨0, 1, 0⟩, 200, 200, 200⟩ ⟨⟨2, 5, 5⟩, ⟨1, 1, 1⟩⟩ 2
        = (Vec3.mk ((((200 : Fin 256).val : ℕ) : ℝ) / 255)
              ((((200 : Fin 256).val : ℕ) : ℝ) / 255)
              ((((200 : Fin 256).val : ℕ) : ℝ) / 255)).scale 0.3
            + (Vec3.mk (0.1 : ℝ) 0.1 0.1).scale 0.7 :=
  have hwin : (1.6 : ℝ) < (closestPrimitive Real.sqrt ⟨⟨0, 1, 0⟩, ⟨0, -1, 0⟩⟩
      [(⟨⟨-0.5, 0, 0⟩, 0.4, 0, 0, 255⟩ : Sphere ℝ), ⟨⟨0.5, 0, 0⟩, 0.3, 0, 255, 0⟩]
      []).1.t := by
    rw [program_scan_y_axis (-1) (by norm_num)]
    norm_num
  ⟨⟨le_refl 2, program_floor_hit, hwin⟩,
    (trace_plane_branch Real.sqrt _ _ _ _ ⟨⟨2, 5, 5⟩, ⟨1, 1, 1⟩⟩ 2 1.6 (le_refl 2)
      program_floor_hit hwin).2 rfl⟩

/-- C15, instance: from `(0, 1, 0)` straight up nothing of the program's scene is hit, and
the colour at depth `0` is the background. -/
theorem trace_background_witness :
    ((0 : Int) ≤ 2
      ∧ (∀ s ∈ [(⟨⟨-0.5, 0, 0⟩, 0.4, 0, 0, 255⟩ : Sphere ℝ),
            ⟨⟨0.5, 0, 0⟩, 0.3, 0, 255, 0⟩],
          intersectSphere Real.sqrt ⟨⟨0, 1, 0⟩, ⟨0, 1, 0⟩⟩ s = none)
      ∧ (∀ tri ∈ [(⟨⟨1.5, 0.5, 0⟩, ⟨1.0, -0.5, 0.5⟩, ⟨2.0, -0.5, 0.5⟩, 255, 0, 255⟩ :
            Triangle ℝ)],
          intersectTriangle ⟨⟨0, 1, 0⟩, ⟨0, 1, 0⟩⟩ tri = none)
      ∧ intersectPlane (⟨⟨0, 1, 0⟩, ⟨0, 1, 0⟩⟩ : Ray ℝ)
          ⟨⟨0, -0.6, 0⟩, ⟨0, 1, 0⟩, 200, 200, 200⟩ = none)
      ∧ trace Real.sqrt ⟨⟨0, 1, 0⟩, ⟨0, 1, 0⟩⟩
          [(⟨⟨-0.5, 0, 0⟩, 0.4, 0, 0, 255⟩ : Sphere ℝ), ⟨⟨0.5, 0, 0⟩, 0.3, 0, 255, 0⟩]
          [(⟨⟨1.5, 0.5, 0⟩, ⟨1.0, -0.5, 0.5⟩, ⟨2.0, -0.5, 0.5⟩, 255, 0, 255⟩ : Triangle ℝ)]
          ⟨⟨0, -0.6, 0⟩, ⟨0, 1, 0⟩, 200, 200, 200⟩ ⟨⟨2, 5, 5⟩, ⟨1, 1, 1⟩⟩ 0
        = ⟨0.1, 0.1, 0.1⟩ :=
  ⟨⟨by decide, program_spheres_missed 1 (by norm_num), program_face_missed,
      program_floor_missed⟩,
    trace_background Real.sqrt _ _ _ _ ⟨⟨2, 5, 5⟩, ⟨1, 1, 1⟩⟩ 0 (by decide)
      (program_spheres_missed 1 (by norm_num)) program_face_missed program_floor_missed⟩

/-- C14 (as stated) fails beyond the sentinel: from `(1/4, 1/4, 3e20)` straight down the
plane `z = 1e20` is hit at `2e20`, strictly nearer than the only primitive hit (the
triangle, at `3e20`), yet the plane branch is not taken (`2e20 < 1e20` is false) and
`trace` returns the background. -/
theorem trace_plane_beyond_sentinel :
    intersectPlane (⟨⟨1/4, 1/4, 3e20⟩, ⟨0, 0, -1⟩⟩ : Ray ℝ)
        ⟨⟨0, 0, 1e20⟩, ⟨0, 0, 1⟩, 200, 200, 200⟩ = some 2e20
      ∧ intersectTriangle (⟨⟨1/4, 1/4, 3e20⟩, ⟨0, 0, -1⟩⟩ : Ray ℝ)
        ⟨⟨0, 0, 0⟩, ⟨1, 0, 0⟩, ⟨0, 1, 0⟩, 255, 0, 255⟩ = some 3e20
      ∧ (2e20 : ℝ) < 3e20
      ∧ planeBranch (⟨⟨1/4, 1/4, 3e20⟩, ⟨0, 0, -1⟩⟩ : Ray ℝ)
          ⟨⟨0, 0, 1e20⟩, ⟨0, 0, 1⟩, 200, 200, 200⟩
          (closestPrimitive Real.sqrt ⟨⟨1/4, 1/4, 3e20⟩, ⟨0, 0, -1⟩⟩ []
            [(⟨⟨0, 0, 0⟩, ⟨1, 0, 0⟩, ⟨0, 1, 0⟩, 255, 0, 255⟩ : Triangle ℝ)]).1.t = none
      ∧ trace Real.sqrt ⟨⟨1/4, 1/4, 3e20⟩, ⟨0, 0, -1⟩⟩ []
          [(⟨⟨0, 0, 0⟩, ⟨1, 0, 0⟩, ⟨0, 1, 0⟩, 255, 0, 255⟩ : Triangle ℝ)]
          ⟨⟨0, 0, 1e20⟩, ⟨0, 0, 1⟩, 200, 200, 200⟩ ⟨⟨2, 5, 5⟩, ⟨1, 1, 1⟩⟩ 0
        = ⟨0.1, 0.1, 0.1⟩ := by
  have hP : intersectPlane (⟨⟨1/4, 1/4, 3e20⟩, ⟨0, 0, -1⟩⟩ : Ray ℝ)
      ⟨⟨0, 0, 1e20⟩, ⟨0, 0, 1⟩, 200, 200, 200⟩ = some 2e20 := by
    norm_num [intersectPlane, Vec3.dot]
  have hT : intersectTriangle (⟨⟨1/4, 1/4, 3e20⟩, ⟨0, 0, -1⟩⟩ : Ray ℝ)
      ⟨⟨0, 0, 0⟩, ⟨1, 0, 0⟩, ⟨0, 1, 0⟩, 255, 0, 255⟩ = some 3e20 := by
    norm_num [intersectTriangle, Vec3.dot, Vec3.cross]
  have hcl : closestPrimitive Real.sqrt ⟨⟨1/4, 1/4, 3e20⟩, ⟨0, 0, -1⟩⟩ []
      [(⟨⟨0, 0, 0⟩, ⟨1, 0, 0⟩, ⟨0, 1, 0⟩, 255, 0, 255⟩ : Triangle ℝ)] =
      ({ t := 1e20, position := ⟨0, 0, 0⟩, normal := ⟨0, 0, 0⟩, r := 0, g := 0, b := 0 },
        false) := by
    simp only [closestPrimitive, List.foldl, scanTriangle, hT]
    norm_num
  have hb : planeBranch (⟨⟨1/4, 1/4, 3e20⟩, ⟨0, 0, -1⟩⟩ : Ray ℝ)
      ⟨⟨0, 0, 1e20⟩, ⟨0, 0, 1⟩, 200, 200, 200⟩
      (closestPrimitive Real.sqrt ⟨⟨1/4, 1/4, 3e20⟩, ⟨0, 0, -1⟩⟩ []
        [(⟨⟨0, 0, 0⟩, ⟨1, 0, 0⟩, ⟨0, 1, 0⟩, 255, 0, 255⟩ : Triangle ℝ)]).1.t = none := by
    rw [hcl]
    simp only [planeBranch, hP]
    norm_num
  refine ⟨hP, hT, by norm_num, hb, ?_⟩
  rw [trace_unfold, hb, hcl]
  simp

end TraceInstances

/-! ### The red-sphere scene -/

section RedSphereScene

/-- A ray that starts on or outside a sphere and does not point towards its centre side
(`direction · oc ≥ 0` and `oc · oc ≥ radius²`) reports no hit. -/
theorem intersectSphere_none_of_outward (ray : Ray ℝ) (sph : Sphere ℝ)
    (hb : 0 ≤ ray.direction.dot (ray.origin - sph.center))
    (hc : 0 ≤ (ray.origin - sph.center).dot (ray.origin - sph.center)
      - sph.radius * sph.radius) :
    intersectSphere Real.sqrt ray sph = none := by
  rw [intersectSphere_unfold]
  generalize ray.direction.dot (ray.origin - sph.center) = b at hb
  generalize (ray.origin - sph.center).dot (ray.origin - sph.center)
    - sph.radius * sph.radius = c at hc
  by_cases hd : 2 * b * (2 * b) - 4 * c < 0
  · rw [if_pos hd]
  · rw [if_neg hd]
    have hsq0 : 0 ≤ Real.sqrt (2 * b * (2 * b) - 4 * c) := Real.sqrt_nonneg _
    have hsq : Real.sqrt (2 * b * (2 * b) - 4 * c) ≤ 2 * b := by
      have h1 : 2 * b * (2 * b) - 4 * c ≤ (2 * b) ^ 2 := by nlinarith
      calc Real.sqrt (2 * b * (2 * b) - 4 * c) ≤ Real.sqrt ((2 * b) ^ 2) :=
            Real.sqrt_le_sqrt h1
        _ = 2 * b := Real.sqrt_sq (by linarith)
    have h0 : ¬ ((-(2 * b) - Real.sqrt (2 * b * (2 * b) - 4 * c)) / 2 > 0.001) := by
      rw [gt_iff_lt, not_lt]
      have : (-(2 * b) - Real.sqrt (2 * b * (2 * b) - 4 * c)) / 2 ≤ 0 := by linarith
      exact le_trans this (by norm_num)
    have h1 : ¬ ((-(2 * b) + Real.sqrt (2 * b * (2 * b) - 4 * c)) / 2 > 0.001) := by
      rw [gt_iff_lt, not_lt]
      have : (-(2 * b) + Real.sqrt (2 * b * (2 * b) - 4 * c)) / 2 ≤ 0 := by linarith
      exact le_trans this (by norm_num)
    rw [if_neg h0, if_neg h1]

/-- The scan of the red unit sphere from `(0,0,5)` towards the origin ends at the front
face: `t = 4`, point `(0,0,1)`, normal `(0,0,1)`. -/
theorem red_sphere_scan :
    closestPrimitive Real.sqrt ⟨⟨0, 0, 5⟩, ⟨0, 0, -1⟩⟩
        [(⟨⟨0, 0, 0⟩, 1, 255, 0, 0⟩ : Sphere ℝ)] []
      = ({ t := 4, position := ⟨0, 0, 1⟩, normal := ⟨0, 0, 1⟩, r := 255, g := 0, b := 0 },
          true) := by
  have hI : intersectSphere Real.sqrt ⟨⟨0, 0, 5⟩, ⟨0, 0, -1⟩⟩ ⟨⟨0, 0, 0⟩, 1, 255, 0, 0⟩
      = some 4 := by
    rw [intersectSphere_axis 1 one_pos]
    norm_num
  simp only [closestPrimitive, List.foldl, scanSphere, hI]
  norm_num [Vec3.normalize, Vec3.length, Vec3.scale]

end RedSphereScene

/-! ### Shading the front face of the red sphere -/

section RedSphereShade

/-- The square root of `66` is positive. -/
theorem sqrt66_pos : 0 < Real.sqrt 66 := Real.sqrt_pos.mpr (by norm_num)

/-- The cosine `4/√66` between the normal `(0,0,1)` and the light direction: it lies in
`[0, 1/2]` and its square is `8/33`. -/
theorem cos_red_sphere :
    0 ≤ 4 / Real.sqrt 66 ∧ 4 / Real.sqrt 66 ≤ 1 / 2 ∧ (4 / Real.sqrt 66) ^ 2 = 8 / 33 := by
  have hpos := sqrt66_pos
  have hsq : Real.sqrt 66 ^ 2 = 66 := Real.sq_sqrt (by norm_num)
  have h8 : (8 : ℝ) ≤ Real.sqrt 66 := Real.le_sqrt_of_sq_le (by norm_num)
  refine ⟨le_of_lt (div_pos (by norm_num) hpos), ?_, ?_⟩
  · rw [div_le_iff₀ hpos]
    linarith
  · rw [div_pow, hsq]
    norm_num

/-- The unit direction from the front point `(0,0,1)` to the light at `(5,5,5)`. -/
theorem red_sphere_light_dir :
    ((⟨5, 5, 5⟩ : Vec3 ℝ) - ⟨0, 0, 1⟩).normalize Real.sqrt
      = ⟨5 / Real.sqrt 66, 5 / Real.sqrt 66, 4 / Real.sqrt 66⟩ := by
  simp only [Vec3.normalize, Vec3.length, Vec3.scale, Vec3.sub_def, Vec3.mk.injEq]
  norm_num
  constructor <;> ring

/-- The unit direction from the front point `(0,0,1)` to the eye at `(0,0,5)`. -/
theorem red_sphere_view_dir :
    ((⟨0, 0, 5⟩ : Vec3 ℝ) - ⟨0, 0, 1⟩).normalize Real.sqrt = ⟨0, 0, 1⟩ := by
  have h4 : Real.sqrt 16 = 4 := by
    rw [show (16 : ℝ) = 4 * 4 by norm_num]
    exact Real.sqrt_mul_self (by norm_num)
  simp only [Vec3.normalize, Vec3.length, Vec3.scale, Vec3.sub_def, Vec3.mk.injEq]
  norm_num [h4]

/-- The reflected light direction at the front point, normalised as in `shade`. -/
theorem red_sphere_reflect_dir :
    ((⟨0, 0, 1⟩ : Vec3 ℝ).scale
        (2 * (⟨0, 0, 1⟩ : Vec3 ℝ).dot
          ⟨5 / Real.sqrt 66, 5 / Real.sqrt 66, 4 / Real.sqrt 66⟩)
      - ⟨5 / Real.sqrt 66, 5 / Real.sqrt 66, 4 / Real.sqrt 66⟩).normalize Real.sqrt
      = ⟨-(5 / Real.sqrt 66), -(5 / Real.sqrt 66), 4 / Real.sqrt 66⟩ := by
  have hN : (⟨0, 0, 1⟩ : Vec3 ℝ).length Real.sqrt = 1 := by simp [Vec3.length]
  have hL : (⟨5 / Real.sqrt 66, 5 / Real.sqrt 66, 4 / Real.sqrt 66⟩ : Vec3 ℝ).length
      Real.sqrt = 1 := by
    rw [← red_sphere_light_dir]
    apply normalize_length
    simp only [Vec3.dot, Vec3.sub_def]
    norm_num
  rw [reflect_dir_unit _ _ hN hL]
  simp only [Vec3.scale, Vec3.dot, Vec3.sub_def, Vec3.mk.injEq]
  refine ⟨by ring, by ring, by ring⟩

/-- The shadow ray from the front point of the red sphere misses the sphere. -/
theorem red_sphere_not_in_shadow :
    inShadow Real.sqrt
        { t := 4, position := ⟨0, 0, 1⟩, normal := ⟨0, 0, 1⟩, r := 255, g := 0, b := 0 }
        (⟨⟨5, 5, 5⟩, ⟨1, 1, 1⟩⟩ : Light ℝ) [(⟨⟨0, 0, 0⟩, 1, 255, 0, 0⟩ : Sphere ℝ)] []
      = false := by
  have hmiss : intersectSphere Real.sqrt
      (shadowRay Real.sqrt
        { t := 4, position := ⟨0, 0, 1⟩, normal := ⟨0, 0, 1⟩, r := 255, g := 0, b := 0 }
        (⟨⟨5, 5, 5⟩, ⟨1, 1, 1⟩⟩ : Light ℝ))
      ⟨⟨0, 0, 0⟩, 1, 255, 0, 0⟩ = none := by
    apply intersectSphere_none_of_outward
    · simp only [shadowRay]
      rw [red_sphere_light_dir]
      simp only [Vec3.dot, Vec3.scale, Vec3.add_def, Vec3.sub_def]
      have h := cos_red_sphere.1
      have h5 : 0 ≤ 5 / Real.sqrt 66 := le_of_lt (div_pos (by norm_num) sqrt66_pos)
      nlinarith
    · simp only [shadowRay, Vec3.dot, Vec3.scale, Vec3.add_def, Vec3.sub_def]
      norm_num
  simp only [inShadow, List.any_cons, List.any_nil, hmiss, Bool.or_false]

end RedSphereShade

/-! ### End to end: one pixel of the red-sphere scene -/

section RedSphereEndToEnd

/-- The lit colour of the front point of the red sphere. -/
theorem red_sphere_shade :
    shade Real.sqrt
        { t := 4, position := ⟨0, 0, 1⟩, normal := ⟨0, 0, 1⟩, r := 255, g := 0, b := 0 }
        ⟨⟨0, 0, 5⟩, ⟨0, 0, -1⟩⟩ (⟨⟨5, 5, 5⟩, ⟨1, 1, 1⟩⟩ : Light ℝ)
        [(⟨⟨0, 0, 0⟩, 1, 255, 0, 0⟩ : Sphere ℝ)] []
      = ⟨0.1 + 0.7 * (4 / Real.sqrt 66) + 0.2 * (8 / 33) ^ 16, 0.2 * (8 / 33) ^ 16,
          0.2 * (8 / 33) ^ 16⟩ := by
  obtain ⟨hq0, hq1, hq2⟩ := cos_red_sphere
  have hq32 : (4 / Real.sqrt 66) ^ 32 = (8 / 33) ^ 16 := by
    rw [← hq2, ← pow_mul]
  have hp0 : (0 : ℝ) ≤ (8 / 33) ^ 16 := by positivity
  have hp1 : ((8 : ℝ) / 33) ^ 16 ≤ 1 := pow_le_one₀ (by norm_num) (by norm_num)
  simp only [shade, red_sphere_not_in_shadow, Bool.false_eq_true, if_false]
  rw [red_sphere_light_dir, red_sphere_view_dir, red_sphere_reflect_dir]
  simp only [Vec3.mul, Vec3.scale, Vec3.dot, Vec3.add_def, byte_max_real, Vec3.mk.injEq,
    Fin.val_zero, Nat.cast_zero, zero_div, zero_mul, zero_add, one_mul, mul_one, add_zero]
  rw [max_eq_left hq0, hq32]
  refine ⟨?_, ?_, ?_⟩
  · rw [min_eq_left (by norm_num; linarith)]
    norm_num
    ring
  · rw [min_eq_left (by linarith)]
    ring
  · rw [min_eq_left (by linarith)]
    ring

end RedSphereEndToEnd

/-! ### A sphere in front of the plane -/

section NearestInstance

/-- C13, instance: the red unit sphere seen from `(0,0,5)` with the plane `z = -2`
behind it; the sphere is hit at `4`, the plane at `7`, and the sphere is shaded. -/
theorem trace_shades_nearest_witness :
    ((0 : Int) ≤ 2
      ∧ ((∃ s ∈ [(⟨⟨0, 0, 0⟩, 1, 255, 0, 0⟩ : Sphere ℝ)], ∃ t,
            intersectSphere Real.sqrt ⟨⟨0, 0, 5⟩, ⟨0, 0, -1⟩⟩ s = some t ∧ t < 1e20)
          ∨ (∃ tri ∈ ([] : List (Triangle ℝ)), ∃ t,
            intersectTriangle ⟨⟨0, 0, 5⟩, ⟨0, 0, -1⟩⟩ tri = some t ∧ t < 1e20))
      ∧ (∀ t, intersectPlane (⟨⟨0, 0, 5⟩, ⟨0, 0, -1⟩⟩ : Ray ℝ)
            ⟨⟨0, 0, -2⟩, ⟨0, 0, 1⟩, 200, 200, 200⟩ = some t →
          (closestPrimitive Real.sqrt ⟨⟨0, 0, 5⟩, ⟨0, 0, -1⟩⟩
            [(⟨⟨0, 0, 0⟩, 1, 255, 0, 0⟩ : Sphere ℝ)] []).1.t ≤ t))
      ∧ intersectPlane (⟨⟨0, 0, 5⟩, ⟨0, 0, -1⟩⟩ : Ray ℝ)
          ⟨⟨0, 0, -2⟩, ⟨0, 0, 1⟩, 200, 200, 200⟩ = some 7
      ∧ trace Real.sqrt ⟨⟨0, 0, 5⟩, ⟨0, 0, -1⟩⟩ [(⟨⟨0, 0, 0⟩, 1, 255, 0, 0⟩ : Sphere ℝ)] []
          ⟨⟨0, 0, -2⟩, ⟨0, 0, 1⟩, 200, 200, 200⟩ ⟨⟨5, 5, 5⟩, ⟨1, 1, 1⟩⟩ 0
        = shade Real.sqrt
            { t := 4, position := ⟨0, 0, 1⟩, normal := ⟨0, 0, 1⟩, r := 255, g := 0, b := 0 }
            ⟨⟨0, 0, 5⟩, ⟨0, 0, -1⟩⟩ ⟨⟨5, 5, 5⟩, ⟨1, 1, 1⟩⟩
            [(⟨⟨0, 0, 0⟩, 1, 255, 0, 0⟩ : Sphere ℝ)] [] := by
  have hI : intersectSphere Real.sqrt ⟨⟨0, 0, 5⟩, ⟨0, 0, -1⟩⟩ ⟨⟨0, 0, 0⟩, 1, 255, 0, 0⟩
      = some 4 := by
    rw [intersectSphere_axis 1 one_pos]
    norm_num
  have hP : intersectPlane (⟨⟨0, 0, 5⟩, ⟨0, 0, -1⟩⟩ : Ray ℝ)
      ⟨⟨0, 0, -2⟩, ⟨0, 0, 1⟩, 200, 200, 200⟩ = some 7 := by
    norm_num [intersectPlane, Vec3.dot]
  have hhit : (∃ s ∈ [(⟨⟨0, 0, 0⟩, 1, 255, 0, 0⟩ : Sphere ℝ)], ∃ t,
        intersectSphere Real.sqrt ⟨⟨0, 0, 5⟩, ⟨0, 0, -1⟩⟩ s = some t ∧ t < 1e20)
      ∨ (∃ tri ∈ ([] : List (Triangle ℝ)), ∃ t,
        intersectTriangle ⟨⟨0, 0, 5⟩, ⟨0, 0, -1⟩⟩ tri = some t ∧ t < 1e20) :=
    Or.inl ⟨_, List.mem_singleton_self _, 4, hI, by norm_num⟩
  have hplane : ∀ t, intersectPlane (⟨⟨0, 0, 5⟩, ⟨0, 0, -1⟩⟩ : Ray ℝ)
        ⟨⟨0, 0, -2⟩, ⟨0, 0, 1⟩, 200, 200, 200⟩ = some t →
      (closestPrimitive Real.sqrt ⟨⟨0, 0, 5⟩, ⟨0, 0, -1⟩⟩
        [(⟨⟨0, 0, 0⟩, 1, 255, 0, 0⟩ : Sphere ℝ)] []).1.t ≤ t := by
    intro t ht
    rw [hP] at ht
    rw [← Option.some.inj ht, red_sphere_scan]
    norm_num
  refine ⟨⟨by decide, hhit, hplane⟩, hP, ?_⟩
  have h := (trace_shades_nearest Real.sqrt ⟨⟨0, 0, 5⟩, ⟨0, 0, -1⟩⟩
    [(⟨⟨0, 0, 0⟩, 1, 255, 0, 0⟩ : Sphere ℝ)] []
    ⟨⟨0, 0, -2⟩, ⟨0, 0, 1⟩, 200, 200, 200⟩ ⟨⟨5, 5, 5⟩, ⟨1, 1, 1⟩⟩ 0 (by decide) hhit
    hplane).1
  rw [red_sphere_scan] at h
  exact h

end NearestInstance

/-! ## Camera model -/

section CameraBasis

end CameraBasis

/-! ### Ray generation -/

section RayGeneration

end RayGeneration

/-! ## Frame driver: quantisation -/

section Quantisation

variable {F : Type} [LinearOrderedField F] [FloorRing F]

/-- C19 (amended). For every colour channel value `c`, the byte written to the image
buffer equals `floor(clamp(c, 0, 1) * 255)`: the product is truncated, not rounded. -/
theorem channelByte_eq_floor (c : F) :
    channelByte c = ⌊min (max c 0) 1 * 255⌋ := by
  have hm : (0 : F) ≤ max 0 c := le_max_left _ _
  have hnn : (0 : F) ≤ max 0 c * 255 := mul_nonneg hm (by norm_num)
  have hfl0 : 0 ≤ ⌊max 0 c * 255⌋ := Int.floor_nonneg.mpr hnn
  simp only [channelByte, floatToInt, hnn, if_true]
  rw [max_comm c 0]
  by_cases h1 : max 0 c < 1
  · have hlt : max 0 c * 255 < 255 := by linarith
    have hfl : ⌊max 0 c * 255⌋ < 255 := by
      rw [Int.floor_lt]
      exact_mod_cast hlt
    rw [min_eq_right (le_of_lt hfl), min_eq_left (le_of_lt h1)]
    exact Int.emod_eq_of_lt hfl0 (by omega)
  · have hge : (1 : F) ≤ max 0 c := not_lt.mp h1
    have hfl : 255 ≤ ⌊max 0 c * 255⌋ := by
      rw [Int.le_floor]
      have : (255 : F) ≤ max 0 c * 255 := by linarith
      exact_mod_cast this
    rw [min_eq_left hfl, min_eq_right hge, one_mul]
    have : ⌊(255 : F)⌋ = 255 := by
      have := Int.floor_intCast (α := F) 255
      exact_mod_cast this
    rw [this]
    rfl

end Quantisation

section QuantisationInstance

/-- C19 (as stated) fails on the background colour: `trace` at depth `3` returns the
channel `0.1`, for which `0.1 * 255 = 25.5`; the frame driver writes `int(25.5) = 25`,
whereas `round(clamp(0.1, 0, 1) * 255) = 26`. -/
theorem channelByte_truncates :
    (trace Real.sqrt ⟨⟨0, 1, 0⟩, ⟨0, -1, 0⟩⟩
        [(⟨⟨-0.5, 0, 0⟩, 0.4, 0, 0, 255⟩ : Sphere ℝ), ⟨⟨0.5, 0, 0⟩, 0.3, 0, 255, 0⟩] []
        ⟨⟨0, -0.6, 0⟩, ⟨0, 1, 0⟩, 200, 200, 200⟩ ⟨⟨2, 5, 5⟩, ⟨1, 1, 1⟩⟩ 3).x = 0.1
      ∧ channelByte (0.1 : ℝ) = 25
      ∧ channelByteSpec (0.1 : ℝ) = 26 := by
  have hmax : max (0 : ℝ) 0.1 = 0.1 := max_eq_right (by norm_num)
  have hmax2 : max (0.1 : ℝ) 0 = 0.1 := max_eq_left (by norm_num)
  have hmin : min (0.1 : ℝ) 1 = 0.1 := min_eq_left (by norm_num)
  have hfl : ⌊(0.1 : ℝ) * 255⌋ = 25 := by
    rw [Int.floor_eq_iff]
    constructor <;> norm_num
  have hrd : round ((0.1 : ℝ) * 255) = 26 := by
    rw [round_eq, Int.floor_eq_iff]
    constructor <;> norm_num
  refine ⟨?_, ?_, ?_⟩
  · rw [trace_unfold, if_pos (by decide)]
  · have hnn : (0 : ℝ) ≤ 0.1 * 255 := by norm_num
    simp only [channelByte, floatToInt, hmax, hnn, if_true, hfl]
    decide
  · simp only [channelByteSpec, hmax2, hmin, hrd]

end QuantisationInstance

/-! ## Forward hits only -/

section ForwardHits

variable {F : Type} [LinearOrderedField F]

/-- C21. Whenever `intersectSphere`, `intersectTriangle` or `intersectPlane` reports a
hit, the reported distance is strictly positive: `t > 0.001` for the sphere and the
plane, `t > 1e-7` for the triangle.  A hit at or behind the ray origin is never
reported. -/
theorem intersect_forward (sqrt : F → F) (ray : Ray F) (sph : Sphere F)
    (tri : Triangle F) (plane : Plane F) :
    (∀ t, intersectSphere sqrt ray sph = some t → t > 0.001 ∧ t > 0)
      ∧ (∀ t, intersectTriangle ray tri = some t → t > 1e-7 ∧ t > 0)
      ∧ (∀ t, intersectPlane ray plane = some t → t > 0.001 ∧ t > 0) := by
  have h3 : (0 : F) < 0.001 := by norm_num
  have h7 : (0 : F) < 1e-7 := by norm_num
  refine ⟨fun t ht => ?_, fun t ht => ?_, fun t ht => ?_⟩
  · rw [intersectSphere_unfold] at ht
    split_ifs at ht with h1 h2 h3
    · rw [← Option.some.inj ht]
      exact ⟨h2, lt_trans h3 h2⟩
    · rw [← Option.some.inj ht]
      exact ⟨h3, lt_trans (by norm_num) h3⟩
  · rw [intersectTriangle_unfold] at ht
    split_ifs at ht with h1 h2 h3 h4
    rw [← Option.some.inj ht]
    exact ⟨h4, lt_trans h7 h4⟩
  · have hdef : intersectPlane ray plane =
        (if |ray.direction.dot plane.normal| < 1e-6 then none
         else if (plane.point - ray.origin).dot plane.normal
              / ray.direction.dot plane.normal > 0.001 then
           some ((plane.point - ray.origin).dot plane.normal
              / ray.direction.dot plane.normal)
         else none) := rfl
    rw [hdef] at ht
    split_ifs at ht with h1 h2
    rw [← Option.some.inj ht]
    exact ⟨h2, lt_trans h3 h2⟩

end ForwardHits

/-! ## Termination and recursion depth -/

section Termination

variable {F : Type} [LinearOrderedField F]

/-- One unfolding of `traceCalls`. -/
theorem traceCalls_unfold (sqrt : F → F) (ray : Ray F) (spheres : List (Sphere F))
    (triangles : List (Triangle F)) (plane : Plane F) (depth : Int) :
    traceCalls sqrt ray spheres triangles plane depth =
      if depth > 2 then 0
      else
        match planeBranch ray plane (closestPrimitive sqrt ray spheres triangles).1.t with
        | some tPlane =>
          1 + traceCalls sqrt (reflectRay sqrt ray plane tPlane) spheres triangles plane
            (depth + 1)
        | none => 0 := by
  rw [traceCalls]
  simp only [dite_eq_ite]

/-- One unfolding of `traceScans`. -/
theorem traceScans_unfold (sqrt : F → F) (ray : Ray F) (spheres : List (Sphere F))
    (triangles : List (Triangle F)) (plane : Plane F) (depth : Int) :
    traceScans sqrt ray spheres triangles plane depth =
      if depth > 2 then 0
      else
        1 + (match planeBranch ray plane
            (closestPrimitive sqrt ray spheres triangles).1.t with
          | some tPlane =>
            traceScans sqrt (reflectRay sqrt ray plane tPlane) spheres triangles plane
              (depth + 1)
          | none => 0) := by
  rw [traceScans]
  simp only [dite_eq_ite]

/-- The nested calls and the scans of `trace` are bounded by `3 - depth`. -/
theorem trace_counts_le (sqrt : F → F) (spheres : List (Sphere F))
    (triangles : List (Triangle F)) (plane : Plane F) (n : Nat) :
    ∀ (ray : Ray F) (depth : Int), (3 - depth).toNat ≤ n →
      traceCalls sqrt ray spheres triangles plane depth ≤ (3 - depth).toNat
        ∧ traceScans sqrt ray spheres triangles plane depth ≤ (3 - depth).toNat := by
  induction n with
  | zero =>
    intro ray depth hn
    have hd : depth > 2 := by omega
    rw [traceCalls_unfold, traceScans_unfold, if_pos hd, if_pos hd]
    exact ⟨Nat.zero_le _, Nat.zero_le _⟩
  | succ k ih =>
    intro ray depth hn
    by_cases hd : depth > 2
    · rw [traceCalls_unfold, traceScans_unfold, if_pos hd, if_pos hd]
      exact ⟨Nat.zero_le _, Nat.zero_le _⟩
    · rw [traceCalls_unfold, traceScans_unfold, if_neg hd, if_neg hd]
      cases hb : planeBranch ray plane (closestPrimitive sqrt ray spheres triangles).1.t with
      | none =>
        simp only
        constructor <;> omega
      | some tPlane =>
        simp only
        have h := ih (reflectRay sqrt ray plane tPlane) (depth + 1) (by omega)
        have e : (3 - (depth + 1)).toNat + 1 = (3 - depth).toNat := by omega
        rw [← e]
        constructor
        · have h1 := h.1
          generalize traceCalls sqrt (reflectRay sqrt ray plane tPlane) spheres triangles
            plane (depth + 1) = c at h1 ⊢
          rw [Nat.add_comm 1 c]
          exact Nat.succ_le_succ h1
        · have h2 := h.2
          generalize traceScans sqrt (reflectRay sqrt ray plane tPlane) spheres triangles
            plane (depth + 1) = c at h2 ⊢
          rw [Nat.add_comm 1 c]
          exact Nat.succ_le_succ h2

/-- C23. For every ray, scene and integer depth, `trace` terminates: it is a total
function that satisfies the recursion of the C++ code, whose only recursive call is made
with `depth + 1` from the plane branch.  A call at depth `d ≤ 2` makes at most `3 - d`
nested recursive calls and performs at most `3 - d` primitive scans (at most `3` scans
starting from depth `0`); a call at depth `> 2` makes none. -/
theorem trace_terminates (sqrt : F → F) (ray : Ray F) (spheres : List (Sphere F))
    (triangles : List (Triangle F)) (plane : Plane F) (light : Light F) (depth : Int) :
    (trace sqrt ray spheres triangles plane light depth =
        if depth > 2 then ⟨0.1, 0.1, 0.1⟩
        else
          match planeBranch ray plane
            (closestPrimitive sqrt ray spheres triangles).1.t with
          | some tPlane =>
            (Vec3.mk ((plane.r.val : F) / 255) ((plane.g.val : F) / 255)
                ((plane.b.val : F) / 255)).scale 0.3
              + (trace sqrt (reflectRay sqrt ray plane tPlane) spheres triangles plane
                  light (depth + 1)).scale 0.7
          | none =>
            if (closestPrimitive sqrt ray spheres triangles).2 then
              shade sqrt (closestPrimitive sqrt ray spheres triangles).1 ray light spheres
                triangles
            else ⟨0.1, 0.1, 0.1⟩)
      ∧ (depth ≤ 2 →
          (traceCalls sqrt ray spheres triangles plane depth : Int) ≤ 3 - depth
            ∧ (traceScans sqrt ray spheres triangles plane depth : Int) ≤ 3 - depth)
      ∧ (depth > 2 →
          traceCalls sqrt ray spheres triangles plane depth = 0
            ∧ traceScans sqrt ray spheres triangles plane depth = 0)
      ∧ traceCalls sqrt ray spheres triangles plane 0 ≤ 3
      ∧ traceScans sqrt ray spheres triangles plane 0 ≤ 3 := by
  have hb := trace_counts_le sqrt spheres triangles plane (3 - depth).toNat ray depth
    (le_refl _)
  have h0 := trace_counts_le sqrt spheres triangles plane 3 ray 0 (by decide)
  refine ⟨trace_unfold sqrt ray spheres triangles plane light depth, fun hd => ?_,
    fun hd => ?_, ?_, ?_⟩
  · have h1 := hb.1
    have h2 := hb.2
    constructor <;> omega
  · have h1 := hb.1
    have h2 := hb.2
    constructor <;> omega
  · have := h0.1
    simpa using this
  · have := h0.2
    simpa using this

end Termination

/-! ## Frame driver: buffer indices -/

section BufferIndex

/-- Row-major pixel numbers are injective on the image rectangle. -/
theorem pixel_number_injective (WIDTH x y x' y' : Int)
    (hx : 0 ≤ x ∧ x < WIDTH) (hx' : 0 ≤ x' ∧ x' < WIDTH)
    (h : y * WIDTH + x = y' * WIDTH + x') : x = x' ∧ y = y' := by
  have hy : y = y' := by
    rcases lt_trichotomy y y' with hlt | heq | hgt
    · exfalso
      have h1 : (y + 1) * WIDTH ≤ y' * WIDTH :=
        mul_le_mul_of_nonneg_right (by omega) (by omega)
      nlinarith
    · exact heq
    · exfalso
      have h1 : (y' + 1) * WIDTH ≤ y * WIDTH :=
        mul_le_mul_of_nonneg_right (by omega) (by omega)
      nlinarith
  subst hy
  exact ⟨by linarith, rfl⟩

/-- C26. For every `WIDTH, HEIGHT > 0` and every pixel `(x, y)` with `0 ≤ x < WIDTH` and
`0 ≤ y < HEIGHT`, the frame driver writes the three bytes at `idx`, `idx + 1`,
`idx + 2` with `idx = 3 * (y * WIDTH + x)`; all three indices (and the intermediate
values) are non-negative and below the buffer size `WIDTH * HEIGHT * 3`, and distinct
pixels write disjoint index triples: the map `(x, y) ↦ idx` is injective and row-major. -/
theorem pixelIndex_in_bounds (WIDTH HEIGHT x y : Int) (hW : 0 < WIDTH) (_hH : 0 < HEIGHT)
    (hx : 0 ≤ x ∧ x < WIDTH) (hy : 0 ≤ y ∧ y < HEIGHT) :
    pixelIndex WIDTH x y = 3 * (y * WIDTH + x)
      ∧ (0 ≤ y * WIDTH ∧ 0 ≤ y * WIDTH + x ∧ y * WIDTH + x < WIDTH * HEIGHT)
      ∧ (0 ≤ pixelIndex WIDTH x y ∧ pixelIndex WIDTH x y + 2 < WIDTH * HEIGHT * 3)
      ∧ (∀ x' y' i j : Int, 0 ≤ x' ∧ x' < WIDTH → 0 ≤ y' ∧ y' < HEIGHT →
          0 ≤ i ∧ i < 3 → 0 ≤ j ∧ j < 3 →
          pixelIndex WIDTH x y + i = pixelIndex WIDTH x' y' + j →
          x = x' ∧ y = y' ∧ i = j)
      ∧ (x + 1 < WIDTH → pixelIndex WIDTH (x + 1) y = pixelIndex WIDTH x y + 3)
      ∧ pixelIndex WIDTH 0 (y + 1) = pixelIndex WIDTH (WIDTH - 1) y + 3 := by
  have hyw : 0 ≤ y * WIDTH := mul_nonneg hy.1 (le_of_lt hW)
  have hrow : (y + 1) * WIDTH ≤ HEIGHT * WIDTH :=
    mul_le_mul_of_nonneg_right (by omega) (le_of_lt hW)
  have hlt : y * WIDTH + x < WIDTH * HEIGHT := by nlinarith
  refine ⟨rfl, ⟨hyw, by omega, hlt⟩, ⟨?_, ?_⟩, ?_, ?_, ?_⟩
  · simp only [pixelIndex]
    omega
  · simp only [pixelIndex]
    nlinarith
  · intro x' y' i j hx' hy' hi hj h
    simp only [pixelIndex] at h
    have hnum : y * WIDTH + x = y' * WIDTH + x' := by omega
    have hij : i = j := by omega
    obtain ⟨h1, h2⟩ := pixel_number_injective WIDTH x y x' y' hx hx' hnum
    exact ⟨h1, h2, hij⟩
  · intro _
    simp only [pixelIndex]
    ring
  · simp only [pixelIndex]
    ring

/-- C26, instance: pixel `(599, 599)`, the last one of the program's `600 × 600` image,
writes the last three bytes of the buffer of size `1080000`. -/
theorem pixelIndex_in_bounds_witness :
    ((0 : Int) < 600 ∧ (0 : Int) < 600 ∧ ((0 : Int) ≤ 599 ∧ (599 : Int) < 600)
        ∧ ((0 : Int) ≤ 599 ∧ (599 : Int) < 600))
      ∧ pixelIndex 600 599 599 = 1079997
      ∧ (0 ≤ pixelIndex 600 599 599 ∧ pixelIndex 600 599 599 + 2 < 600 * 600 * 3) :=
  ⟨⟨by decide, by decide, ⟨by decide, by decide⟩, ⟨by decide, by decide⟩⟩, by decide,
    (pixelIndex_in_bounds 600 600 599 599 (by decide) (by decide)
      ⟨by decide, by decide⟩ ⟨by decide, by decide⟩).2.2.1⟩

end BufferIndex

/-! ## The plane casts no shadow -/

section PlaneShadow

variable {F : Type} [LinearOrderedField F]

/-- C25. The plane never casts shadows: for `depth ≤ 2` and any two planes neither of
which is the winning hit for the ray, `trace` returns the same colour with either plane,
namely `shade` of the nearest sphere/triangle hit (which takes no plane argument) or the
background. -/
theorem trace_plane_casts_no_shadow (sqrt : F → F) (ray : Ray F)
    (spheres : List (Sphere F)) (triangles : List (Triangle F)) (plane1 plane2 : Plane F)
    (light : Light F) (depth : Int) (hdepth : depth ≤ 2)
    (h1 : planeBranch ray plane1 (closestPrimitive sqrt ray spheres triangles).1.t = none)
    (h2 : planeBranch ray plane2 (closestPrimitive sqrt ray spheres triangles).1.t = none) :
    trace sqrt ray spheres triangles plane1 light depth
        = trace sqrt ray spheres triangles plane2 light depth
      ∧ trace sqrt ray spheres triangles plane1 light depth =
          (if (closestPrimitive sqrt ray spheres triangles).2 then
            shade sqrt (closestPrimitive sqrt ray spheres triangles).1 ray light spheres
              triangles
          else ⟨0.1, 0.1, 0.1⟩) := by
  have e1 : trace sqrt ray spheres triangles plane1 light depth =
      (if (closestPrimitive sqrt ray spheres triangles).2 then
        shade sqrt (closestPrimitive sqrt ray spheres triangles).1 ray light spheres
          triangles
      else ⟨0.1, 0.1, 0.1⟩) := by
    rw [trace_unfold, if_neg (not_lt.mpr hdepth), h1]
  have e2 : trace sqrt ray spheres triangles plane2 light depth =
      (if (closestPrimitive sqrt ray spheres triangles).2 then
        shade sqrt (closestPrimitive sqrt ray spheres triangles).1 ray light spheres
          triangles
      else ⟨0.1, 0.1, 0.1⟩) := by
    rw [trace_unfold, if_neg (not_lt.mpr hdepth), h2]
  exact ⟨e1.trans e2.symm, e1⟩

end PlaneShadow

section PlaneShadowInstance

/-- C25, instance: in the red-sphere scene the plane `y = -2` and the plane `x = 2.5`,
which separates the hit point `(0,0,1)` from the light at `(5,5,5)`, are both missed by
the primary ray; `trace` returns the same lit colour with either. -/
theorem trace_plane_casts_no_shadow_witness :
    ((0 : Int) ≤ 2
      ∧ planeBranch (⟨⟨0, 0, 5⟩, ⟨0, 0, -1⟩⟩ : Ray ℝ)
          ⟨⟨0, -2, 0⟩, ⟨0, 1, 0⟩, 200, 200, 200⟩
          (closestPrimitive Real.sqrt ⟨⟨0, 0, 5⟩, ⟨0, 0, -1⟩⟩
            [(⟨⟨0, 0, 0⟩, 1, 255, 0, 0⟩ : Sphere ℝ)] []).1.t = none
      ∧ planeBranch (⟨⟨0, 0, 5⟩, ⟨0, 0, -1⟩⟩ : Ray ℝ)
          ⟨⟨2.5, 0, 0⟩, ⟨1, 0, 0⟩, 200, 200, 200⟩
          (closestPrimitive Real.sqrt ⟨⟨0, 0, 5⟩, ⟨0, 0, -1⟩⟩
            [(⟨⟨0, 0, 0⟩, 1, 255, 0, 0⟩ : Sphere ℝ)] []).1.t = none)
      ∧ (((⟨0, 0, 1⟩ : Vec3 ℝ) - ⟨2.5, 0, 0⟩).dot ⟨1, 0, 0⟩ < 0
        ∧ 0 < ((⟨5, 5, 5⟩ : Vec3 ℝ) - ⟨2.5, 0, 0⟩).dot ⟨1, 0, 0⟩)
      ∧ trace Real.sqrt ⟨⟨0, 0, 5⟩, ⟨0, 0, -1⟩⟩ [(⟨⟨0, 0, 0⟩, 1, 255, 0, 0⟩ : Sphere ℝ)] []
          ⟨⟨0, -2, 0⟩, ⟨0, 1, 0⟩, 200, 200, 200⟩ ⟨⟨5, 5, 5⟩, ⟨1, 1, 1⟩⟩ 0
        = trace Real.sqrt ⟨⟨0, 0, 5⟩, ⟨0, 0, -1⟩⟩
            [(⟨⟨0, 0, 0⟩, 1, 255, 0, 0⟩ : Sphere ℝ)] []
            ⟨⟨2.5, 0, 0⟩, ⟨1, 0, 0⟩, 200, 200, 200⟩ ⟨⟨5, 5, 5⟩, ⟨1, 1, 1⟩⟩ 0
      ∧ trace Real.sqrt ⟨⟨0, 0, 5⟩, ⟨0, 0, -1⟩⟩ [(⟨⟨0, 0, 0⟩, 1, 255, 0, 0⟩ : Sphere ℝ)] []
          ⟨⟨2.5, 0, 0⟩, ⟨1, 0, 0⟩, 200, 200, 200⟩ ⟨⟨5, 5, 5⟩, ⟨1, 1, 1⟩⟩ 0
        = ⟨0.1 + 0.7 * (4 / Real.sqrt 66) + 0.2 * (8 / 33) ^ 16, 0.2 * (8 / 33) ^ 16,
            0.2 * (8 / 33) ^ 16⟩ := by
  have hP1 : planeBranch (⟨⟨0, 0, 5⟩, ⟨0, 0, -1⟩⟩ : Ray ℝ)
      ⟨⟨0, -2, 0⟩, ⟨0, 1, 0⟩, 200, 200, 200⟩
      (closestPrimitive Real.sqrt ⟨⟨0, 0, 5⟩, ⟨0, 0, -1⟩⟩
        [(⟨⟨0, 0, 0⟩, 1, 255, 0, 0⟩ : Sphere ℝ)] []).1.t = none := by
    norm_num [planeBranch, intersectPlane, Vec3.dot]
  have hP2 : planeBranch (⟨⟨0, 0, 5⟩, ⟨0, 0, -1⟩⟩ : Ray ℝ)
      ⟨⟨2.5, 0, 0⟩, ⟨1, 0, 0⟩, 200, 200, 200⟩
      (closestPrimitive Real.sqrt ⟨⟨0, 0, 5⟩, ⟨0, 0, -1⟩⟩
        [(⟨⟨0, 0, 0⟩, 1, 255, 0, 0⟩ : Sphere ℝ)] []).1.t = none := by
    norm_num [planeBranch, intersectPlane, Vec3.dot]
  have h := trace_plane_casts_no_shadow Real.sqrt ⟨⟨0, 0, 5⟩, ⟨0, 0, -1⟩⟩
    [(⟨⟨0, 0, 0⟩, 1, 255, 0, 0⟩ : Sphere ℝ)] []
    ⟨⟨0, -2, 0⟩, ⟨0, 1, 0⟩, 200, 200, 200⟩ ⟨⟨2.5, 0, 0⟩, ⟨1, 0, 0⟩, 200, 200, 200⟩
    ⟨⟨5, 5, 5⟩, ⟨1, 1, 1⟩⟩ 0 (by decide) hP1 hP2
  refine ⟨⟨by decide, hP1, hP2⟩, ⟨by norm_num [Vec3.dot], by norm_num [Vec3.dot]⟩, h.1, ?_⟩
  rw [← h.1, h.2, red_sphere_scan]
  simp only [if_true]
  exact red_sphere_shade

end PlaneShadowInstance

/-! ## Range of the traced colour -/

section TraceRange

variable {F : Type} [LinearOrderedField F]

/-- The blend `0.3 * b + 0.7 * c` of two values of `[0, 1]` lies in `[0, 1]`. -/
theorem blend_range (b c : F) (hb : 0 ≤ b ∧ b ≤ 1) (hc : 0 ≤ c ∧ c ≤ 1) :
    0 ≤ b * 0.3 + c * 0.7 ∧ b * 0.3 + c * 0.7 ≤ 1 := by
  have h3 : (0 : F) ≤ 0.3 := by norm_num
  have h7 : (0 : F) ≤ 0.7 := by norm_num
  have e : (1 : F) * 0.3 + 1 * 0.7 = 1 := by norm_num
  constructor
  · exact add_nonneg (mul_nonneg hb.1 h3) (mul_nonneg hc.1 h7)
  · rw [← e]
    exact add_le_add (mul_le_mul_of_nonneg_right hb.2 h3)
      (mul_le_mul_of_nonneg_right hc.2 h7)

/-- The colour returned by `shade` under a light of non-negative colour has every
channel in `[0, 1]`. -/
theorem shade_channels_unit (sqrt : F → F) (hit : HitInfo F) (ray : Ray F)
    (light : Light F) (spheres : List (Sphere F)) (triangles : List (Triangle F))
    (hl : 0 ≤ light.color.x ∧ 0 ≤ light.color.y ∧ 0 ≤ light.color.z) :
    (0 ≤ (shade sqrt hit ray light spheres triangles).x ∧
        (shade sqrt hit ray light spheres triangles).x ≤ 1)
      ∧ (0 ≤ (shade sqrt hit ray light spheres triangles).y ∧
        (shade sqrt hit ray light spheres triangles).y ≤ 1)
      ∧ (0 ≤ (shade sqrt hit ray light spheres triangles).z ∧
        (shade sqrt hit ray light spheres triangles).z ≤ 1) := by
  obtain ⟨hx, hy, hz⟩ := hl
  have amb : ∀ o : F, 0 ≤ o → o ≤ 1 → 0 ≤ o * 0.1 ∧ o * 0.1 ≤ 1 := by
    intro o h0 h1
    refine ⟨mul_nonneg h0 (by norm_num), ?_⟩
    have h2 : o * 0.1 ≤ 1 * 0.1 := mul_le_mul_of_nonneg_right h1 (by norm_num)
    exact le_trans h2 (by norm_num)
  have lit : ∀ o l d s : F, 0 ≤ o → 0 ≤ l → 0 ≤ d → 0 ≤ s →
      0 ≤ min (o * 0.1 + o * l * d * 0.7 + l * s * 0.2) 1 ∧
        min (o * 0.1 + o * l * d * 0.7 + l * s * 0.2) 1 ≤ 1 := by
    intro o l d s ho hl hd hs
    refine ⟨le_min ?_ zero_le_one, min_le_right _ _⟩
    exact add_nonneg (add_nonneg (mul_nonneg ho (by norm_num))
      (mul_nonneg (mul_nonneg (mul_nonneg ho hl) hd) (by norm_num)))
      (mul_nonneg (mul_nonneg hl hs) (by norm_num))
  have hr := byte_channel_range (F := F) hit.r
  have hg := byte_channel_range (F := F) hit.g
  have hb := byte_channel_range (F := F) hit.b
  cases hsh : inShadow sqrt hit light spheres triangles with
  | true =>
    simp only [shade, hsh, if_true, Vec3.mul]
    exact ⟨amb _ hr.1 hr.2, amb _ hg.1 hg.2, amb _ hb.1 hb.2⟩
  | false =>
    simp only [shade, hsh, Vec3.mul, Vec3.scale, Vec3.add_def, Bool.false_eq_true,
      if_false]
    exact ⟨lit _ _ _ _ hr.1 hx (le_max_right _ _) (pow_nonneg (le_max_right _ _) _),
      lit _ _ _ _ hg.1 hy (le_max_right _ _) (pow_nonneg (le_max_right _ _) _),
      lit _ _ _ _ hb.1 hz (le_max_right _ _) (pow_nonneg (le_max_right _ _) _)⟩

/-- One level of `trace`: if the colours of the calls at `depth + 1` lie in `[0, 1]`, so
does the colour of the call at `depth`. -/
theorem trace_range_step (sqrt : F → F) (spheres : List (Sphere F))
    (triangles : List (Triangle F)) (plane : Plane F) (light : Light F)
    (hl : 0 ≤ light.color.x ∧ 0 ≤ light.color.y ∧ 0 ≤ light.color.z)
    (ray : Ray F) (depth : Int)
    (hrec : depth ≤ 2 → ∀ r : Ray F,
      (0 ≤ (trace sqrt r spheres triangles plane light (depth + 1)).x ∧
          (trace sqrt r spheres triangles plane light (depth + 1)).x ≤ 1)
        ∧ (0 ≤ (trace sqrt r spheres triangles plane light (depth + 1)).y ∧
          (trace sqrt r spheres triangles plane light (depth + 1)).y ≤ 1)
        ∧ (0 ≤ (trace sqrt r spheres triangles plane light (depth + 1)).z ∧
          (trace sqrt r spheres triangles plane light (depth + 1)).z ≤ 1)) :
    (0 ≤ (trace sqrt ray spheres triangles plane light depth).x ∧
        (trace sqrt ray spheres triangles plane light depth).x ≤ 1)
      ∧ (0 ≤ (trace sqrt ray spheres triangles plane light depth).y ∧
        (trace sqrt ray spheres triangles plane light depth).y ≤ 1)
      ∧ (0 ≤ (trace sqrt ray spheres triangles plane light depth).z ∧
        (trace sqrt ray spheres triangles plane light depth).z ≤ 1) := by
  have hbg : (0 : F) ≤ 0.1 ∧ (0.1 : F) ≤ 1 := ⟨by norm_num, by norm_num⟩
  rw [trace_unfold]
  by_cases hd : depth > 2
  · rw [if_pos hd]
    exact ⟨hbg, hbg, hbg⟩
  · rw [if_neg hd]
    cases hb : planeBranch ray plane (closestPrimitive sqrt ray spheres triangles).1.t with
    | some tPlane =>
      obtain ⟨hx, hy, hz⟩ := hrec (not_lt.mp hd) (reflectRay sqrt ray plane tPlane)
      simp only [Vec3.scale, Vec3.add_def]
      exact ⟨blend_range _ _ (byte_channel_range plane.r) hx,
        blend_range _ _ (byte_channel_range plane.g) hy,
        blend_range _ _ (byte_channel_range plane.b) hz⟩
    | none =>
      simp only
      cases (closestPrimitive sqrt ray spheres triangles).2 with
      | true =>
        simp only [if_true]
        exact shade_channels_unit sqrt _ ray light spheres triangles hl
      | false =>
        simp only [Bool.false_eq_true, if_false]
        exact ⟨hbg, hbg, hbg⟩

/-- The range of `trace` in exact arithmetic (the amended claim C29, in the arithmetic of
the program, is `trace_binary32_range`).  For every scene whose light colour components
are non-negative, every ray and every integer depth, every channel of the colour
returned by `trace` lies in `[0, 1]`
(by induction on the recursion measure `3 - depth`). -/
theorem trace_range (sqrt : F → F) (ray : Ray F) (spheres : List (Sphere F))
    (triangles : List (Triangle F)) (plane : Plane F) (light : Light F) (depth : Int)
    (hl : 0 ≤ light.color.x ∧ 0 ≤ light.color.y ∧ 0 ≤ light.color.z) :
    (0 ≤ (trace sqrt ray spheres triangles plane light depth).x ∧
        (trace sqrt ray spheres triangles plane light depth).x ≤ 1)
      ∧ (0 ≤ (trace sqrt ray spheres triangles plane light depth).y ∧
        (trace sqrt ray spheres triangles plane light depth).y ≤ 1)
      ∧ (0 ≤ (trace sqrt ray spheres triangles plane light depth).z ∧
        (trace sqrt ray spheres triangles plane light depth).z ≤ 1) := by
  have key : ∀ (n : Nat) (r : Ray F) (d : Int), (3 - d).toNat ≤ n →
      (0 ≤ (trace sqrt r spheres triangles plane light d).x ∧
          (trace sqrt r spheres triangles plane light d).x ≤ 1)
        ∧ (0 ≤ (trace sqrt r spheres triangles plane light d).y ∧
          (trace sqrt r spheres triangles plane light d).y ≤ 1)
        ∧ (0 ≤ (trace sqrt r spheres triangles plane light d).z ∧
          (trace sqrt r spheres triangles plane light d).z ≤ 1) := by
    intro n
    induction n with
    | zero =>
      intro r d hn
      exact trace_range_step sqrt spheres triangles plane light hl r d
        (fun hd => absurd hn (by omega))
    | succ k ih =>
      intro r d hn
      exact trace_range_step sqrt spheres triangles plane light hl r d
        (fun _ r2 => ih r2 (d + 1) (by omega))
  exact key (3 - depth).toNat ray depth (le_refl _)

end TraceRange

section TraceRangeInstance

/-- An instance of `trace_range`: the program's scene (white light) seen from `(0, 1, 0)` straight
down at depth `0`. -/
theorem trace_range_witness :
    ((0 : ℝ) ≤ (Light.mk (⟨2, 5, 5⟩ : Vec3 ℝ) ⟨1, 1, 1⟩).color.x
        ∧ (0 : ℝ) ≤ (Light.mk (⟨2, 5, 5⟩ : Vec3 ℝ) ⟨1, 1, 1⟩).color.y
        ∧ (0 : ℝ) ≤ (Light.mk (⟨2, 5, 5⟩ : Vec3 ℝ) ⟨1, 1, 1⟩).color.z)
      ∧ (0 ≤ (trace Real.sqrt ⟨⟨0, 1, 0⟩, ⟨0, -1, 0⟩⟩
            [(⟨⟨-0.5, 0, 0⟩, 0.4, 0, 0, 255⟩ : Sphere ℝ), ⟨⟨0.5, 0, 0⟩, 0.3, 0, 255, 0⟩] []
            ⟨⟨0, -0.6, 0⟩, ⟨0, 1, 0⟩, 200, 200, 200⟩ ⟨⟨2, 5, 5⟩, ⟨1, 1, 1⟩⟩ 0).x
        ∧ (trace Real.sqrt ⟨⟨0, 1, 0⟩, ⟨0, -1, 0⟩⟩
            [(⟨⟨-0.5, 0, 0⟩, 0.4, 0, 0, 255⟩ : Sphere ℝ), ⟨⟨0.5, 0, 0⟩, 0.3, 0, 255, 0⟩] []
            ⟨⟨0, -0.6, 0⟩, ⟨0, 1, 0⟩, 200, 200, 200⟩ ⟨⟨2, 5, 5⟩, ⟨1, 1, 1⟩⟩ 0).x ≤ 1) :=
  have hl : (0 : ℝ) ≤ (Light.mk (⟨2, 5, 5⟩ : Vec3 ℝ) ⟨1, 1, 1⟩).color.x
      ∧ (0 : ℝ) ≤ (Light.mk (⟨2, 5, 5⟩ : Vec3 ℝ) ⟨1, 1, 1⟩).color.y
      ∧ (0 : ℝ) ≤ (Light.mk (⟨2, 5, 5⟩ : Vec3 ℝ) ⟨1, 1, 1⟩).color.z :=
    ⟨zero_le_one, zero_le_one, zero_le_one⟩
  ⟨hl, (trace_range Real.sqrt _ _ _ _ _ 0 hl).1⟩

end TraceRangeInstance

/-! ## Self-occlusion bias of the shadow ray -/

section SelfOcclusion

end SelfOcclusion

/-! ## The depth limit is never reached -/

section DepthLimitUnreached

/-- One unfolding of `traceWithLimit`. -/
theorem traceWithLimit_unfold {F : Type} [LinearOrderedField F] (limit : Vec3 F)
    (sqrt : F → F) (ray : Ray F) (spheres : List (Sphere F))
    (triangles : List (Triangle F)) (plane : Plane F) (light : Light F) (depth : Int) :
    traceWithLimit limit sqrt ray spheres triangles plane light depth =
      if depth > 2 then limit
      else
        match planeBranch ray plane (closestPrimitive sqrt ray spheres triangles).1.t with
        | some tPlane =>
          (Vec3.mk ((plane.r.val : F) / 255) ((plane.g.val : F) / 255)
              ((plane.b.val : F) / 255)).scale 0.3
            + (traceWithLimit limit sqrt (reflectRay sqrt ray plane tPlane) spheres
                triangles plane light (depth + 1)).scale 0.7
        | none =>
          if (closestPrimitive sqrt ray spheres triangles).2 then
            shade sqrt (closestPrimitive sqrt ray spheres triangles).1 ray light spheres
              triangles
          else ⟨0.1, 0.1, 0.1⟩ := by
  rw [traceWithLimit]
  simp only [dite_eq_ite]

/-- `trace` is `traceWithLimit` at the colour `(0.1, 0.1, 0.1)`. -/
theorem trace_eq_traceWithLimit {F : Type} [LinearOrderedField F] (sqrt : F → F)
    (spheres : List (Sphere F)) (triangles : List (Triangle F)) (plane : Plane F)
    (light : Light F) (n : Nat) :
    ∀ (ray : Ray F) (depth : Int), (3 - depth).toNat ≤ n →
      trace sqrt ray spheres triangles plane light depth
        = traceWithLimit ⟨0.1, 0.1, 0.1⟩ sqrt ray spheres triangles plane light depth := by
  induction n with
  | zero =>
    intro ray depth hn
    have hd : depth > 2 := by omega
    rw [trace_unfold, traceWithLimit_unfold, if_pos hd, if_pos hd]
  | succ k ih =>
    intro ray depth hn
    rw [trace_unfold, traceWithLimit_unfold]
    by_cases hd : depth > 2
    · rw [if_pos hd, if_pos hd]
    · rw [if_neg hd, if_neg hd]
      cases hb : planeBranch ray plane (closestPrimitive sqrt ray spheres triangles).1.t with
      | none => rfl
      | some tPlane =>
        simp only
        rw [ih (reflectRay sqrt ray plane tPlane) (depth + 1) (by omega)]

end DepthLimitUnreached

/-! ## Viewer: the benchmark test mesh -/

section TestMesh

/-- The length of a `flatMap` whose pieces all have the same length. -/
theorem length_flatMap_const {α β : Type} (f : α → List β) (l : List α) (c : Nat)
    (h : ∀ a, (f a).length = c) : (l.flatMap f).length = c * l.length := by
  induction l with
  | nil => simp
  | cons a t ih =>
    rw [List.flatMap_cons, List.length_append, h, ih, List.length_cons]
    ring

/-- The vertex buffer built by `createTestMesh` holds `gridSize²` vertices of six
floats, where `gridSize = max(2, floor(sqrt(vertexCount)))`. -/
theorem createTestMesh_vertices_length {F : Type} [LinearOrderedField F]
    (vertexCount : Int) :
    (createTestMesh (F := F) vertexCount).1.length
      = 6 * (gridSizeOf vertexCount * gridSizeOf vertexCount) := by
  simp only [createTestMesh]
  rw [length_flatMap_const _ _ (6 * gridSizeOf vertexCount)]
  · rw [List.length_range]
    ring
  · intro y
    rw [length_flatMap_const _ _ 6]
    · rw [List.length_range]
    · intro x
      rfl

/-- The grid sizes chosen for the six sizes of the benchmark. -/
theorem gridSizeOf_benchmark :
    gridSizeOf 100 = 10 ∧ gridSizeOf 500 = 22 ∧ gridSizeOf 1000 = 31
      ∧ gridSizeOf 5000 = 70 ∧ gridSizeOf 10000 = 100 ∧ gridSizeOf 25000 = 158 := by
  have h1 : Nat.sqrt 100 = 10 := (Nat.eq_sqrt.mpr ⟨by norm_num, by norm_num⟩).symm
  have h2 : Nat.sqrt 500 = 22 := (Nat.eq_sqrt.mpr ⟨by norm_num, by norm_num⟩).symm
  have h3 : Nat.sqrt 1000 = 31 := (Nat.eq_sqrt.mpr ⟨by norm_num, by norm_num⟩).symm
  have h4 : Nat.sqrt 5000 = 70 := (Nat.eq_sqrt.mpr ⟨by norm_num, by norm_num⟩).symm
  have h5 : Nat.sqrt 10000 = 100 := (Nat.eq_sqrt.mpr ⟨by norm_num, by norm_num⟩).symm
  have h6 : Nat.sqrt 25000 = 158 := (Nat.eq_sqrt.mpr ⟨by norm_num, by norm_num⟩).symm
  have e1 : (100 : Int).toNat = 100 := rfl
  have e2 : (500 : Int).toNat = 500 := rfl
  have e3 : (1000 : Int).toNat = 1000 := rfl
  have e4 : (5000 : Int).toNat = 5000 := rfl
  have e5 : (10000 : Int).toNat = 10000 := rfl
  have e6 : (25000 : Int).toNat = 25000 := rfl
  simp only [gridSizeOf, e1, e2, e3, e4, e5, e6, h1, h2, h3, h4, h5, h6]
  decide

/-- C27 (the code at its sizes). For `vertexCount = 500` the mesh built by
`createTestMesh` has `vertices.size() / 6 = 22² = 484` vertices, not `500`; of the six
sizes of the benchmark only the perfect squares `100` and `10000` are met:
`500 ↦ 484`, `1000 ↦ 961`, `5000 ↦ 4900`, `25000 ↦ 24964`. -/
theorem createTestMesh_vertex_count :
    (createTestMesh (F := ℚ) 500).1.length / 6 = 484
      ∧ (createTestMesh (F := ℚ) 100).1.length / 6 = 100
      ∧ (createTestMesh (F := ℚ) 1000).1.length / 6 = 961
      ∧ (createTestMesh (F := ℚ) 5000).1.length / 6 = 4900
      ∧ (createTestMesh (F := ℚ) 10000).1.length / 6 = 10000
      ∧ (createTestMesh (F := ℚ) 25000).1.length / 6 = 24964 := by
  obtain ⟨g1, g2, g3, g4, g5, g6⟩ := gridSizeOf_benchmark
  simp only [createTestMesh_vertices_length, g1, g2, g3, g4, g5, g6]
  decide

end TestMesh

/-! ## Viewer: the OBJ loader -/

section ObjLoader

variable {F : Type} [LinearOrderedField F]

/-- The emitting loop of `loadOBJ` keeps `vertices.size() = 6 * indices.size()`. -/
theorem loadOBJ_loop_sizes (temp_vertices : List F) (ivs : List (Nat × Nat))
    (st : List F × List Nat) (h : st.1.length = 6 * st.2.length) :
    (ivs.foldl (loadOBJStep temp_vertices) st).1.length
      = 6 * (ivs.foldl (loadOBJStep temp_vertices) st).2.length := by
  induction ivs generalizing st with
  | nil => exact h
  | cons iv rest ih =>
    rw [List.foldl_cons]
    apply ih
    unfold loadOBJStep
    by_cases hskip : iv.2 ≥ temp_vertices.length / 3
    · simp only [hskip, if_true]
      exact h
    · simp only [hskip, if_false, List.length_append, List.length_cons, List.length_nil, h]
      ring

/-- Whenever `loadOBJ` returns `true`, its outputs satisfy
`vertices.size() = 6 * indices.size()`. -/
theorem loadOBJ_sizes (temp_vertices : List F) (vertexIndices : List Nat)
    (vertices : List F) (indices : List Nat)
    (h : loadOBJ temp_vertices vertexIndices = some (vertices, indices)) :
    vertices.length = 6 * indices.length := by
  unfold loadOBJ at h
  split_ifs at h with hempty
  have e := Option.some.inj h
  have hl := loadOBJ_loop_sizes temp_vertices
    ((List.range vertexIndices.length).zip vertexIndices) ([], []) rfl
  rw [e] at hl
  exact hl

end ObjLoader

section ObjLoaderInstance

/-- C30 (the code on a skipped index). For three parsed vertices and the face
`f 6 1 2` (indices `5, 0, 1` after the `- 1`), `loadOBJ` returns `true`, skips the
out-of-range index `5`, emits two vertices and the indices `[1, 2]` (the loop counters):
`vertices.size() = 6 * indices.size()` holds, but the index `2` is not smaller than the
number `2` of emitted vertices. -/
theorem loadOBJ_skipped_index :
    loadOBJ ([0, 0, 0, 1, 0, 0, 0, 1, 0] : List ℚ) [5, 0, 1]
        = some ([0, 0, 0, 1 / 2, 1 / 2, 1 / 2, 1, 0, 0, 1, 1 / 2, 1 / 2], [1, 2])
      ∧ ([0, 0, 0, 1 / 2, 1 / 2, 1 / 2, 1, 0, 0, 1, 1 / 2, 1 / 2] : List ℚ).length
        = 6 * ([1, 2] : List Nat).length
      ∧ (2 ∈ ([1, 2] : List Nat)
        ∧ ¬ (2 < ([0, 0, 0, 1 / 2, 1 / 2, 1 / 2, 1, 0, 0, 1, 1 / 2, 1 / 2] :
            List ℚ).length / 6)) := by
  refine ⟨?_, by decide, by decide, by decide⟩
  simp only [loadOBJ, loadOBJStep, List.isEmpty_cons, Bool.or_self, Bool.false_eq_true,
    if_false, List.length_cons, List.length_nil, List.range, List.range.loop, List.zip,
    List.zipWith, List.foldl, List.getD_cons_zero, List.getD_cons_succ, List.nil_append,
    List.cons_append]
  norm_num

end ObjLoaderInstance

/-! ## Viewer: rotation around an axis -/

section AxisRotation

/-- The vector `(1, 0, 0)` is already normalised. -/
theorem normalize_x_axis : (⟨1, 0, 0⟩ : Vec3 ℝ).normalize Real.sqrt = ⟨1, 0, 0⟩ := by
  simp [Vec3.normalize, Vec3.length, Vec3.scale]

/-- The vector `(0, -1, 0)` is already normalised. -/
theorem normalize_neg_y_axis : (⟨0, -1, 0⟩ : Vec3 ℝ).normalize Real.sqrt = ⟨0, -1, 0⟩ := by
  simp [Vec3.normalize, Vec3.length, Vec3.scale]

/-- The vector `(0, 0, 1)` is already normalised. -/
theorem normalize_z_axis : (⟨0, 0, 1⟩ : Vec3 ℝ).normalize Real.sqrt = ⟨0, 0, 1⟩ := by
  simp [Vec3.normalize, Vec3.length, Vec3.scale]

/-- For the axis `(1, 0, 0)` the alignment rotation is about `(0, -1, 0)` by `π / 2`. -/
theorem alignment_x_axis :
    alignment Real.sqrt Real.arccos Real.pi (⟨1, 0, 0⟩ : Vec3 ℝ)
      = (⟨0, -1, 0⟩, Real.pi / 2) := by
  have hc : (⟨1, 0, 0⟩ : Vec3 ℝ).cross ⟨0, 0, 1⟩ = ⟨0, -1, 0⟩ := by
    simp [Vec3.cross]
  have hl : ¬ ((⟨0, -1, 0⟩ : Vec3 ℝ).length Real.sqrt < 0.001) := by
    have : (⟨0, -1, 0⟩ : Vec3 ℝ).length Real.sqrt = 1 := by simp [Vec3.length]
    rw [this]
    norm_num
  have hd : (⟨1, 0, 0⟩ : Vec3 ℝ).dot ⟨0, 0, 1⟩ = 0 := by simp [Vec3.dot]
  simp only [alignment, hc, hl, if_false, hd, Real.arccos_zero, normalize_neg_y_axis]

/-- The three rotations composed by `rotateAroundAxis` for the axis `(1, 0, 0)` and the
angle `π / 2`, and the library rotation about `(1, 0, 0)` itself. -/
theorem glmRotate_quarter_turns :
    glmRotate Real.sqrt Real.cos Real.sin (-(Real.pi / 2)) (⟨0, -1, 0⟩ : Vec3 ℝ)
        = ⟨⟨0, 0, 1⟩, ⟨0, 1, 0⟩, ⟨-1, 0, 0⟩⟩
      ∧ glmRotate Real.sqrt Real.cos Real.sin (Real.pi / 2) (⟨0, -1, 0⟩ : Vec3 ℝ)
        = ⟨⟨0, 0, -1⟩, ⟨0, 1, 0⟩, ⟨1, 0, 0⟩⟩
      ∧ glmRotate Real.sqrt Real.cos Real.sin (Real.pi / 2) (⟨0, 0, 1⟩ : Vec3 ℝ)
        = ⟨⟨0, -1, 0⟩, ⟨1, 0, 0⟩, ⟨0, 0, 1⟩⟩
      ∧ glmRotate Real.sqrt Real.cos Real.sin (Real.pi / 2) (⟨1, 0, 0⟩ : Vec3 ℝ)
        = ⟨⟨1, 0, 0⟩, ⟨0, 0, -1⟩, ⟨0, 1, 0⟩⟩ := by
  refine ⟨?_, ?_, ?_, ?_⟩
  · simp only [glmRotate, normalize_neg_y_axis, Real.cos_neg, Real.sin_neg,
      Real.cos_pi_div_two, Real.sin_pi_div_two, Vec3.scale]
    norm_num
  · simp only [glmRotate, normalize_neg_y_axis, Real.cos_pi_div_two, Real.sin_pi_div_two,
      Vec3.scale]
    norm_num
  · simp only [glmRotate, normalize_z_axis, Real.cos_pi_div_two, Real.sin_pi_div_two,
      Vec3.scale]
    norm_num
  · simp only [glmRotate, normalize_x_axis, Real.cos_pi_div_two, Real.sin_pi_div_two,
      Vec3.scale]
    norm_num

/-- C28 (the code at the program's axis). For the axis `(1, 0, 0)` between the two
objects of the program, the factor `alignToZ` of `rotateAroundAxis` maps the normalised
axis to `(0, 0, -1)`, not to the z-axis `(0, 0, 1)`; and for the angle `π / 2` the
returned matrix maps `(0, 1, 0)` to `(0, 0, -1)`, whereas the rotation by `π / 2` around
`(1, 0, 0)` (`glm::rotate` itself) maps it to `(0, 0, 1)`: the returned matrix is the
rotation by `-angle`.  The axis itself is left fixed at this input. -/
theorem rotateAroundAxis_x_axis :
    (alignToZ Real.sqrt Real.cos Real.sin Real.arccos Real.pi ⟨1, 0, 0⟩).mulVec
        ((⟨1, 0, 0⟩ : Vec3 ℝ).normalize Real.sqrt) = ⟨0, 0, -1⟩
      ∧ (rotateAroundAxis Real.sqrt Real.cos Real.sin Real.arccos Real.pi ⟨1, 0, 0⟩
          (Real.pi / 2)).mulVec ⟨0, 1, 0⟩ = ⟨0, 0, -1⟩
      ∧ (glmRotate Real.sqrt Real.cos Real.sin (Real.pi / 2) (⟨1, 0, 0⟩ : Vec3 ℝ)).mulVec
          ⟨0, 1, 0⟩ = ⟨0, 0, 1⟩
      ∧ (rotateAroundAxis Real.sqrt Real.cos Real.sin Real.arccos Real.pi ⟨1, 0, 0⟩
          (Real.pi / 2)).mulVec ⟨1, 0, 0⟩ = ⟨1, 0, 0⟩ := by
  obtain ⟨hA, hB, hZ, hX⟩ := glmRotate_quarter_turns
  have hfar : ¬ (((⟨1, 0, 0⟩ : Vec3 ℝ) - ⟨0, 0, 1⟩).length Real.sqrt < 0.001) := by
    have h1 : (1 : ℝ) ≤ Real.sqrt 2 := Real.le_sqrt_of_sq_le (by norm_num)
    have e : ((⟨1, 0, 0⟩ : Vec3 ℝ) - ⟨0, 0, 1⟩).length Real.sqrt = Real.sqrt 2 := by
      simp only [Vec3.length, Vec3.sub_def]
      norm_num
    rw [e]
    norm_num
    linarith
  have hM : rotateAroundAxis Real.sqrt Real.cos Real.sin Real.arccos Real.pi ⟨1, 0, 0⟩
      (Real.pi / 2) = ⟨⟨1, 0, 0⟩, ⟨0, 0, 1⟩, ⟨0, -1, 0⟩⟩ := by
    simp only [rotateAroundAxis, normalize_x_axis, hfar, if_false, alignment_x_axis, hA,
      hB, hZ]
    simp [Mat3.mul, Vec3.dot]
  refine ⟨?_, ?_, ?_, ?_⟩
  · simp only [alignToZ, normalize_x_axis, alignment_x_axis, hA]
    simp [Mat3.mulVec, Vec3.dot]
  · rw [hM]
    simp [Mat3.mulVec, Vec3.dot]
  · rw [hX]
    simp [Mat3.mulVec, Vec3.dot]
  · rw [hM]
    simp [Mat3.mulVec, Vec3.dot]

end AxisRotation

/-! ### An axis that is neither parallel nor perpendicular to the z-axis -/

section AxisRotationOblique

/-- The axis `(3, 0, 4)` normalises to `(3/5, 0, 4/5)`. -/
theorem normalize_oblique_axis :
    (⟨3, 0, 4⟩ : Vec3 ℝ).normalize Real.sqrt = ⟨3 / 5, 0, 4 / 5⟩ := by
  have h5 : Real.sqrt 25 = 5 := by
    rw [show (25 : ℝ) = 5 * 5 by norm_num]
    exact Real.sqrt_mul_self (by norm_num)
  simp only [Vec3.normalize, Vec3.length, Vec3.scale, Vec3.mk.injEq]
  norm_num [h5]

/-- The cosine and sine of the alignment angle `arccos (4/5)`. -/
theorem oblique_angle_trig :
    Real.cos (Real.arccos (4 / 5)) = 4 / 5 ∧ Real.sin (Real.arccos (4 / 5)) = 3 / 5 := by
  constructor
  · exact Real.cos_arccos (by norm_num) (by norm_num)
  · rw [Real.sin_arccos]
    have e : (1 : ℝ) - (4 / 5) ^ 2 = (3 / 5) * (3 / 5) := by norm_num
    rw [e]
    exact Real.sqrt_mul_self (by norm_num)

/-- For the normalised axis `(3/5, 0, 4/5)` the alignment rotation is about `(0, -1, 0)`
by `arccos (4/5)`. -/
theorem alignment_oblique_axis :
    alignment Real.sqrt Real.arccos Real.pi (⟨3 / 5, 0, 4 / 5⟩ : Vec3 ℝ)
      = (⟨0, -1, 0⟩, Real.arccos (4 / 5)) := by
  have hc : (⟨3 / 5, 0, 4 / 5⟩ : Vec3 ℝ).cross ⟨0, 0, 1⟩ = ⟨0, -(3 / 5), 0⟩ := by
    simp [Vec3.cross]
  have hlen : (⟨0, -(3 / 5), 0⟩ : Vec3 ℝ).length Real.sqrt = 3 / 5 := by
    simp only [Vec3.length]
    rw [show (0 : ℝ) * 0 + -(3 / 5) * -(3 / 5) + 0 * 0 = (3 / 5) * (3 / 5) by norm_num]
    exact Real.sqrt_mul_self (by norm_num)
  have hl : ¬ ((⟨0, -(3 / 5), 0⟩ : Vec3 ℝ).length Real.sqrt < 0.001) := by
    rw [hlen]
    norm_num
  have hnorm : (⟨0, -(3 / 5), 0⟩ : Vec3 ℝ).normalize Real.sqrt = ⟨0, -1, 0⟩ := by
    simp only [Vec3.normalize, hlen, Vec3.scale, Vec3.mk.injEq]
    norm_num
  have hd : (⟨3 / 5, 0, 4 / 5⟩ : Vec3 ℝ).dot ⟨0, 0, 1⟩ = 4 / 5 := by simp [Vec3.dot]
  simp only [alignment, hc, hl, if_false, hd, hnorm]

/-- C28 (the code on an oblique axis). For the axis `(3, 0, 4)` the factor `alignToZ` of
`rotateAroundAxis` maps the normalised axis `(3/5, 0, 4/5)` to `(24/25, 0, 7/25)`, not to
the z-axis `(0, 0, 1)`, and for the angle `π` the returned matrix maps the axis
`(3, 0, 4)` to `(-117/25, 0, -44/25)`: the axis is not left fixed. -/
theorem rotateAroundAxis_moves_axis :
    (alignToZ Real.sqrt Real.cos Real.sin Real.arccos Real.pi ⟨3, 0, 4⟩).mulVec
        ((⟨3, 0, 4⟩ : Vec3 ℝ).normalize Real.sqrt) = ⟨24 / 25, 0, 7 / 25⟩
      ∧ (rotateAroundAxis Real.sqrt Real.cos Real.sin Real.arccos Real.pi ⟨3, 0, 4⟩
          Real.pi).mulVec ⟨3, 0, 4⟩ = ⟨-117 / 25, 0, -44 / 25⟩
      ∧ (rotateAroundAxis Real.sqrt Real.cos Real.sin Real.arccos Real.pi ⟨3, 0, 4⟩
          Real.pi).mulVec ⟨3, 0, 4⟩ ≠ ⟨3, 0, 4⟩ := by
  obtain ⟨hcos, hsin⟩ := oblique_angle_trig
  have hA : glmRotate Real.sqrt Real.cos Real.sin (-Real.arccos (4 / 5))
      (⟨0, -1, 0⟩ : Vec3 ℝ) = ⟨⟨4 / 5, 0, 3 / 5⟩, ⟨0, 1, 0⟩, ⟨-(3 / 5), 0, 4 / 5⟩⟩ := by
    simp only [glmRotate, normalize_neg_y_axis, Real.cos_neg, Real.sin_neg, hcos, hsin,
      Vec3.scale]
    norm_num
  have hB : glmRotate Real.sqrt Real.cos Real.sin (Real.arccos (4 / 5))
      (⟨0, -1, 0⟩ : Vec3 ℝ) = ⟨⟨4 / 5, 0, -(3 / 5)⟩, ⟨0, 1, 0⟩, ⟨3 / 5, 0, 4 / 5⟩⟩ := by
    simp only [glmRotate, normalize_neg_y_axis, hcos, hsin, Vec3.scale]
    norm_num
  have hZ : glmRotate Real.sqrt Real.cos Real.sin Real.pi (⟨0, 0, 1⟩ : Vec3 ℝ)
      = ⟨⟨-1, 0, 0⟩, ⟨0, -1, 0⟩, ⟨0, 0, 1⟩⟩ := by
    simp only [glmRotate, normalize_z_axis, Real.cos_pi, Real.sin_pi, Vec3.scale]
    norm_num
  have hfar : ¬ (((⟨3 / 5, 0, 4 / 5⟩ : Vec3 ℝ) - ⟨0, 0, 1⟩).length Real.sqrt < 0.001) := by
    have h1 : (0.001 : ℝ) ≤ Real.sqrt (3 / 5 * (3 / 5) + 0 * 0 + (4 / 5 - 1) * (4 / 5 - 1)) :=
      Real.le_sqrt_of_sq_le (by norm_num)
    simp only [Vec3.length, Vec3.sub_def, sub_zero]
    exact not_lt.mpr h1
  have hM : (rotateAroundAxis Real.sqrt Real.cos Real.sin Real.arccos Real.pi ⟨3, 0, 4⟩
      Real.pi).mulVec ⟨3, 0, 4⟩ = ⟨-117 / 25, 0, -44 / 25⟩ := by
    simp only [rotateAroundAxis, normalize_oblique_axis, hfar, if_false,
      alignment_oblique_axis, hA, hB, hZ]
    simp only [Mat3.mul, Mat3.mulVec, Vec3.dot, Vec3.mk.injEq]
    norm_num
  refine ⟨?_, hM, ?_⟩
  · simp only [alignToZ, normalize_oblique_axis, alignment_oblique_axis, hA]
    simp only [Mat3.mulVec, Vec3.dot, Vec3.mk.injEq]
    norm_num
  · rw [hM]
    intro h
    have hx := ((Vec3.mk.injEq _ _ _ _ _ _).mp h).1
    norm_num at hx

end AxisRotationOblique

/-! ## Binary32 arithmetic: literals and rounding -/

section Binary32Arithmetic

/-- The literal `0` is the positive zero. -/
theorem f32_zero_def : (0 : F32) = F32.fin false 0 := by decide!

/-- The literal `1` is `2^149` units of `2^(-149)`. -/
theorem f32_one_def : (1 : F32) = F32.fin false (2 ^ 149) := by decide!

/-- The order `≤` is the comparison `F32.le`. -/
theorem f32_le_def (x y : F32) : x ≤ y ↔ F32.le x y = true := Iff.rfl

/-- The order `<` is the comparison `F32.lt`. -/
theorem f32_lt_def (x y : F32) : x < y ↔ F32.lt x y = true := Iff.rfl

/-- The halving count leaves a quotient below `2^p`, and at least `2^(p-1)` when a bit
was dropped. -/
theorem f32_excess_spec (p : Nat) (hp : 0 < p) :
    ∀ f q : Nat, q < 2 ^ p * 2 ^ f →
      q / 2 ^ F32.excess p f q < 2 ^ p ∧
        (F32.excess p f q = 0 ∨ 2 ^ (p - 1) ≤ q / 2 ^ F32.excess p f q) := by
  intro f
  induction f with
  | zero =>
    intro q hq
    simp only [F32.excess, pow_zero, Nat.div_one, mul_one] at hq ⊢
    exact ⟨hq, Or.inl trivial⟩
  | succ f ih =>
    intro q hq
    by_cases hlt : q < 2 ^ p
    · simp [F32.excess, hlt]
    · simp only [F32.excess, hlt, if_false]
      have hq2 : q / 2 < 2 ^ p * 2 ^ f := by
        rw [Nat.div_lt_iff_lt_mul (by norm_num)]
        calc q < 2 ^ p * 2 ^ (f + 1) := hq
          _ = 2 ^ p * 2 ^ f * 2 := by rw [pow_succ]; ring
      obtain ⟨h1, h2⟩ := ih (q / 2) hq2
      have hdiv : q / 2 ^ (F32.excess p f (q / 2) + 1) = q / 2 / 2 ^ F32.excess p f (q / 2) := by
        rw [pow_succ, mul_comm, Nat.div_div_eq_div_mul]
      rw [hdiv]
      refine ⟨h1, Or.inr ?_⟩
      rcases h2 with h0 | h2
      · rw [h0, pow_zero, Nat.div_one]
        have hge : 2 ^ p ≤ q := Nat.le_of_not_lt hlt
        have hpp : 2 ^ p = 2 ^ (p - 1) * 2 := by
          rw [← pow_succ]; congr 1; omega
        rw [Nat.le_div_iff_mul_le (by norm_num)]
        omega
      · exact h2

/-- The rounded quotient of a value that is at most the integer `c` is at most `c`. -/
theorem f32_roundNat_le (n D c : Nat) (hD : 0 < D) (h : n ≤ c * D) : F32.roundNat n D ≤ c := by
  have hq : n / D ≤ c := by
    calc n / D ≤ c * D / D := Nat.div_le_div_right h
      _ = c := Nat.mul_div_cancel c hD
  unfold F32.roundNat
  simp only
  rcases Nat.lt_or_eq_of_le hq with hlt | heq
  · split_ifs <;> omega
  · have hn : n = c * D := by
      apply Nat.le_antisymm h
      calc c * D = n / D * D := by rw [heq]
        _ ≤ n := Nat.div_mul_le_self n D
    have hr : n % D = 0 := by rw [hn]; exact Nat.mul_mod_left c D
    rw [hr]
    simp only [mul_zero, hD, if_true]
    exact hq

/-- Rounding to a `p`-bit significand never exceeds a representable bound: a quotient
`n / d` at most `C * 2^i` with `C < 2^p` rounds to at most `C * 2^i`. -/
theorem f32_roundMag_le (p n d C i : Nat) (hp : 0 < p) (hd : 0 < d) (hC : C < 2 ^ p)
    (h : n ≤ C * 2 ^ i * d) : F32.roundMag p n d ≤ C * 2 ^ i := by
  unfold F32.roundMag
  simp only
  have hq : n / d ≤ C * 2 ^ i := by
    calc n / d ≤ C * 2 ^ i * d / d := Nat.div_le_div_right h
      _ = C * 2 ^ i := Nat.mul_div_cancel _ hd
  have hfuel : n / d < 2 ^ p * 2 ^ (n / d) :=
    lt_of_lt_of_le (Nat.lt_two_pow (n / d)) (Nat.le_mul_of_pos_left _ (by positivity))
  obtain ⟨_, h2⟩ := f32_excess_spec p hp (n / d) (n / d) hfuel
  generalize F32.excess p (n / d) (n / d) = j at h2 ⊢
  by_cases hji : j ≤ i
  · obtain ⟨e, rfl⟩ := Nat.exists_eq_add_of_le hji
    have hb : n ≤ (C * 2 ^ e) * (d * 2 ^ j) := by
      calc n ≤ C * 2 ^ (j + e) * d := h
        _ = (C * 2 ^ e) * (d * 2 ^ j) := by rw [pow_add]; ring
    have := f32_roundNat_le n (d * 2 ^ j) (C * 2 ^ e) (by positivity) hb
    calc F32.roundNat n (d * 2 ^ j) * 2 ^ j ≤ C * 2 ^ e * 2 ^ j := Nat.mul_le_mul_right _ this
      _ = C * 2 ^ (j + e) := by rw [pow_add]; ring
  · exfalso
    have hij : i + 1 ≤ j := by omega
    rcases h2 with h0 | h2
    · omega
    · have h3 : 2 ^ (p - 1) * 2 ^ j ≤ n / d := by
        have := Nat.div_mul_le_self (n / d) (2 ^ j)
        calc 2 ^ (p - 1) * 2 ^ j ≤ n / d / 2 ^ j * 2 ^ j := Nat.mul_le_mul_right _ h2
          _ ≤ n / d := this
      have h4 : 2 ^ p * 2 ^ i ≤ 2 ^ (p - 1) * 2 ^ j := by
        rw [← pow_add, ← pow_add]
        apply Nat.pow_le_pow_right (by norm_num)
        omega
      have h5 : C * 2 ^ i < 2 ^ p * 2 ^ i := Nat.mul_lt_mul_of_pos_right hC (by positivity)
      omega

end Binary32Arithmetic

section Binary32Shape

/-- The magnitude zero rounds to zero. -/
theorem f32_roundMag_zero (p d : Nat) (hd : 0 < d) : F32.roundMag p 0 d = 0 := by
  simp [F32.roundMag, F32.excess, F32.roundNat, hd]

/-- A zero of either sign rounds to the zero of that sign. -/
theorem f32_round_zero (s : Bool) (d : Nat) (hd : 0 < d) : F32.round s 0 d = F32.fin s 0 := by
  unfold F32.round
  simp [f32_roundMag_zero 24 d hd]

/-- A rounded value is an infinity or a finite value of the sign it was given. -/
theorem f32_round_shape (s : Bool) (n d : Nat) :
    F32.round s n d = F32.inf s ∨ ∃ k, F32.round s n d = F32.fin s k := by
  unfold F32.round
  simp only
  split_ifs
  · exact Or.inl rfl
  · exact Or.inr ⟨_, rfl⟩

/-- A rounded quotient that is at most a representable bound `C * 2^i` is finite and at
most that bound. -/
theorem f32_round_atMost (s : Bool) (n d C i : Nat) (hd : 0 < d) (hC : C < 2 ^ 24)
    (hi : i ≤ 253) (h : n ≤ C * 2 ^ i * d) (hs : s = true → n = 0) :
    F32.atMost (C * 2 ^ i) (F32.round s n d) = true := by
  have hle := f32_roundMag_le 24 n d C i (by norm_num) hd hC h
  have hlt : C * 2 ^ i < 2 ^ 24 * 2 ^ 253 :=
    calc C * 2 ^ i < 2 ^ 24 * 2 ^ i := Nat.mul_lt_mul_of_pos_right hC (by positivity)
      _ ≤ 2 ^ 24 * 2 ^ 253 := Nat.mul_le_mul_left _ (Nat.pow_le_pow_right (by norm_num) hi)
  unfold F32.round
  simp only
  rw [if_neg (by omega)]
  cases s with
  | false => simp [F32.atMost, hle]
  | true =>
    have hn := hs rfl
    subst hn
    simp [F32.atMost, f32_roundMag_zero 24 d hd]

/-- The values that are NaN or not below zero: NaN, the positive infinity, the finite
values with a clear sign bit, and the negative zero. -/
theorem f32_nanOrNonneg_iff (x : F32) :
    F32.NanOrNonneg x ↔
      x = F32.nan ∨ x = F32.inf false ∨ (∃ m, x = F32.fin false m) ∨ x = F32.fin true 0 := by
  unfold F32.NanOrNonneg
  rw [f32_le_def, f32_zero_def]
  cases x with
  | nan => simp
  | inf a =>
    cases a
    · simp [F32.le, F32.key]
    · simp [F32.le, F32.key]
  | fin a m =>
    cases a
    · simp [F32.le, F32.key]
    · simp [F32.le, F32.key]

end Binary32Shape

section Binary32Sqrt

/-- A Newton step from a positive `x` never falls below the integer square root. -/
theorem f32_newton_step_ge (n x : Nat) (hx : 0 < x) : Nat.sqrt n ≤ (x + n / x) / 2 := by
  have hs : Nat.sqrt n * Nat.sqrt n ≤ n := Nat.sqrt_le n
  rw [Nat.le_div_iff_mul_le (by norm_num)]
  by_cases h : Nat.sqrt n * 2 ≤ x
  · exact h.trans (Nat.le_add_right _ _)
  · have h2 : Nat.sqrt n * 2 - x ≤ n / x := by
      rw [Nat.le_div_iff_mul_le hx]
      have hle : x ≤ Nat.sqrt n * 2 := by omega
      obtain ⟨d, hd⟩ := Nat.exists_eq_add_of_le hle
      rw [hd, Nat.add_sub_cancel_left]
      have : d * x ≤ Nat.sqrt n * Nat.sqrt n := by
        have hx2 : x = Nat.sqrt n * 2 - d := by omega
        zify at hd hs ⊢
        have hd' : (d : Int) = Nat.sqrt n * 2 - x := by linarith
        rw [hd']
        nlinarith [sq_nonneg ((x : Int) - Nat.sqrt n)]
      exact this.trans hs
    generalize n / x = q at h2 ⊢
    omega

/-- Newton's iteration from a start at or above the integer square root, with enough
steps, ends at the integer square root. -/
theorem f32_isqrtAux_eq (n : Nat) :
    ∀ f x : Nat, 0 < x → x ≤ f → Nat.sqrt n ≤ x → F32.isqrtAux f n x = Nat.sqrt n := by
  intro f
  induction f with
  | zero => intro x hx hf; omega
  | succ f ih =>
    intro x hx hf hs
    unfold F32.isqrtAux
    simp only
    have hy := f32_newton_step_ge n x hx
    split_ifs with hlt
    · by_cases hy0 : (x + n / x) / 2 = 0
      · have h0 : Nat.sqrt n = 0 := by omega
        rw [hy0, h0]
        cases f with
        | zero => rfl
        | succ f => simp [F32.isqrtAux]
      · exact ih _ (Nat.pos_of_ne_zero hy0) (by omega) hy
    · have hxx : x * x ≤ n := by
        have h1 : x ≤ n / x := by omega
        exact (Nat.le_div_iff_mul_le hx).mp h1
      have : x ≤ Nat.sqrt n := Nat.le_sqrt.mpr hxx
      omega

/-- The iteration `F32.isqrt` computes the integer square root. -/
theorem f32_isqrt_eq (n : Nat) : F32.isqrt n = Nat.sqrt n := by
  unfold F32.isqrt
  rcases Nat.eq_zero_or_pos n with h | h
  · subst h
    rfl
  · exact f32_isqrtAux_eq n n n h (le_refl n) (Nat.sqrt_le_self n)

end Binary32Sqrt

section Binary32Nearest

/-- The rounded quotient is a nearest integer: it differs from `n / d` by at most one
half. -/
theorem f32_roundNat_nearest (n d : Nat) (hd : 0 < d) :
    2 * (F32.roundNat n d * d) ≤ 2 * n + d ∧ 2 * n ≤ 2 * (F32.roundNat n d * d) + d := by
  have hn : d * (n / d) + n % d = n := Nat.div_add_mod n d
  have hr : n % d < d := Nat.mod_lt n hd
  unfold F32.roundNat
  simp only
  generalize n / d = q at hn ⊢
  generalize n % d = r at hn hr ⊢
  have hq : d * q = q * d := Nat.mul_comm d q
  split_ifs
  · constructor <;> omega
  · rw [Nat.add_mul, Nat.one_mul]
    constructor <;> omega
  · constructor <;> omega
  · rw [Nat.add_mul, Nat.one_mul]
    constructor <;> omega

end Binary32Nearest

/-! ## Binary32 arithmetic: values that are NaN or not negative -/

section Binary32Closure

/-- The operator `*` is `F32.mul`. -/
theorem f32_mul_def (x y : F32) : x * y = F32.mul x y := rfl

/-- The operator `+` is `F32.add`. -/
theorem f32_add_def (x y : F32) : x + y = F32.add x y := rfl

/-- NaN is NaN or not below zero. -/
theorem f32_nanOrNonneg_nan : F32.NanOrNonneg F32.nan := Or.inl rfl

/-- The positive infinity is not below zero. -/
theorem f32_nanOrNonneg_inf : F32.NanOrNonneg (F32.inf false) :=
  (f32_nanOrNonneg_iff _).2 (Or.inr (Or.inl rfl))

/-- A finite value with a clear sign bit is not below zero. -/
theorem f32_nanOrNonneg_fin (m : Nat) : F32.NanOrNonneg (F32.fin false m) :=
  (f32_nanOrNonneg_iff _).2 (Or.inr (Or.inr (Or.inl ⟨m, rfl⟩)))

/-- The negative zero is not below zero. -/
theorem f32_nanOrNonneg_negZero : F32.NanOrNonneg (F32.fin true 0) :=
  (f32_nanOrNonneg_iff _).2 (Or.inr (Or.inr (Or.inr rfl)))

/-- A value rounded with a clear sign bit is not below zero. -/
theorem f32_nanOrNonneg_round (n d : Nat) : F32.NanOrNonneg (F32.round false n d) := by
  rcases f32_round_shape false n d with h | ⟨k, h⟩
  · rw [h]; exact f32_nanOrNonneg_inf
  · rw [h]; exact f32_nanOrNonneg_fin k

/-- The product of two values that are NaN or not below zero is NaN or not below zero. -/
theorem f32_nanOrNonneg_mul (x y : F32) (hx : F32.NanOrNonneg x) (hy : F32.NanOrNonneg y) :
    F32.NanOrNonneg (x * y) := by
  rw [f32_nanOrNonneg_iff] at hx hy
  rw [f32_mul_def]
  rcases hx with rfl | rfl | ⟨m, rfl⟩ | rfl <;> rcases hy with rfl | rfl | ⟨k, rfl⟩ | rfl <;>
    simp only [F32.mul, Bool.xor_false, Bool.false_xor, Bool.xor_true, Bool.true_xor,
      Bool.not_true, Bool.not_false, mul_zero, zero_mul, if_true] <;>
    (try split_ifs) <;>
    first
      | exact f32_nanOrNonneg_nan
      | exact f32_nanOrNonneg_inf
      | exact f32_nanOrNonneg_round _ _
      | (rw [f32_round_zero true _ (by positivity)]; exact f32_nanOrNonneg_negZero)

/-- The sum of two values that are NaN or not below zero is NaN or not below zero. -/
theorem f32_nanOrNonneg_add (x y : F32) (hx : F32.NanOrNonneg x) (hy : F32.NanOrNonneg y) :
    F32.NanOrNonneg (x + y) := by
  rw [f32_nanOrNonneg_iff] at hx hy
  rw [f32_add_def]
  rcases hx with rfl | rfl | ⟨m, rfl⟩ | rfl <;> rcases hy with rfl | rfl | ⟨k, rfl⟩ | rfl <;>
    simp only [F32.add, if_true, Bool.false_eq_true, Bool.true_eq_false, if_false,
      Nat.not_lt_zero, Nat.sub_zero, add_zero] <;>
    (try split_ifs) <;>
    first
      | exact f32_nanOrNonneg_nan
      | exact f32_nanOrNonneg_inf
      | exact f32_nanOrNonneg_fin _
      | exact f32_nanOrNonneg_round _ _
      | (rw [f32_round_zero true _ (by norm_num)]; exact f32_nanOrNonneg_negZero)

/-- The value `std::max(a, 0.0f)` is NaN or not below zero. -/
theorem f32_nanOrNonneg_max_zero (a : F32) : F32.NanOrNonneg (F32.max a 0) := by
  unfold F32.max
  split_ifs with h
  · exact Or.inr (by decide!)
  · rw [f32_zero_def] at h
    cases a with
    | nan => exact f32_nanOrNonneg_nan
    | inf s =>
      cases s
      · exact f32_nanOrNonneg_inf
      · exact absurd (by simp [F32.lt, F32.key]) h
    | fin s m =>
      cases s
      · exact f32_nanOrNonneg_fin m
      · have hm : m = 0 := by
          by_contra hne
          exact h (by simp [F32.lt, F32.key]; omega)
        subst hm
        exact f32_nanOrNonneg_negZero

/-- The value `std::pow(x, 32)` is NaN or not below zero. -/
theorem f32_nanOrNonneg_pow (x : F32) : F32.NanOrNonneg (F32.pow x 32) := by
  have h32 : decide (32 % 2 = 1) = false := by decide
  cases x with
  | nan => exact f32_nanOrNonneg_nan
  | inf s =>
    simp only [F32.pow, h32, Bool.and_false]
    exact f32_nanOrNonneg_inf
  | fin s m =>
    simp only [F32.pow, h32, Bool.and_false]
    split_ifs
    · exact f32_nanOrNonneg_inf
    · exact f32_nanOrNonneg_round _ _

/-- A value between `0` and `1` is finite, with magnitude at most `2^149` units. -/
theorem f32_atMost_of_unit (x : F32) (h0 : 0 ≤ x) (h1 : x ≤ 1) :
    F32.atMost (2 ^ 149) x = true := by
  rw [f32_le_def, f32_zero_def] at h0
  rw [f32_le_def, f32_one_def] at h1
  cases x with
  | nan => simp [F32.le, F32.key] at h0
  | inf s =>
    cases s
    · simp [F32.le, F32.key] at h1
    · simp [F32.le, F32.key] at h0
  | fin s m =>
    cases s
    · simp only [F32.le, F32.key, Bool.false_eq_true, if_false, decide_eq_true_eq] at h1
      simp only [F32.atMost, Bool.not_false, Bool.true_or, Bool.and_true, decide_eq_true_eq]
      exact_mod_cast h1
    · simp only [F32.le, F32.key, if_true, Bool.false_eq_true, if_false,
        decide_eq_true_eq] at h0
      have hm : m = 0 := by omega
      subst hm
      simp [F32.atMost]

/-- A finite value of magnitude at most `2^149` units that is not negative lies in
`[0, 1]`. -/
theorem f32_nanOrUnit_of_atMost (x : F32) (h : F32.atMost (2 ^ 149) x = true) :
    F32.NanOrUnit x := by
  refine Or.inr ?_
  rw [f32_le_def, f32_zero_def, f32_le_def, f32_one_def]
  cases x with
  | nan => simp [F32.atMost] at h
  | inf s => simp [F32.atMost] at h
  | fin s m =>
    cases s
    · simp only [F32.atMost, Bool.not_false, Bool.true_or, Bool.and_true,
        decide_eq_true_eq] at h
      simp only [F32.le, F32.key, Bool.false_eq_true, if_false, decide_eq_true_eq]
      exact ⟨by positivity, by exact_mod_cast h⟩
    · simp only [F32.atMost, Bool.not_true, Bool.false_or, Bool.and_eq_true,
        decide_eq_true_eq] at h
      obtain ⟨_, rfl⟩ := h
      simp [F32.le, F32.key]

/-- The clamp `std::min(x, 1.f)` of a value that is NaN or not below zero is NaN or in
`[0, 1]`. -/
theorem f32_nanOrUnit_min_one (x : F32) (hx : F32.NanOrNonneg x) :
    F32.NanOrUnit (F32.min x 1) := by
  unfold F32.min
  split_ifs with h
  · exact Or.inr (by decide!)
  · rcases hx with rfl | h0
    · exact Or.inl rfl
    · refine Or.inr ⟨h0, ?_⟩
      rw [f32_le_def] at h0 ⊢
      rw [f32_zero_def] at h0
      rw [f32_one_def] at h ⊢
      cases x with
      | nan => simp [F32.le, F32.key] at h0
      | inf s => cases s <;> simp [F32.lt, F32.le, F32.key] at h h0 ⊢
      | fin s m =>
        cases s
        · simp only [F32.lt, F32.key, Bool.false_eq_true, if_false, decide_eq_true_eq,
            not_lt] at h
          simp only [F32.le, F32.key, Bool.false_eq_true, if_false, decide_eq_true_eq]
          exact h
        · simp only [F32.le, F32.key, if_true, Bool.false_eq_true, if_false,
            decide_eq_true_eq]
          have : (0 : Int) ≤ 2 ^ 149 := by positivity
          omega

end Binary32Closure

/-! ## Binary32 colours -/

section Binary32Colour

/-- A sum with NaN is NaN. -/
theorem f32_add_nan (x : F32) : x + F32.nan = F32.nan := by
  cases x <;> rfl

/-- A product with NaN is NaN. -/
theorem f32_nan_mul (y : F32) : F32.nan * y = F32.nan := by
  cases y <;> rfl

/-- The product of a value in `[0, 1]` with a positive binary32 constant does not exceed
the constant: rounding is monotone and the constant is representable. -/
theorem f32_atMost_mul_const (r : F32) (C i : Nat) (hr : F32.atMost (2 ^ 149) r = true)
    (hC : C < 2 ^ 24) (hi : i ≤ 253) :
    F32.atMost (C * 2 ^ i) (r * F32.fin false (C * 2 ^ i)) = true := by
  rw [f32_mul_def]
  cases r with
  | nan => simp [F32.atMost] at hr
  | inf s => simp [F32.atMost] at hr
  | fin s m =>
    simp only [F32.atMost, Bool.and_eq_true, decide_eq_true_eq, Bool.or_eq_true,
      Bool.not_eq_true'] at hr
    obtain ⟨hm, hs⟩ := hr
    simp only [F32.mul, Bool.xor_false]
    apply f32_round_atMost s _ _ C i (by positivity) hC hi
    · calc m * (C * 2 ^ i) ≤ 2 ^ 149 * (C * 2 ^ i) := Nat.mul_le_mul_right _ hm
        _ = C * 2 ^ i * 2 ^ 149 := by ring
    · intro hst
      rcases hs with hs | hs
      · rw [hst] at hs; cases hs
      · rw [hs, zero_mul]

/-- The sum of two values bounded by `c1` and `c2` units with `c1 + c2 ≤ 2^149` lies in
`[0, 1]`. -/
theorem f32_atMost_add (x y : F32) (c1 c2 : Nat) (hx : F32.atMost c1 x = true)
    (hy : F32.atMost c2 y = true) (hc : c1 + c2 ≤ 2 ^ 149) :
    F32.atMost (2 ^ 149) (x + y) = true := by
  rw [f32_add_def]
  have hone : (2 : Nat) ^ 149 = 2 ^ 23 * 2 ^ 126 := by rw [← pow_add]
  cases x with
  | nan => simp [F32.atMost] at hx
  | inf s => simp [F32.atMost] at hx
  | fin s m =>
    cases y with
    | nan => simp [F32.atMost] at hy
    | inf t => simp [F32.atMost] at hy
    | fin t k =>
      simp only [F32.atMost, Bool.and_eq_true, decide_eq_true_eq, Bool.or_eq_true,
        Bool.not_eq_true'] at hx hy
      obtain ⟨hm, hs⟩ := hx
      obtain ⟨hk, ht⟩ := hy
      simp only [F32.add]
      rw [hone]
      split_ifs with hst hkm hmk
      · apply f32_round_atMost s _ _ (2 ^ 23) 126 (by norm_num) (by norm_num) (by norm_num)
        · rw [← hone]; omega
        · intro hs1
          rcases hs with hs | hs
          · rw [hs1] at hs; cases hs
          · rcases ht with ht | ht
            · rw [← hst, hs1] at ht; cases ht
            · omega
      · apply f32_round_atMost s _ _ (2 ^ 23) 126 (by norm_num) (by norm_num) (by norm_num)
        · rw [← hone]; omega
        · intro hs1
          rcases hs with hs | hs
          · rw [hs1] at hs; cases hs
          · omega
      · apply f32_round_atMost t _ _ (2 ^ 23) 126 (by norm_num) (by norm_num) (by norm_num)
        · rw [← hone]; omega
        · intro ht1
          rcases ht with ht | ht
          · rw [ht1] at ht; cases ht
          · omega
      · simp [F32.atMost]

/-- A bound on a finite value may be enlarged. -/
theorem f32_atMost_mono (x : F32) (c1 c2 : Nat) (h : c1 ≤ c2) (hx : F32.atMost c1 x = true) :
    F32.atMost c2 x = true := by
  cases x with
  | nan => simp [F32.atMost] at hx
  | inf s => simp [F32.atMost] at hx
  | fin s m =>
    simp only [F32.atMost, Bool.and_eq_true, decide_eq_true_eq, Bool.or_eq_true,
      Bool.not_eq_true'] at hx ⊢
    exact ⟨hx.1.trans h, hx.2⟩

/-- A bounded finite value is not below zero. -/
theorem f32_nanOrNonneg_of_atMost (x : F32) (c : Nat) (hx : F32.atMost c x = true) :
    F32.NanOrNonneg x := by
  cases x with
  | nan => simp [F32.atMost] at hx
  | inf s => simp [F32.atMost] at hx
  | fin s m =>
    simp only [F32.atMost, Bool.and_eq_true, decide_eq_true_eq, Bool.or_eq_true,
      Bool.not_eq_true'] at hx
    rcases hx.2 with hs | hm
    · subst hs; exact f32_nanOrNonneg_fin m
    · subst hm
      cases s
      · exact f32_nanOrNonneg_fin 0
      · exact f32_nanOrNonneg_negZero

set_option maxRecDepth 100000 in
/-- The binary32 values of the literals `255`, `0.1f`, `0.3f`, `0.7f` and `0.2f`. -/
theorem binary32_literals :
    (255 : F32) = F32.fin false (255 * 2 ^ 149) ∧
      (0.1 : F32) = F32.fin false (13421773 * 2 ^ 122) ∧
      (0.3 : F32) = F32.fin false (10066330 * 2 ^ 124) ∧
      (0.7 : F32) = F32.fin false (11744051 * 2 ^ 125) ∧
      (0.2 : F32) = F32.fin false (13421773 * 2 ^ 123) := by decide!

/-- A colour byte divided by `255.f` is a finite value in `[0, 1]`. -/
theorem binary32_objectColor_atMost (b : Fin 256) :
    F32.atMost (2 ^ 149) (F32.ofNat b.val / 255) = true := by
  have hb : F32.atMost (255 * 2 ^ 149) (F32.ofNat b.val) = true := by
    unfold F32.ofNat
    apply f32_round_atMost false _ _ 255 149 (by norm_num) (by norm_num) (by norm_num)
    · have := b.isLt
      rw [mul_one]
      exact Nat.mul_le_mul_right _ (by omega)
    · intro h; cases h
  rw [binary32_literals.1]
  show F32.atMost (2 ^ 149) (F32.div _ _) = true
  cases hv : F32.ofNat b.val with
  | nan => rw [hv] at hb; simp [F32.atMost] at hb
  | inf s => rw [hv] at hb; simp [F32.atMost] at hb
  | fin s k =>
    rw [hv] at hb
    simp only [F32.atMost, Bool.and_eq_true, decide_eq_true_eq, Bool.or_eq_true,
      Bool.not_eq_true'] at hb
    have hne : ¬ (255 * 2 ^ 149 = 0) := by positivity
    simp only [F32.div, hne, if_false, Bool.xor_false]
    have hone : (2 : Nat) ^ 149 = 2 ^ 23 * 2 ^ 126 := by rw [← pow_add]
    rw [hone]
    apply f32_round_atMost s _ _ (2 ^ 23) 126 (by positivity) (by norm_num) (by norm_num)
    · rw [← hone]
      calc k * 2 ^ 149 ≤ 255 * 2 ^ 149 * 2 ^ 149 := Nat.mul_le_mul_right _ hb.1
        _ = 2 ^ 149 * (255 * 2 ^ 149) := by ring
    · intro hs
      rcases hb.2 with h | h
      · rw [hs] at h; cases h
      · rw [h, zero_mul]

/-- A colour byte divided by `255.f` is not below zero. -/
theorem binary32_objectColor_nonneg (b : Fin 256) :
    F32.NanOrNonneg (F32.ofNat b.val / 255) :=
  f32_nanOrNonneg_of_atMost _ _ (binary32_objectColor_atMost b)

/-- The ambient channel `byte / 255.f * 0.1f` lies in `[0, 1]`. -/
theorem binary32_objectColor_ambient_unit (b : Fin 256) :
    F32.NanOrUnit (F32.ofNat b.val / 255 * 0.1) := by
  rw [binary32_literals.2.1]
  apply f32_nanOrUnit_of_atMost
  apply f32_atMost_mono _ (13421773 * 2 ^ 122) _ (by norm_num)
  exact f32_atMost_mul_const _ 13421773 122 (binary32_objectColor_atMost b) (by norm_num)
    (by norm_num)

/-- The plane term `byte / 255.f * 0.3f` is at most `0.3f`. -/
theorem binary32_baseColor_atMost (b : Fin 256) :
    F32.atMost (10066330 * 2 ^ 124) (F32.ofNat b.val / 255 * 0.3) = true := by
  rw [binary32_literals.2.2.1]
  exact f32_atMost_mul_const _ 10066330 124 (binary32_objectColor_atMost b) (by norm_num)
    (by norm_num)

/-- The plane blend `0.3f * base + 0.7f * reflected` of a byte colour and a reflected
channel that is NaN or in `[0, 1]` is NaN or in `[0, 1]`: `0.3f + 0.7f` is exactly `1`
and rounding is monotone. -/
theorem binary32_blend_nanOrUnit (b : Fin 256) (r : F32) (hr : F32.NanOrUnit r) :
    F32.NanOrUnit (F32.ofNat b.val / 255 * 0.3 + r * 0.7) := by
  rcases hr with rfl | ⟨h0, h1⟩
  · rw [f32_nan_mul, f32_add_nan]
    exact Or.inl rfl
  · apply f32_nanOrUnit_of_atMost
    have hA := binary32_baseColor_atMost b
    have hB := f32_atMost_mul_const r 11744051 125 (f32_atMost_of_unit r h0 h1)
      (by norm_num) (by norm_num)
    rw [← binary32_literals.2.2.2.1] at hB
    exact f32_atMost_add _ _ _ _ hA hB (by norm_num)

/-- `Vec3::operator+` on binary32 vectors, componentwise. -/
theorem binary32_vadd_def (a b : Vec3 F32) :
    a + b = ⟨a.x + b.x, a.y + b.y, a.z + b.z⟩ := rfl

/-- `Vec3::operator-` on binary32 vectors, componentwise. -/
theorem binary32_vsub_def (a b : Vec3 F32) :
    a - b = ⟨a.x - b.x, a.y - b.y, a.z - b.z⟩ := rfl

/-- One lit channel of `shade`: NaN or in `[0, 1]` when the light colour is not
negative. -/
theorem binary32_lit_channel_nanOrUnit (b : Fin 256) (lc nl vr : F32)
    (hlc : F32.NanOrNonneg lc) :
    F32.NanOrUnit (F32.min (F32.ofNat b.val / 255 * 0.1
      + F32.ofNat b.val / 255 * lc * F32.max nl 0 * 0.7
      + lc * F32.pow (F32.max vr 0) 32 * 0.2) 1) := by
  have h01 : F32.NanOrNonneg (0.1 : F32) := by
    rw [binary32_literals.2.1]; exact f32_nanOrNonneg_fin _
  have h07 : F32.NanOrNonneg (0.7 : F32) := by
    rw [binary32_literals.2.2.2.1]; exact f32_nanOrNonneg_fin _
  have h02 : F32.NanOrNonneg (0.2 : F32) := by
    rw [binary32_literals.2.2.2.2]; exact f32_nanOrNonneg_fin _
  have hobj := binary32_objectColor_nonneg b
  apply f32_nanOrUnit_min_one
  apply f32_nanOrNonneg_add
  · apply f32_nanOrNonneg_add
    · exact f32_nanOrNonneg_mul _ _ hobj h01
    · exact f32_nanOrNonneg_mul _ _
        (f32_nanOrNonneg_mul _ _ (f32_nanOrNonneg_mul _ _ hobj hlc)
          (f32_nanOrNonneg_max_zero nl)) h07
  · exact f32_nanOrNonneg_mul _ _
      (f32_nanOrNonneg_mul _ _ hlc (f32_nanOrNonneg_pow _)) h02

/-- Every channel of `shade` is NaN or in `[0, 1]` when the light colour is not
negative. -/
theorem binary32_shade_nanOrUnit (hit : HitInfo F32) (ray : Ray F32) (light : Light F32)
    (spheres : List (Sphere F32)) (triangles : List (Triangle F32))
    (hx : 0 ≤ light.color.x) (hy : 0 ≤ light.color.y) (hz : 0 ≤ light.color.z) :
    F32.NanOrUnit (Binary32.shade hit ray light spheres triangles).x ∧
      F32.NanOrUnit (Binary32.shade hit ray light spheres triangles).y ∧
      F32.NanOrUnit (Binary32.shade hit ray light spheres triangles).z := by
  unfold Binary32.shade
  simp only [Binary32.mul, Binary32.scale, binary32_vadd_def]
  split_ifs with hs
  · exact ⟨binary32_objectColor_ambient_unit hit.r, binary32_objectColor_ambient_unit hit.g,
      binary32_objectColor_ambient_unit hit.b⟩
  · dsimp only
    exact ⟨binary32_lit_channel_nanOrUnit hit.r _ _ _ (Or.inr hx),
      binary32_lit_channel_nanOrUnit hit.g _ _ _ (Or.inr hy),
      binary32_lit_channel_nanOrUnit hit.b _ _ _ (Or.inr hz)⟩

/-- Every channel of the body of `trace` is NaN or in `[0, 1]` at every level. -/
theorem binary32_traceLevels_nanOrUnit (spheres : List (Sphere F32))
    (triangles : List (Triangle F32)) (plane : Plane F32) (light : Light F32)
    (hx : 0 ≤ light.color.x) (hy : 0 ≤ light.color.y) (hz : 0 ≤ light.color.z) :
    ∀ (n : Nat) (ray : Ray F32) (depth : Int),
      F32.NanOrUnit (Binary32.traceLevels ⟨0.1, 0.1, 0.1⟩ spheres triangles plane light n ray depth).x ∧
      F32.NanOrUnit (Binary32.traceLevels ⟨0.1, 0.1, 0.1⟩ spheres triangles plane light n ray depth).y ∧
      F32.NanOrUnit (Binary32.traceLevels ⟨0.1, 0.1, 0.1⟩ spheres triangles plane light n ray depth).z := by
  have h01 : F32.NanOrUnit (0.1 : F32) := by
    rw [binary32_literals.2.1]
    exact f32_nanOrUnit_of_atMost _ (by simp [F32.atMost])
  intro n
  induction n with
  | zero =>
    intro ray depth
    exact ⟨h01, h01, h01⟩
  | succ n ih =>
    intro ray depth
    unfold Binary32.traceLevels
    split_ifs with hd
    · exact ⟨h01, h01, h01⟩
    · simp only
      split
      · rename_i tPlane _
        obtain ⟨rx, ry, rz⟩ := ih (Binary32.reflectRay ray plane tPlane) (depth + 1)
        exact ⟨binary32_blend_nanOrUnit plane.r _ rx, binary32_blend_nanOrUnit plane.g _ ry,
          binary32_blend_nanOrUnit plane.b _ rz⟩
      · split_ifs
        · exact binary32_shade_nanOrUnit _ _ _ _ _ hx hy hz
        · exact ⟨h01, h01, h01⟩

end Binary32Colour

/-! ## Sphere intersection in binary32 -/

section Binary32Sphere

set_option maxRecDepth 100000

/-- A binary32 value below zero does not exceed the bias `0.001f`. -/
theorem f32_not_gt_bias_of_neg (x : F32) (h : x < 0) : ¬ (x > 0.001) := by
  have hb : (0.001 : F32) = F32.fin false (8589935 * 2 ^ 116) := by decide!
  rw [gt_iff_lt, hb, f32_lt_def]
  rw [f32_lt_def, f32_zero_def] at h
  cases x with
  | nan => simp [F32.lt, F32.key] at h
  | inf s =>
    cases s
    · simp [F32.lt, F32.key] at h
    · simp [F32.lt, F32.key]
  | fin s m =>
    cases s
    · simp only [F32.lt, F32.key, Bool.false_eq_true, if_false, decide_eq_true_eq] at h
      omega
    · simp only [F32.lt, F32.key, if_true, Bool.false_eq_true, if_false,
        decide_eq_true_eq, not_lt]
      have : (0 : Int) ≤ ((8589935 * 2 ^ 116 : Nat) : Int) := Int.natCast_nonneg _
      have : -(m : Int) ≤ 0 := by omega
      omega

/-- C1. In binary32, with `oc = origin - center`, `b = 2 (direction · oc)`,
`c = oc · oc - radius²`, `disc = b² - 4c`, `t0 = (-b - sqrt disc)/2` and
`t1 = (-b + sqrt disc)/2`, every operation rounded as the program rounds it:
`intersectSphere` reports no hit when `disc < 0`; otherwise it reports `t0` if
`t0 > 0.001f`, else `t1` if `t1 > 0.001f`, else no hit.  In particular it reports no
hit whenever both roots are negative.  (A NaN discriminant is not below zero; both
roots are then NaN and no hit is reported.) -/
theorem intersectSphere_binary32_cases (ray : Ray F32) (sph : Sphere F32) :
    let oc := ray.origin - sph.center
    let b := 2 * Binary32.dot ray.direction oc
    let c := Binary32.dot oc oc - sph.radius * sph.radius
    let disc := b * b - 4 * c
    let t0 := (-b - F32.sqrt disc) / 2
    let t1 := (-b + F32.sqrt disc) / 2
    Binary32.intersectSphere ray sph =
        (if disc < 0 then none
         else if t0 > 0.001 then some t0
         else if t1 > 0.001 then some t1
         else none)
      ∧ (t0 < 0 → t1 < 0 → Binary32.intersectSphere ray sph = none) := by
  intro oc b c disc t0 t1
  have h4 : (4 : F32) * 1 = 4 := by decide!
  have h2 : (2 : F32) * 1 = 2 := by decide!
  have hdef : Binary32.intersectSphere ray sph =
      (if disc < 0 then none
       else if t0 > 0.001 then some t0
       else if t1 > 0.001 then some t1
       else none) := by
    simp only [Binary32.intersectSphere, h4, h2]
  refine ⟨hdef, fun h0 h1 => ?_⟩
  rw [hdef, if_neg (f32_not_gt_bias_of_neg t0 h0), if_neg (f32_not_gt_bias_of_neg t1 h1)]
  split_ifs <;> rfl

end Binary32Sphere

/-! ## Plane intersection in binary32 -/

section Binary32Plane

/-- C6 (amended). In binary32, `intersectPlane` reports a hit if and only if
`|direction · normal|` is not below the literal `1e-6f` and
`t = ((point - origin) · normal) / (direction · normal)`, every operation rounded as the
program rounds it, satisfies `t > 0.001f`; the distance it reports is that `t`.  In
exact arithmetic the hit point `origin + t * direction` of a reported hit lies on the
plane: `(origin + t * direction - point) · normal = 0`. -/
theorem intersectPlane_binary32_iff {F : Type} [LinearOrderedField F] (ray : Ray F32)
    (plane : Plane F32) (rayE : Ray F) (planeE : Plane F) :
    (let denom := Binary32.dot ray.direction plane.normal
     let t := Binary32.dot (plane.point - ray.origin) plane.normal / denom
     ((Binary32.intersectPlane ray plane).isSome ↔ (¬ F32.abs denom < 1e-6 ∧ t > 0.001))
       ∧ (∀ t', Binary32.intersectPlane ray plane = some t' → t' = t))
      ∧ (∀ t', intersectPlane rayE planeE = some t' →
          (rayE.origin + rayE.direction.scale t' - planeE.point).dot planeE.normal = 0) := by
  refine ⟨?_, fun t' ht' => ((intersectPlane_iff rayE planeE).2 t' ht').2⟩
  intro denom t
  have hdef : Binary32.intersectPlane ray plane =
      (if F32.abs denom < 1e-6 then none else if t > 0.001 then some t else none) := rfl
  refine ⟨⟨fun hs => ?_, fun hc => ?_⟩, fun t' ht' => ?_⟩
  · rw [hdef] at hs
    split_ifs at hs with h1 h2
    · exact absurd hs (by simp)
    · exact ⟨h1, h2⟩
    · exact absurd hs (by simp)
  · rw [hdef, if_neg hc.1, if_pos hc.2]
    rfl
  · rw [hdef] at ht'
    split_ifs at ht' with h1 h2
    exact (Option.some.inj ht').symm

end Binary32Plane

/-! ## Triangle, shading and tracing in binary32 -/

section Binary32Amended

set_option maxRecDepth 100000

/-- C4 (amended). In binary32, with `e1 = v1 - v0`, `e2 = v2 - v0`,
`h = direction × e2`, `a = e1 · h`, `f = 1/a`, `s = origin - v0`, `u = f * (s · h)`,
`q = s × e1`, `v = f * (direction · q)` and `t = f * (e2 · q)`, every operation rounded
as the program rounds it: `intersectTriangle` reports a hit if and only if `|a|` is not
below `1e-7f`, `u` is neither below `0` nor above `1`, `v` is not below `0`, `u + v` is
not above `1` and `t > 1e-7f`, and the distance it reports is `t`.  Every ray with
`u < 0`, `v < 0` or `u + v > 1` is rejected, and a ray exactly on an edge (`u = 0`,
`v = 0` or `u + v = 1`, the other conditions holding) is accepted. -/
theorem intersectTriangle_binary32_iff (ray : Ray F32) (tri : Triangle F32) :
    let e1 := tri.v1 - tri.v0
    let e2 := tri.v2 - tri.v0
    let h := Binary32.cross ray.direction e2
    let a := Binary32.dot e1 h
    let f := 1 / a
    let s := ray.origin - tri.v0
    let u := f * Binary32.dot s h
    let q := Binary32.cross s e1
    let v := f * Binary32.dot ray.direction q
    let t := f * Binary32.dot e2 q
    ((Binary32.intersectTriangle ray tri).isSome ↔
        (¬ F32.abs a < 1e-7 ∧ ¬ u < 0 ∧ ¬ u > 1 ∧ ¬ v < 0 ∧ ¬ u + v > 1 ∧ t > 1e-7))
      ∧ (∀ t', Binary32.intersectTriangle ray tri = some t' → t' = t)
      ∧ ((u < 0 ∨ v < 0 ∨ u + v > 1) → Binary32.intersectTriangle ray tri = none)
      ∧ (¬ F32.abs a < 1e-7 → t > 1e-7 → ¬ u < 0 → ¬ u > 1 → ¬ v < 0 → ¬ u + v > 1 →
          (u = 0 ∨ v = 0 ∨ u + v = 1) → Binary32.intersectTriangle ray tri = some t) := by
  intro e1 e2 h a f s u q v t
  have hdef : Binary32.intersectTriangle ray tri =
      (if F32.abs a < 1e-7 then none
       else if u < 0 ∨ u > 1 then none
       else if v < 0 ∨ u + v > 1 then none
       else if t > 1e-7 then some t
       else none) := rfl
  refine ⟨⟨fun hs => ?_, fun hc => ?_⟩, fun t' ht' => ?_, fun hrej => ?_, ?_⟩
  · rw [hdef] at hs
    split_ifs at hs with h1 h2 h3 h4
    · exact absurd hs (by simp)
    · exact absurd hs (by simp)
    · exact absurd hs (by simp)
    · push_neg at h2 h3
      exact ⟨h1, h2.1, h2.2, h3.1, h3.2, h4⟩
    · exact absurd hs (by simp)
  · obtain ⟨h1, h2, h3, h4, h5, h6⟩ := hc
    rw [hdef, if_neg h1, if_neg (by tauto), if_neg (by tauto), if_pos h6]
    rfl
  · rw [hdef] at ht'
    split_ifs at ht' with h1 h2 h3 h4
    exact (Option.some.inj ht').symm
  · rw [hdef]
    split_ifs with h1 h2 h3 h4
    · rfl
    · rfl
    · rfl
    · exfalso
      push_neg at h2 h3
      rcases hrej with hr | hr | hr
      · exact h2.1 hr
      · exact h3.1 hr
      · exact h3.2 hr
    · rfl
  · intro h1 h6 h2 h3 h4 h5 _
    rw [hdef, if_neg h1, if_neg (by tauto), if_neg (by tauto), if_pos h6]

/-- C10 (amended). In binary32, for every hit, incident ray, sphere list and triangle
list, and every light whose colour components are not below zero, every channel of the
colour returned by `shade` is NaN or lies in the closed interval `[0, 1]`. -/
theorem shade_binary32_range (hit : HitInfo F32) (ray : Ray F32) (light : Light F32)
    (spheres : List (Sphere F32)) (triangles : List (Triangle F32))
    (hx : 0 ≤ light.color.x) (hy : 0 ≤ light.color.y) (hz : 0 ≤ light.color.z) :
    let c := Binary32.shade hit ray light spheres triangles
    (c.x = F32.nan ∨ (0 ≤ c.x ∧ c.x ≤ 1)) ∧ (c.y = F32.nan ∨ (0 ≤ c.y ∧ c.y ≤ 1)) ∧
      (c.z = F32.nan ∨ (0 ≤ c.z ∧ c.z ≤ 1)) :=
  binary32_shade_nanOrUnit hit ray light spheres triangles hx hy hz

/-- C10 (amended), instance: white light `(1,1,1)` on the red point of the `x` axis, a
blue sphere away from the shadow ray. -/
theorem shade_binary32_range_witness :
    ((0 : F32) ≤ 1 ∧ (0 : F32) ≤ 1 ∧ (0 : F32) ≤ 1) ∧
      (let c := Binary32.shade ⟨1, ⟨0, 0, 0⟩, ⟨1, 0, 0⟩, 255, 0, 0⟩ ⟨⟨1, 0, 0⟩, ⟨-1, 0, 0⟩⟩
          ⟨⟨1, 0, 0⟩, ⟨1, 1, 1⟩⟩ [⟨⟨0, 0, -10⟩, 1, 0, 0, 255⟩] [];
        (c.x = F32.nan ∨ (0 ≤ c.x ∧ c.x ≤ 1)) ∧ (c.y = F32.nan ∨ (0 ≤ c.y ∧ c.y ≤ 1)) ∧
          (c.z = F32.nan ∨ (0 ≤ c.z ∧ c.z ≤ 1))) :=
  ⟨by decide!,
    shade_binary32_range ⟨1, ⟨0, 0, 0⟩, ⟨1, 0, 0⟩, 255, 0, 0⟩ ⟨⟨1, 0, 0⟩, ⟨-1, 0, 0⟩⟩
      ⟨⟨1, 0, 0⟩, ⟨1, 1, 1⟩⟩ [⟨⟨0, 0, -10⟩, 1, 0, 0, 255⟩] [] (by decide!) (by decide!)
      (by decide!)⟩

/-- C29 (amended). In binary32, for every scene whose light colour components are not
below zero, every ray and every integer depth, every channel of the colour returned by
`trace` is NaN or lies in `[0, 1]`: the background and depth-limit colours are `0.1f`,
a channel of `shade` is NaN or in `[0, 1]`, and the plane blend
`0.3f * base + 0.7f * reflected` of a byte colour and such a channel is again NaN or in
`[0, 1]` (`0.3f + 0.7f = 1` exactly, and rounding is monotone). -/
theorem trace_binary32_range (ray : Ray F32) (spheres : List (Sphere F32))
    (triangles : List (Triangle F32)) (plane : Plane F32) (light : Light F32)
    (depth : Int)
    (hx : 0 ≤ light.color.x) (hy : 0 ≤ light.color.y) (hz : 0 ≤ light.color.z) :
    let c := Binary32.trace ray spheres triangles plane light depth
    (c.x = F32.nan ∨ (0 ≤ c.x ∧ c.x ≤ 1)) ∧ (c.y = F32.nan ∨ (0 ≤ c.y ∧ c.y ≤ 1)) ∧
      (c.z = F32.nan ∨ (0 ≤ c.z ∧ c.z ≤ 1)) :=
  binary32_traceLevels_nanOrUnit spheres triangles plane light hx hy hz _ ray depth

/-- C29 (amended), instance: the program's red sphere, floor and light, and the ray from
the eye `(0,1,4)` towards the origin. -/
theorem trace_binary32_range_witness :
    ((0 : F32) ≤ 1 ∧ (0 : F32) ≤ 1 ∧ (0 : F32) ≤ 1) ∧
      (let c := Binary32.trace ⟨⟨0, 1, 4⟩, Binary32.normalize ⟨0, -1, -4⟩⟩
          [⟨⟨0, 0, 0⟩, 1, 255, 0, 0⟩] [] ⟨⟨0, -0.6, 0⟩, ⟨0, 1, 0⟩, 200, 200, 200⟩
          ⟨⟨2, 5, 5⟩, ⟨1, 1, 1⟩⟩ 0;
        (c.x = F32.nan ∨ (0 ≤ c.x ∧ c.x ≤ 1)) ∧ (c.y = F32.nan ∨ (0 ≤ c.y ∧ c.y ≤ 1)) ∧
          (c.z = F32.nan ∨ (0 ≤ c.z ∧ c.z ≤ 1))) :=
  ⟨by decide!,
    trace_binary32_range ⟨⟨0, 1, 4⟩, Binary32.normalize ⟨0, -1, -4⟩⟩
      [⟨⟨0, 0, 0⟩, 1, 255, 0, 0⟩] [] ⟨⟨0, -0.6, 0⟩, ⟨0, 1, 0⟩, 200, 200, 200⟩
      ⟨⟨2, 5, 5⟩, ⟨1, 1, 1⟩⟩ 0 (by decide!) (by decide!) (by decide!)⟩

end Binary32Amended

/-! ## The claims that fail in binary32 -/

section Binary32Counterexamples

set_option maxRecDepth 100000

/-- The recursion equation of `trace` in binary32: the body of the C++ function, the
nested call made with `depth + 1`. -/
theorem trace_binary32_unfold (ray : Ray F32) (spheres : List (Sphere F32))
    (triangles : List (Triangle F32)) (plane : Plane F32) (light : Light F32)
    (depth : Int) :
    Binary32.trace ray spheres triangles plane light depth =
      if depth > 2 then ⟨0.1, 0.1, 0.1⟩
      else
        match Binary32.planeBranch ray plane
            (Binary32.closestPrimitive ray spheres triangles).1.t with
        | some tPlane =>
          Binary32.scale ⟨F32.ofNat plane.r.val / 255, F32.ofNat plane.g.val / 255,
              F32.ofNat plane.b.val / 255⟩ 0.3
            + Binary32.scale (Binary32.trace (Binary32.reflectRay ray plane tPlane) spheres
                triangles plane light (depth + 1)) 0.7
        | none =>
          if (Binary32.closestPrimitive ray spheres triangles).2 then
            Binary32.shade (Binary32.closestPrimitive ray spheres triangles).1 ray light
              spheres triangles
          else ⟨0.1, 0.1, 0.1⟩ := by
  unfold Binary32.trace Binary32.traceWithLimit
  by_cases hd : depth > 2
  · rw [if_pos hd]
    unfold Binary32.traceLevels
    rw [if_pos hd]
  · rw [if_neg hd]
    have hn : (3 - depth).toNat + 1 = ((3 - (depth + 1)).toNat + 1) + 1 := by omega
    rw [hn]
    conv_lhs => unfold Binary32.traceLevels
    rw [if_neg hd]

/-- On the axis ray of C3 the binary32 program does not report `5 - r` for the radius
`r = 1/2048`: it reports `t = 5`, and the normal computed at the hit point (the centre of
the sphere) is `(NaN, NaN, NaN)`. -/
theorem intersectSphere_binary32_axis_tiny :
    F32.toRat (1 / 2048) = 1 / 2048 ∧
      Binary32.intersectSphere ⟨⟨0, 0, 5⟩, ⟨0, 0, -1⟩⟩ ⟨⟨0, 0, 0⟩, 1 / 2048, 255, 0, 0⟩
        = some 5 ∧
      Binary32.getSphereNormal ⟨⟨0, 0, 0⟩, 1 / 2048, 255, 0, 0⟩
          ((⟨0, 0, 5⟩ : Vec3 F32) + Binary32.scale ⟨0, 0, -1⟩ 5)
        = ⟨F32.nan, F32.nan, F32.nan⟩ := by
  decide!

/-- C4 (as stated) fails in binary32: for the triangle `(0,0,0), (31,0,0), (0,31,0)`
and the ray from `(2,29,1)` straight down, the quotients of the claim satisfy every
condition (`|a| = 961`, `u ≥ 0`, `v ≥ 0`, `u + v = 1`, `t > 1e-7`: the ray is exactly on
the edge `u + v = 1`), and in exact arithmetic the hit is reported at `t = 1`; the
program multiplies by the rounded reciprocal `f = 1/a` instead, finds
`f*(s·h) + f*(direction·q) > 1` and reports no hit. -/
theorem intersectTriangle_binary32_edge :
    let ray : Ray F32 := ⟨⟨2, 29, 1⟩, ⟨0, 0, -1⟩⟩
    let tri : Triangle F32 := ⟨⟨0, 0, 0⟩, ⟨31, 0, 0⟩, ⟨0, 31, 0⟩, 255, 0, 255⟩
    let e1 := tri.v1 - tri.v0
    let e2 := tri.v2 - tri.v0
    let h := Binary32.cross ray.direction e2
    let a := Binary32.dot e1 h
    let s := ray.origin - tri.v0
    let u := Binary32.dot s h / a
    let q := Binary32.cross s e1
    let v := Binary32.dot ray.direction q / a
    let t := Binary32.dot e2 q / a
    (1e-7 ≤ F32.abs a ∧ 0 ≤ u ∧ 0 ≤ v ∧ u + v = 1 ∧ u + v ≤ 1 ∧ t > 1e-7) ∧
      Binary32.intersectTriangle ray tri = none ∧
      1 / a * Binary32.dot s h + 1 / a * Binary32.dot ray.direction q > 1 ∧
      intersectTriangle (⟨⟨2, 29, 1⟩, ⟨0, 0, -1⟩⟩ : Ray ℚ)
        ⟨⟨0, 0, 0⟩, ⟨31, 0, 0⟩, ⟨0, 31, 0⟩, 255, 0, 255⟩ = some 1 := by
  decide!

/-- C6 (as stated) fails in binary32.  For the floor plane `y = -0.6f` with normal
`(0,1,0)` and the ray from `(0,40000,0)` along the normalised `(12,-5,0)`,
`intersectPlane` reports a hit whose point `origin + t * direction` has
`y = -0.6015625`: it is not on the plane, neither as the program computes it nor when
the reported `t` is substituted exactly.  And for the direction `(1, -1e-6f, 0)` above the
plane `y = 0` the hit is reported at `t = 10^6` although `|direction · normal|` is the
binary32 literal `1e-6f`, which is below `10^(-6)`. -/
theorem intersectPlane_binary32_off_plane :
    let ray : Ray F32 := ⟨⟨0, 40000, 0⟩, Binary32.normalize ⟨12, -5, 0⟩⟩
    let plane : Plane F32 := ⟨⟨0, -0.6, 0⟩, ⟨0, 1, 0⟩, 200, 200, 200⟩
    let t := F32.ofBits 0x47cb20c8
    let grazing : Ray F32 := ⟨⟨0, 1, 0⟩, ⟨1, -1e-6, 0⟩⟩
    let ground : Plane F32 := ⟨⟨0, 0, 0⟩, ⟨0, 1, 0⟩, 200, 200, 200⟩
    (Binary32.intersectPlane ray plane = some t ∧
        ray.origin + Binary32.scale ray.direction t
          = ⟨F32.ofBits 0x47bb80b9, F32.ofBits 0xbf1a0000, 0⟩ ∧
        Binary32.dot (ray.origin + Binary32.scale ray.direction t - plane.point) plane.normal
          ≠ 0 ∧
        (Binary32.exact ray.origin + (Binary32.exact ray.direction).scale t.toRat
            - Binary32.exact plane.point).dot (Binary32.exact plane.normal) ≠ 0) ∧
      (Binary32.intersectPlane grazing ground = some 1000000 ∧
        |(Binary32.exact grazing.direction).dot (Binary32.exact ground.normal)| < 1e-6) := by
  decide!

/-- C10 (as stated) fails in binary32: with the light colour `(-1,-1,-1)` every channel
returned by `shade` is about `-0.8`, and with the light at the hit position the light
direction is `0 * (1/0) = NaN` and every channel returned by `shade` is NaN, which is
neither at least `0` nor at most `1`. -/
theorem shade_binary32_not_in_range :
    Binary32.shade ⟨1, ⟨0, 0, 0⟩, ⟨1, 0, 0⟩, 255, 255, 255⟩ ⟨⟨1, 0, 0⟩, ⟨-1, 0, 0⟩⟩
        ⟨⟨1, 0, 0⟩, ⟨-1, -1, -1⟩⟩ [] []
      = ⟨F32.ofBits 0xbf4ccccc, F32.ofBits 0xbf4ccccc, F32.ofBits 0xbf4ccccc⟩ ∧
    F32.ofBits 0xbf4ccccc < 0 ∧
    Binary32.shade ⟨1, ⟨0, 0, 0⟩, ⟨0, 1, 0⟩, 255, 0, 0⟩ ⟨⟨0, 0, 5⟩, ⟨0, 0, -1⟩⟩
        ⟨⟨0, 0, 0⟩, ⟨1, 1, 1⟩⟩ [] []
      = ⟨F32.nan, F32.nan, F32.nan⟩ ∧
    ¬ (0 ≤ F32.nan ∧ F32.nan ≤ 1) := by
  decide!

/-- C29 (as stated) fails in binary32: for the sphere of radius `0.5` centred at
`(0,0,-4096)`, the white light at the origin and the ray from the origin along
`(0,0,-1)`, `c = 4096² - 0.25` rounds to `2^24`, the hit point is the centre of the
sphere, the normal is `(NaN, NaN, NaN)` and `trace` returns NaN in every channel, which is
neither at least `0` nor at most `1`. -/
theorem trace_binary32_nan :
    let light : Light F32 := ⟨⟨0, 0, 0⟩, ⟨1, 1, 1⟩⟩
    (0 ≤ light.color.x ∧ 0 ≤ light.color.y ∧ 0 ≤ light.color.z) ∧
      Binary32.trace ⟨⟨0, 0, 0⟩, ⟨0, 0, -1⟩⟩ [⟨⟨0, 0, -4096⟩, 0.5, 255, 0, 0⟩] []
          ⟨⟨0, -0.6, 0⟩, ⟨0, 1, 0⟩, 200, 200, 200⟩ light 0
        = ⟨F32.nan, F32.nan, F32.nan⟩ ∧
      ¬ (0 ≤ F32.nan ∧ F32.nan ≤ 1) := by
  decide!

/-- Two rays of the program's scene (the red unit sphere at the origin, the floor, the
light at `(2,5,5)`) from the eye `(0,1,4)`: one shaded on the sphere with a specular
term, one reflected by the floor; the channels are the binary32 values the compiled
program computes. -/
theorem trace_binary32_program_scene :
    Binary32.trace ⟨⟨0, 1, 4⟩, Binary32.normalize ⟨0, -1, -4⟩⟩ [⟨⟨0, 0, 0⟩, 1, 255, 0, 0⟩] []
          ⟨⟨0, -0.6, 0⟩, ⟨0, 1, 0⟩, 200, 200, 200⟩ ⟨⟨2, 5, 5⟩, ⟨1, 1, 1⟩⟩ 0
        = ⟨F32.ofBits 0x3f24306d, F32.ofBits 0x38604df0, F32.ofBits 0x38604df0⟩ ∧
    Binary32.trace ⟨⟨0, 1, 4⟩, Binary32.normalize ⟨0, -2, -1⟩⟩ [⟨⟨0, 0, 0⟩, 1, 255, 0, 0⟩] []
          ⟨⟨0, -0.6, 0⟩, ⟨0, 1, 0⟩, 200, 200, 200⟩ ⟨⟨2, 5, 5⟩, ⟨1, 1, 1⟩⟩ 0
        = ⟨F32.ofBits 0x3e9c4f83, F32.ofBits 0x3e9c4f83, F32.ofBits 0x3e9c4f83⟩ := by
  decide!

end Binary32Counterexamples

end RayTracer
